import Mathlib

/-!
FTP: a shallow embedding of the primary server `server.c`, and of the
functions of `client.c` and `mirror.c` that the later sections are about.

C strings are modelled by the list of their characters before the terminating
NUL (`CStr`).  Machine integers are `Int`, with an explicit wrap wherever the
code narrows a 64-bit value to `int`.

Arrays of fixed size: a write past the end of `message`, of the `argv` of
`eval` (more than `MAXARG` arguments), of `msg2parent` in `process` and of the
`buf` of the client's `waitmsg`, and a message that does not end within the
`msg` of `sigusr1_handler`, end the run in a result of its own (`overrun`, or
`none` where the result is an option): from there on the text of the program
does not say what happens.  The other arrays (`buf` of `process`, `ext` of
`match`, `msg` of `transfer`, the name buffers) are not given a capacity: a
string in them is as long as what the code writes.
-/

namespace FTP

set_option linter.unusedVariables false

/-- A C string: its characters up to, and without, the terminating NUL. -/
abbrev CStr := List Char

/-! ## Constants of `server.c` -/

def ERR : Int := -1
def OK : Int := 10
def FILE : Int := 11
def QUIT : Int := 12
def MIRROR : Int := 13
def BUSY : Int := 14
def MAXARG : Nat := 8
def MAXLINE : Nat := 128
def PATH : CStr := "data".toList

/-! ## Machine integers and the libc number conversions -/

/-- Conversion of a wider integer to a 32-bit `int` (two's complement wrap). -/
def wrap32 (x : Int) : Int := (x + 2 ^ 31) % 2 ^ 32 - 2 ^ 31

/-- Saturation to the range of `long`, as `strtol` does on overflow. -/
def clamp64 (x : Int) : Int :=
  if x > 2 ^ 63 - 1 then 2 ^ 63 - 1 else if x < -(2 ^ 63) then -(2 ^ 63) else x

/-- The character of a decimal digit. -/
def digitChar (d : Nat) : Char :=
  match d with
  | 0 => '0' | 1 => '1' | 2 => '2' | 3 => '3' | 4 => '4'
  | 5 => '5' | 6 => '6' | 7 => '7' | 8 => '8' | _ => '9'

/-- The value of a decimal digit character, `none` for any other character. -/
def digitVal (c : Char) : Option Nat :=
  if c = '0' then some 0 else if c = '1' then some 1 else if c = '2' then some 2
  else if c = '3' then some 3 else if c = '4' then some 4 else if c = '5' then some 5
  else if c = '6' then some 6 else if c = '7' then some 7 else if c = '8' then some 8
  else if c = '9' then some 9 else none

/-- Digits of `n`, most significant first, pushed in front of `acc`. -/
def decimalAux : Nat → Nat → CStr → CStr
  | 0, _, acc => acc
  | fuel + 1, n, acc =>
    if n < 10 then digitChar n :: acc
    else decimalAux fuel (n / 10) (digitChar (n % 10) :: acc)

/-- Decimal representation of a natural number, as printf prints it. -/
def decimal (n : Nat) : CStr := decimalAux (n + 1) n []

/-- The conversion `%lld` of printf. -/
def fmt_lld (x : Int) : CStr :=
  if x < 0 then '-' :: decimal x.natAbs else decimal x.natAbs

/-- The longest run of leading decimal digits, read as a number on top of `acc`. -/
def atoiDigits : Nat → CStr → Nat
  | acc, [] => acc
  | acc, c :: cs =>
    match digitVal c with
    | some d => atoiDigits (acc * 10 + d) cs
    | none => acc

/-- The predicate `isspace` of the C locale. -/
def isspace (c : Char) : Bool :=
  c = ' ' || c = '\t' || c = '\n' || c = '\x0b' || c = '\x0c' || c = '\r'

/-- The libc `strtol` in base 10: white space, a sign, digits; saturating. -/
def strtol (s : CStr) : Int :=
  match s.dropWhile isspace with
  | [] => 0
  | c :: r =>
    if c = '-' then clamp64 (-(atoiDigits 0 r : Int))
    else if c = '+' then clamp64 (atoiDigits 0 r)
    else clamp64 (atoiDigits 0 (c :: r))

/-- The libc `atoi`: `(int) strtol (s, NULL, 10)`. -/
def atoi (s : CStr) : Int := wrap32 (strtol s)

/-! ## String helpers of libc -/

/-- The call `strchr (s, c)`: the text before the first `c` and the text after it. -/
def strchr (c : Char) : CStr → Option (CStr × CStr)
  | [] => none
  | x :: xs =>
    if x = c then some ([], xs)
    else match strchr c xs with
      | some (pre, post) => some (x :: pre, post)
      | none => none

/-- The call `strrchr (s, c)`: the index of the last `c` and the text after it. -/
def strrchr (c : Char) : CStr → Option (Nat × CStr)
  | [] => none
  | x :: xs =>
    match strrchr c xs with
    | some (i, post) => some (i + 1, post)
    | none => if x = c then some (0, xs) else none

/-- The libc `basename` on a path that does not end in a slash, which is what
`ftw` hands to its callback: the text after the last slash. -/
def basename (path : CStr) : CStr :=
  match path with
  | [] => ['.']
  | _ =>
    match strrchr '/' path with
    | some (_, post) => post
    | none => path

/-! ## The process state -/

/-- What the descriptor number kept in `socketfd.pipefd[1]` names in a
process: the write end of the pipe; nothing, once the process has closed it;
or the connection `accept` has returned since, `accept` handing out the lowest
number that is free. -/
inductive PipeEnd
  | pipe
  | closed
  | conn
deriving DecidableEq, Repr

/-- The record `socketfd_t`. Of the descriptors only `pipefd[1]` is kept, as
what its number names in the process at hand; `fork` hands the child a copy
of the descriptors along with the memory. -/
structure Socketfd where
  nclient : Int
  mirror_hostname : CStr
  mirror_port : CStr
  dirty : Int
  pipefd1 : PipeEnd := PipeEnd.pipe
deriving DecidableEq, Repr

/-- Calls that leave the process, in the order they are made. -/
inductive Effect
  | visit (fpath : CStr)
  | system (cmd : CStr)
  | send (bytes : List Char)
  | sendfile (count : Int)
  | unlink (name : CStr)
  | pipe_write (bytes : List Char)
  | kill_usr1
  | close_conn
  | close_pipe
deriving DecidableEq, Repr

/-- The globals of `server.c`, and the log of outside calls made so far. -/
structure Globals where
  socketfd : Socketfd
  client_hostname : CStr
  client_port : CStr
  message : CStr
  status : Int
  trace : List Effect
deriving DecidableEq, Repr

/-- How a piece of code ends: it returns a value, the process exits, it
dereferences a null pointer, or it writes past the end of an array, after
which the text of the program no longer says what happens (`g` is the state
before that write). -/
inductive Res (α : Type)
  | ok (a : α) (g : Globals)
  | exit (code : Int) (g : Globals)
  | segv (g : Globals)
  | overrun (g : Globals)
deriving DecidableEq, Repr

/-! ## The directory walk -/

/-- The type flag `ftw` passes to its callback. -/
inductive FtwType
  | FTW_F | FTW_D | FTW_DNR | FTW_NS | FTW_SL
deriving DecidableEq, Repr

/-- The two fields of `struct stat` the code reads. -/
structure Stat where
  st_size : Int
  st_ctime : Int
deriving DecidableEq, Repr

/-- One call of the walk callback: path, stat record, type flag. -/
structure Entry where
  fpath : CStr
  st : Stat
  type : FtwType
deriving DecidableEq, Repr

/-- The fields of `struct tm` the code touches. -/
structure Tm where
  tm_sec : Int
  tm_min : Int
  tm_hour : Int
  tm_mday : Int
  tm_mon : Int
  tm_year : Int
  tm_isdst : Int
deriving DecidableEq, Repr

/-- The locals of `compare` that are read before anything is stored in them. -/
structure Indet where
  year : Int
  tm1 : Tm
  tm2 : Tm
deriving DecidableEq, Repr

/-- What the code takes from outside in one run of one process: `ctime`,
`mktime`, the year conversion
`sscanf (s, "%*s %*s %*2d %*02d:%*02d:%*02d %d", &year)` (`none` when nothing
is stored), and the stack contents `compare` finds in that run when it is
called on an entry. Two runs, or the primary and the mirror, need not find
the same stack contents. -/
structure Env where
  ctime : Int → CStr
  mktime : Tm → Int
  sscanf_year : CStr → Option Int
  indet : Entry → Indet

/-- What one call of `ftw` meets: the entries it hands to the callback, in
order, and whether the walk then fails (the directory cannot be opened, memory
runs out), which makes `ftw` return -1. A walk of a directory that does not
exist has no entry and fails. -/
structure Walk where
  entries : List Entry
  fails : Bool
deriving DecidableEq, Repr

/-- A list of entries stands for the walk over them that completes. -/
instance : Coe (List Entry) Walk := ⟨fun fs => { entries := fs, fails := false }⟩

/-- The loop of the libc `ftw`: the callback is called on each entry in order
until it returns a nonzero value, which is then the result; at the end of the
entries the result is 0, or -1 when the walk fails there. -/
def ftwLoop (fn : Entry → Globals → Res Int) (fails : Bool) : List Entry → Globals → Res Int
  | [], g => .ok (if fails then -1 else 0) g
  | e :: es, g =>
    match fn e { g with trace := g.trace ++ [Effect.visit e.fpath] } with
    | .ok r g1 => if r ≠ 0 then .ok r g1 else ftwLoop fn fails es g1
    | .exit c g1 => .exit c g1
    | .segv g1 => .segv g1
    | .overrun g1 => .overrun g1

/-- The libc `ftw`. -/
def ftw (fn : Entry → Globals → Res Int) (w : Walk) (g : Globals) : Res Int :=
  ftwLoop fn w.fails w.entries g

/-! ## `parse` -/

/-- The loop `while (*buf && (*buf == ' ')) ++buf`. -/
def skipSpaces : CStr → CStr
  | [] => []
  | c :: cs => if c = ' ' then skipSpaces cs else c :: cs

/-- The statement `buf[strlen(buf) - 1] = ' '`; on the empty string the byte
written lies before the buffer and the string stays empty. -/
def setLast (buf : CStr) : CStr :=
  match buf with
  | [] => []
  | _ => buf.dropLast ++ [' ']

/-- The loop of `parse` that builds the argument list. -/
def parseLoop : Nat → CStr → List CStr → List CStr
  | 0, _, argv => argv
  | fuel + 1, buf, argv =>
    match strchr ' ' buf with
    | none => argv
    | some (arg, rest) => parseLoop fuel (skipSpaces rest) (argv ++ [arg])

/-- The function `parse`: the returned `int` and the argument list. -/
def parse (buf : CStr) : Int × List CStr :=
  let buf1 := setLast buf
  let argv := parseLoop (buf1.length + 1) (skipSpaces buf1) []
  if argv.length = 0 then (-1, argv) else (argv.length, argv)

/-! ## Predicates of the query verbs -/

/-- The function `available`. -/
def available (s : Socketfd) : Int :=
  if s.nclient ≤ 4 then 1
  else if s.nclient ≤ 8 then 0
  else if Int.tmod s.nclient 2 = 0 then 0
  else 1

/-- The date branch of `compare`: the second date only overwrites `year` and
`tm1` after the first bound has been computed; `tm2` is never written. -/
def compareDate (E : Env) (u : Indet) (st : Stat) (c1 c2 : CStr) : Int :=
  let ct := wrap32 st.st_ctime
  let year := (E.sscanf_year c1).getD u.year
  let tm1 := { u.tm1 with tm_year := wrap32 (year - 1900) }
  let tm1 := { tm1 with tm_mon := wrap32 (tm1.tm_mon - 1), tm_isdst := -1 }
  let ctime_t1 := E.mktime tm1
  let year := (E.sscanf_year c2).getD year
  let tm1 := { tm1 with tm_year := wrap32 (year - 1900) }
  let tm1 := { tm1 with tm_mon := wrap32 (tm1.tm_mon - 1), tm_isdst := -1 }
  let ctime_t2 := E.mktime u.tm2
  if ct ≥ ctime_t1 ∧ ct ≤ ctime_t2 then 1 else 0

/-- The function `compare`; `none` when a null argument is dereferenced. -/
def compare (E : Env) (u : Indet) (st : Stat) (c1 c2 : Option CStr) (type : CStr) :
    Option Int :=
  if type = "sgetfiles".toList then
    let size := wrap32 st.st_size
    match c1 with
    | none => none
    | some a =>
      if size ≥ atoi a then
        match c2 with
        | none => none
        | some b => some (if size ≤ atoi b then 1 else 0)
      else some 0
  else
    match c1, c2 with
    | some a, some b => some (compareDate E u st a b)
    | _, _ => none

/-- The function `contains`. -/
def contains (args : List CStr) (fname : CStr) : Int :=
  match args with
  | [] => 0
  | a :: rest => if fname = a then 1 else contains rest fname

/-- The function `get_file_ext`: the extension stored in `ext`, `none` for result 0. -/
def get_file_ext (fname : CStr) : Option CStr :=
  match strrchr '.' fname with
  | some (i, post) => if i ≠ 0 then some post else none
  | none => none

/-- The loop of `match` over the given extensions. -/
def matchLoop (args : List CStr) (ext : CStr) : Int :=
  match args with
  | [] => 0
  | a :: rest => if ext = a then 1 else matchLoop rest ext

/-- The function `match`. -/
def match_ (args : List CStr) (fname : CStr) : Int :=
  match get_file_ext fname with
  | none => 0
  | some ext => matchLoop args ext

/-! ## The walk callbacks -/

/-- The callback `findfile`; `extr_arg` is the argument list set by `eval`.
`sprintf` writes the reply and its terminator into `char message[MAXLINE]`. -/
def findfile (E : Env) (extr_arg : List CStr) (e : Entry) (g : Globals) : Res Int :=
  match e.type with
  | .FTW_F =>
    let fname := basename e.fpath
    match extr_arg[1]? with
    | none => .segv g
    | some a =>
      if fname = a then
        if ("OK:".toList ++ fname ++ ", ".toList ++ fmt_lld e.st.st_size ++ ", ".toList
            ++ E.ctime e.st.st_ctime).length < MAXLINE then
          .ok 1 { g with message := "OK:".toList ++ fname ++ ", ".toList
                    ++ fmt_lld e.st.st_size ++ ", ".toList ++ E.ctime e.st.st_ctime }
        else .overrun g
      else .ok 0 g
  | _ => .ok 0 g

/-- The callback `sdgetfiles`; the two `strcat` calls lengthen the string in
`char message[MAXLINE]`. -/
def sdgetfiles (E : Env) (extr_arg : List CStr) (e : Entry) (g : Globals) : Res Int :=
  match e.type with
  | .FTW_F =>
    match compare E (E.indet e) e.st (extr_arg[1]?) (extr_arg[2]?) (extr_arg.headD []) with
    | none => .segv g
    | some r =>
      if r ≠ 0 then
        if (g.message ++ " ".toList ++ e.fpath).length < MAXLINE then
          .ok 0 { g with message := g.message ++ " ".toList ++ e.fpath, status := OK }
        else .overrun g
      else .ok 0 g
  | _ => .ok 0 g

/-- The callback `getfiles`. -/
def getfiles (extr_arg : List CStr) (e : Entry) (g : Globals) : Res Int :=
  match e.type with
  | .FTW_F =>
    let fname := basename e.fpath
    if contains (extr_arg.drop 1) fname ≠ 0 then
      if (g.message ++ " ".toList ++ e.fpath).length < MAXLINE then
        .ok 0 { g with message := g.message ++ " ".toList ++ e.fpath, status := OK }
      else .overrun g
    else .ok 0 g
  | _ => .ok 0 g

/-- The callback `gettargz`. -/
def gettargz (extr_arg : List CStr) (e : Entry) (g : Globals) : Res Int :=
  match e.type with
  | .FTW_F =>
    if match_ (extr_arg.drop 1) e.fpath ≠ 0 then
      if (g.message ++ " ".toList ++ e.fpath).length < MAXLINE then
        .ok 0 { g with message := g.message ++ " ".toList ++ e.fpath, status := OK }
      else .overrun g
    else .ok 0 g
  | _ => .ok 0 g

/-! ## `eval` -/

/-- The call `system (message)`. -/
def system (g : Globals) : Globals :=
  { g with trace := g.trace ++ [Effect.system g.message] }

/-- The function `eval` of the primary server, on the walk `fs` of the data
directory. `parse` fills `char *argv[MAXARG]`: with more than `MAXARG`
arguments it has written past the array. (The null pointer `parse` stores
behind a list of exactly `MAXARG` arguments lies past the array too; no
effect of that one store is modelled.) -/
def eval (E : Env) (fs : Walk) (msg : CStr) (g : Globals) : Res Unit :=
  match parse msg with
  | (argc, argv) =>
    if (MAXARG : Int) < argc then .overrun g
    else if argc < 0 then .exit 1 g
    else
      let g := { g with status := ERR, message := "tar -czf temp.tar.gz".toList }
      let verb := argv.headD []
      if verb = "HELLO".toList then
        if available g.socketfd ≠ 0 then
          .ok () { g with message := "OK".toList, status := OK }
        else .ok () { g with status := BUSY }
      else if verb = "findfile".toList then
        match ftw (findfile E argv) fs g with
        | .ok r g1 =>
          if r ≠ 0 then .ok () { g1 with status := OK }
          else .ok () { g1 with status := ERR, message := "ERR:File not found".toList }
        | .exit c g1 => .exit c g1
        | .segv g1 => .segv g1
        | .overrun g1 => .overrun g1
      else if verb = "sgetfiles".toList ∨ verb = "dgetfiles".toList then
        match ftw (sdgetfiles E argv) fs g with
        | .ok _ g1 =>
          let g2 := if g1.status = OK then system g1 else g1
          .ok () { g2 with status := FILE }
        | .exit c g1 => .exit c g1
        | .segv g1 => .segv g1
        | .overrun g1 => .overrun g1
      else if verb = "getfiles".toList then
        match ftw (getfiles argv) fs g with
        | .ok _ g1 =>
          if g1.status = OK then .ok () { system g1 with status := FILE }
          else .ok () { g1 with status := ERR, message := "ERR:No file found".toList }
        | .exit c g1 => .exit c g1
        | .segv g1 => .segv g1
        | .overrun g1 => .overrun g1
      else if verb = "gettargz".toList then
        match ftw (gettargz argv) fs g with
        | .ok _ g1 =>
          if g1.status = OK then .ok () { system g1 with status := FILE }
          else .ok () { g1 with status := ERR, message := "ERR:No file found".toList }
        | .exit c g1 => .exit c g1
        | .segv g1 => .segv g1
        | .overrun g1 => .overrun g1
      else if verb = "quit".toList then .ok () { g with status := QUIT }
      else if verb = "MIRROR".toList then
        match argv[1]? with
        | none => .segv g
        | some port => .ok () { g with client_port := port, status := MIRROR }
      else .ok () { g with status := ERR }

/-! ## The listening process: the loop of `processclient` -/

/-- The function `sigusr1_handler` on the string that `read` has left in
`char msg[MAXLINE]`; `read` takes at most `MAXLINE` bytes. The result is
`none` when the string does not end within the array, so that `strchr` runs
past it, and when the message holds no space and the null result of `strchr`
is written through. -/
def sigusr1_handler (msg : CStr) (s : Socketfd) : Option Socketfd :=
  if MAXLINE ≤ msg.length then none
  else
    match strchr ' ' msg with
    | none => none
    | some (host, port) =>
      some { s with mirror_hostname := host, mirror_port := port, dirty := 0 }

/-- Where the listening process stands in its loop. -/
inductive Pc
  | accepting
  | accepted (ok : Bool)
  | forked
  | waiting
  | dead
deriving DecidableEq, Repr

/-- A child forked for one connection: whether `accept` gave a descriptor, the
copy of the globals it starts with, and the registrations delivered before the fork. -/
structure Session where
  connected : Bool
  globals : Globals
  regs : List CStr
deriving DecidableEq, Repr

/-- The listening process: its globals, its place in the loop, whether the
SIGUSR1 handler is installed; and, for the record, the children forked so far,
the number of connections `accept` has returned and the registration messages
the handler has processed. -/
structure Server where
  g : Globals
  pc : Pc
  handler : Bool
  sessions : List Session
  naccept : Nat
  delivered : List CStr
deriving DecidableEq, Repr

/-- What can happen to the listening process. -/
inductive Event
  | connect (ok : Bool) (host port : CStr)
  | fork (ok : Bool)
  | install
  | resume
  | sigusr1 (msg : CStr)
deriving DecidableEq, Repr

/-- The state `main` hands to `processclient`. -/
def Server.init : Server :=
  { g := { socketfd := { nclient := -1, mirror_hostname := [], mirror_port := [], dirty := 1 },
           client_hostname := [], client_port := [], message := [], status := 0, trace := [] },
    pc := .accepting, handler := false, sessions := [], naccept := 0, delivered := [] }

/-- The descriptor numbers after `accept`: a connection that is accepted gets
the lowest free number, which is the number of `pipefd[1]` once the listening
process has closed that one (the numbers below it are in use since `pipe` was
called, and the earlier connection, which has a higher number, is closed at
the end of each pass). -/
def accepted_fd (ok : Bool) (s : Socketfd) : Socketfd :=
  if ok = true ∧ s.pipefd1 = PipeEnd.closed then { s with pipefd1 := PipeEnd.conn } else s

/-- One step of the listening process. `connect`: `accept` returns and
`getnameinfo` fills the peer names. `fork`: `nclient++`, then `fork`, whose
failure exits; the child starts with a copy of the globals and descriptors,
and the parent goes on to `close (socketfd.pipefd[1])`. `install`:
`signal (SIGUSR1, sigusr1_handler)`. `resume`: the loop
`while (socketfd.dirty) pause ()` is left. `sigusr1`: the signal arrives;
without a handler it ends the process. An event that cannot happen in the
current state leaves it as it is. -/
def step (s : Server) (ev : Event) : Server :=
  match ev with
  | .connect ok host port =>
    if s.pc = .accepting then
      { s with pc := .accepted ok,
               g := { s.g with client_hostname := host, client_port := port,
                               socketfd := accepted_fd ok s.g.socketfd },
               naccept := if ok then s.naccept + 1 else s.naccept }
    else s
  | .fork ok =>
    match s.pc with
    | .accepted conn =>
      let g1 := { s.g with socketfd := { s.g.socketfd with nclient := s.g.socketfd.nclient + 1 } }
      if ok then
        { s with g := { g1 with socketfd := { g1.socketfd with pipefd1 := PipeEnd.closed } },
                 pc := .forked,
                 sessions := s.sessions ++ [{ connected := conn, globals := g1, regs := s.delivered }] }
      else { s with g := g1, pc := .dead }
    | _ => s
  | .install => if s.pc = .forked then { s with handler := true, pc := .waiting } else s
  | .resume =>
    if s.pc = .waiting ∧ s.g.socketfd.dirty = 0 then { s with pc := .accepting } else s
  | .sigusr1 msg =>
    if s.pc = .dead then s
    else if s.handler then
      match sigusr1_handler msg s.g.socketfd with
      | some sock => { s with g := { s.g with socketfd := sock }, delivered := s.delivered ++ [msg] }
      | none => { s with pc := .dead }
    else { s with pc := .dead }

/-- The state of the listening process after a sequence of events. -/
def run (evs : List Event) : Server := evs.foldl step Server.init

/-- What holds of the listening process in every state it reaches: as long
as no registration has been processed the gate is closed; while the gate is
closed the counter is at most 0, at most one connection has been accepted and
at most one child forked, none of them before `accept` has returned for the
first time; and a child forked while the gate was closed has counter 0. -/
structure Inv (s : Server) : Prop where
  closed : s.delivered = [] → s.g.socketfd.dirty ≠ 0
  fresh : s.g.socketfd.dirty ≠ 0 → s.pc = .accepting →
    s.naccept = 0 ∧ s.sessions = [] ∧ s.g.socketfd.nclient = -1
  pending : s.g.socketfd.dirty ≠ 0 → ∀ ok, s.pc = .accepted ok →
    s.sessions = [] ∧ s.g.socketfd.nclient = -1
  once : s.g.socketfd.dirty ≠ 0 →
    s.naccept ≤ 1 ∧ s.sessions.length ≤ 1 ∧ s.g.socketfd.nclient ≤ 0
  first : ∀ sess ∈ s.sessions,
    (sess.regs = [] ∨ sess.globals.socketfd.dirty ≠ 0) → sess.globals.socketfd.nclient ≤ 0

/-! ## The session handler: `process` and the functions that write to the peer -/

/-- The printf conversion `%d` handed the 64-bit `st_size`: its low 32 bits, read as an `int`. -/
def fmt_d (x : Int) : CStr := fmt_lld (wrap32 x)

/-- The bytes of a buffer seen as a C string: those before the first NUL. -/
def cstr (bytes : List Char) : CStr := bytes.takeWhile (fun c => c != '\x00')

/-- One result of `recv`: bytes, the peer has closed (0), or an error (-1). -/
inductive Recv
  | data (bytes : List Char)
  | closed
  | error
deriving DecidableEq, Repr

/-- What `open` followed by `fstat` finds: a file and its size, or no file, in
which case the descriptor is -1, `fstat` fails and `st_size` keeps whatever the
stack held. -/
inductive Opened
  | file (st_size : Int)
  | bad (st_size : Int)
deriving DecidableEq, Repr

/-- What one call of `process` takes from outside: the results of its `recv`
calls, what opening `temp.tar.gz` and `files.tar.gz` finds, and whether
`system` in the MIRROR branch returns a value that is not negative. -/
structure Inputs where
  recv : List Recv
  temp : Opened
  files : Opened
  system_ok : Bool
deriving DecidableEq, Repr

/-- The receive loop of `process`: the bytes gathered in `buf` and the last
value of `nrecv`. When the listed results run out the peer has closed. -/
def recvLine : List Recv → List Char → List Char × Int
  | [], buf => (buf, 0)
  | .data bytes :: rest, buf =>
    if bytes.length = 0 then (buf, 0)
    else if (buf ++ bytes).getLast? = some '\n' then (buf ++ bytes, bytes.length)
    else recvLine rest (buf ++ bytes)
  | .closed :: _, buf => (buf, 0)
  | .error :: _, buf => (buf, -1)

/-- Appends one outside call to the log. -/
def emit (ef : Effect) (g : Globals) : Globals := { g with trace := g.trace ++ [ef] }

/-- The function `send_text`: one `send` of `strlen (msg) + 1` bytes. -/
def send_text (msg : CStr) (g : Globals) : Globals := emit (.send (msg ++ ['\x00'])) g

/-- The function `transfer`. -/
def transfer (g : Globals) : Globals :=
  emit (.send ("BUSY:".toList ++ g.socketfd.mirror_hostname ++ " ".toList
    ++ g.socketfd.mirror_port ++ ['\x00'])) g

/-- The function `send_file` on what `open` and `fstat` found: the SIZE line,
then `sendfile` with the size as count, which fails on the descriptor -1. -/
def send_file (f : Opened) (g : Globals) : Res Unit :=
  match f with
  | .file st_size =>
    .ok () (emit (.sendfile st_size)
      (emit (.send ("SIZE:".toList ++ fmt_d st_size ++ ['\n'])) g))
  | .bad st_size =>
    .exit 1 (emit .close_conn (emit (.send ("SIZE:".toList ++ fmt_d st_size ++ ['\n'])) g))

/-- The call `write (socketfd.pipefd[1], ...)`, whose result the code does not
look at: the bytes go into the pipe, or to the peer when the number names the
connection, or nowhere. -/
def write_pipefd (bytes : List Char) (g : Globals) : Globals :=
  match g.socketfd.pipefd1 with
  | .pipe => emit (.pipe_write bytes) g
  | .conn => emit (.send bytes) g
  | .closed => g

/-- The calls `close (socketfd.pipefd[1]); close (connfd);`: when the first
number names the connection, the first call closes it and the second fails. -/
def close_fds (g : Globals) : Globals :=
  match g.socketfd.pipefd1 with
  | .pipe => emit .close_conn (emit .close_pipe g)
  | .conn => emit .close_conn g
  | .closed => emit .close_conn g

/-- The function `process` of the primary server: one command received,
evaluated and answered. In the MIRROR branch `sprintf` writes the host, a
space, the port and the terminator into `char msg2parent[MAXLINE]`. -/
def process (E : Env) (fs : Walk) (inp : Inputs) (g : Globals) : Res Unit :=
  match recvLine inp.recv [] with
  | (buf, nrecv) =>
    if nrecv < 0 then .exit 1 g
    else
      match eval E fs (cstr buf) g with
      | .exit c g1 => .exit c g1
      | .segv g1 => .segv g1
      | .overrun g1 => .overrun g1
      | .ok _ g1 =>
        if g1.status = OK then .ok () (send_text g1.message g1)
        else if g1.status = ERR then .ok () (send_text g1.message g1)
        else if g1.status = BUSY then .ok () (transfer g1)
        else if g1.status = FILE then
          match send_file inp.temp g1 with
          | .ok _ g2 => .ok () (emit (.unlink "temp.tar.gz".toList) g2)
          | .exit c g2 => .exit c g2
          | .segv g2 => .segv g2
          | .overrun g2 => .overrun g2
        else if g1.status = MIRROR then
          let g2 := emit (.system ("tar -czf files.tar.gz ".toList ++ PATH ++ "/".toList)) g1
          if inp.system_ok then
            match send_file inp.files g2 with
            | .ok _ g3 =>
              let g4 := emit (.unlink "files.tar.gz".toList) g3
              if (g4.client_hostname ++ " ".toList ++ g4.client_port).length < MAXLINE then
                let g5 := write_pipefd (g4.client_hostname ++ " ".toList
                  ++ g4.client_port ++ ['\x00']) g4
                let g6 := emit .kill_usr1 g5
                .exit 0 (close_fds g6)
              else .overrun g4
            | .exit c g3 => .exit c g3
            | .segv g3 => .segv g3
            | .overrun g3 => .overrun g3
          else .exit 1 (emit .close_conn g2)
        else if g1.status = QUIT then .exit 0 (close_fds g1)
        else .ok () g1

/-- The writes `process` made on the connection, in order. -/
def sends (trace : List Effect) : List Effect :=
  trace.filter (fun ef =>
    match ef with
    | .send _ => true
    | .sendfile _ => true
    | _ => false)

/-! ## The receiver of the client: `waitmsg` of `client.c` -/

namespace Client

def ERR : Int := -1
def OK : Int := 0
def FILE : Int := 1
def BUSY : Int := 2
def MAXFILESIZE : Nat := 4096

/-- The scan `strchr (buf, '\n')` over the bytes `recv` has just stored at the
start of `buf`: the index of the first newline; `some none` when a NUL comes
first and the result is null; `none` when the received bytes hold neither, so
that the scan runs on into bytes that were not received. -/
def scanNewline : List Char → Nat → Option (Option Nat)
  | [], _ => none
  | c :: cs, i =>
    if c = '\n' then some (some i)
    else if c = '\x00' then some none
    else scanNewline cs (i + 1)

/-- The locals of `waitmsg` its loop works on (`fp` as its distance from the
start of `buf`), the bytes written so far to `temp.tar.gz`, and the results of
`recv` not read yet. -/
structure Wait where
  status : Int
  fsize : Int
  first : Bool
  nrecv : Int
  fp : Nat
  archive : List Char
  rest : List Recv
deriving DecidableEq, Repr

/-- The statements of the loop body that follow the handling of the first
chunk: the write of `nrecv` bytes from `fp` and the countdown, both under
`status == FILE`, and whether the test `status == FILE && !fsize` ends the loop. -/
def afterFirst (payload : List Char) (w : Wait) : Wait × Bool :=
  let w1 :=
    if w.status = FILE then
      { w with archive := w.archive ++ payload, fsize := wrap32 (w.fsize - w.nrecv) }
    else w
  (w1, decide (w1.status = FILE ∧ w1.fsize = 0))

/-- The loop of `waitmsg`. When the listed results run out the peer has
closed. Each `recv` is handed `fp` and asked for `sizeof (buf)` bytes, so it
can return up to `MAXFILESIZE` bytes wherever `fp` stands. The result is
`none` when the bytes received do not settle the outcome: the scan for the
newline depends on bytes of `buf` that no `recv` has stored, or the bytes
`recv` has stored at `fp` reach past the end of `char buf[MAXFILESIZE]`. -/
def waitLoop : List Recv → Wait → Option Wait
  | [], w => some { w with nrecv := 0, rest := [] }
  | .closed :: rest, w => some { w with nrecv := 0, rest := rest }
  | .error :: rest, w => some { w with nrecv := -1, rest := rest }
  | .data bytes :: rest, w =>
    if bytes.length = 0 then some { w with nrecv := 0, rest := rest }
    else if MAXFILESIZE < w.fp + bytes.length then none
    else if w.first then
      if bytes.length > 3 ∧ bytes.take 3 = "OK:".toList then
        some { w with status := OK, nrecv := bytes.length, rest := rest }
      else if bytes.length > 4 ∧ bytes.take 4 = "ERR:".toList then
        some { w with status := ERR, nrecv := bytes.length, rest := rest }
      else if bytes.length > 5 then
        if bytes.take 5 = "SIZE:".toList then
          match scanNewline bytes 0 with
          | none => none
          | some none =>
            match afterFirst bytes { w with nrecv := bytes.length } with
            | (w1, stop) => if stop then some { w1 with rest := rest } else waitLoop rest w1
          | some (some i) =>
            match afterFirst (bytes.drop (i + 1))
                { w with status := FILE, fsize := atoi ((bytes.take i).drop 5),
                         nrecv := bytes.length - (i + 1), first := false, fp := i + 1 } with
            | (w1, stop) => if stop then some { w1 with rest := rest } else waitLoop rest w1
        else
          match afterFirst bytes { w with nrecv := bytes.length } with
          | (w1, stop) => if stop then some { w1 with rest := rest } else waitLoop rest w1
      else some { w with nrecv := bytes.length, rest := rest }
    else
      match afterFirst bytes { w with nrecv := bytes.length } with
      | (w1, stop) => if stop then some { w1 with rest := rest } else waitLoop rest w1

/-- What `waitmsg` leaves behind: the final status, the bytes written to
`temp.tar.gz`, whether `tar -xzf temp.tar.gz -C .` was run, whether the file
was unlinked, and the results of `recv` it did not read. -/
structure Outcome where
  status : Int
  archive : List Char
  extracted : Bool
  unlinked : Bool
  rest : List Recv
deriving DecidableEq, Repr

/-- The function `waitmsg`; `zip` is 0 when `-u` was given. The file is opened
with `O_TRUNC`, so the archive starts empty. -/
def waitmsg (zip : Int) (rs : List Recv) : Option Outcome :=
  match waitLoop rs
      { status := ERR, fsize := 0, first := true, nrecv := 0, fp := 0, archive := [],
        rest := [] } with
  | none => none
  | some w =>
    if w.nrecv < 0 then
      some { status := w.status, archive := w.archive, extracted := false, unlinked := false,
             rest := w.rest }
    else if w.status = ERR then
      some { status := w.status, archive := w.archive, extracted := false, unlinked := true,
             rest := w.rest }
    else if w.status = OK then
      some { status := w.status, archive := w.archive, extracted := false, unlinked := true,
             rest := w.rest }
    else if w.status = FILE then
      if zip = 0 then
        some { status := w.status, archive := w.archive, extracted := true, unlinked := true,
               rest := w.rest }
      else
        some { status := w.status, archive := w.archive, extracted := false, unlinked := false,
               rest := w.rest }
    else
      some { status := w.status, archive := w.archive, extracted := false, unlinked := false,
             rest := w.rest }

end Client

/-! ## The client: `packmsg` and `connect_retry` of `client.c` -/

namespace Client

def MAXSLEEP : Nat := 128

/-- The loop of `packmsg` over `argv[1]` to `argv[argc - 1]` for getfiles and
gettargz: a `-u` in the last place sets `zip` to 0 and ends the loop, any other
argument is appended behind a space. -/
def packLoop : List CStr → CStr → Int → CStr × Int
  | [], msg, zip => (msg, zip)
  | [a], msg, zip => if a = "-u".toList then (msg, 0) else (msg ++ " ".toList ++ a, zip)
  | a :: b :: rest, msg, zip => packLoop (b :: rest) (msg ++ " ".toList ++ a) zip

/-- The function `packmsg` on the arguments `parse` returned (`argc` is their
number): the message, `none` for the null result, and the value left in `zip`. -/
def packmsg (argv : List CStr) : Option CStr × Int :=
  let verb := argv.headD []
  if verb = "findfile".toList then
    match argv with
    | [v, a] => (some (v ++ " ".toList ++ a ++ "\n".toList), 1)
    | _ => (none, 1)
  else if verb = "sgetfiles".toList ∨ verb = "dgetfiles".toList then
    match argv with
    | [v, a, b] => (some (v ++ " ".toList ++ a ++ " ".toList ++ b ++ "\n".toList), 1)
    | [v, a, b, u] =>
      if u = "-u".toList then
        (some (v ++ " ".toList ++ a ++ " ".toList ++ b ++ "\n".toList), 0)
      else (none, 1)
    | _ => (none, 1)
  else if verb = "getfiles".toList ∨ verb = "gettargz".toList then
    if argv.length < 2 ∨ argv.length > 8 then (none, 1)
    else if argv.length = 8 ∧ argv[7]? ≠ some "-u".toList then (none, 1)
    else
      match packLoop (argv.drop 1) verb (if argv.length = 8 then 0 else 1) with
      | (msg, zip) => (some (msg ++ "\n".toList), zip)
  else if verb = "quit".toList then
    match argv with
    | [v] => (some (v ++ "\n".toList), 1)
    | _ => (none, 1)
  else (none, 1)

/-- What one pass of the loop of `connect_retry` meets: `connect` succeeds on
the descriptor `socket` gave, `connect` fails, or `socket` itself fails. -/
inductive Attempt
  | connected (sockfd : Int)
  | refused
  | nosocket
deriving DecidableEq, Repr

/-- What `connect_retry` leaves: the value returned, the arguments of its
`sleep` calls in order, and the number of `connect` calls it made. -/
structure Retry where
  result : Int
  sleeps : List Nat
  attempts : Nat
deriving DecidableEq, Repr

/-- The loop `for (numsec = 1; numsec <= MAXSLEEP; numsec <<= 1)`; `out k` is
what pass number `k` (from 0) meets. -/
def connect_loop (out : Nat → Attempt) : Nat → Nat → Nat → List Nat → Retry
  | 0, _, k, sleeps => { result := -1, sleeps := sleeps, attempts := k }
  | fuel + 1, numsec, k, sleeps =>
    if numsec ≤ MAXSLEEP then
      match out k with
      | .nosocket => { result := -1, sleeps := sleeps, attempts := k }
      | .connected sockfd => { result := sockfd, sleeps := sleeps, attempts := k + 1 }
      | .refused =>
        connect_loop out fuel (numsec * 2) (k + 1)
          (if numsec ≤ MAXSLEEP / 2 then sleeps ++ [numsec] else sleeps)
    else { result := -1, sleeps := sleeps, attempts := k }

/-- The function `connect_retry` (the same text in `client.c` and `mirror.c`). -/
def connect_retry (out : Nat → Attempt) : Retry := connect_loop out (MAXSLEEP + 1) 1 0 []

end Client

/-! ## The mirror program: `eval` of `mirror.c` and the functions it calls

The mirror has the globals `message`, `status` and `socketfd.nclient`; they
are kept in the same record as those of the primary server, whose other
fields no function of the mirror touches. `parse` is the same text as in
`server.c`. -/

namespace Mirror

/-- The function `compare` of `mirror.c`. -/
def compare (E : Env) (u : Indet) (st : Stat) (c1 c2 : Option CStr) (type : CStr) :
    Option Int :=
  if type = "sgetfiles".toList then
    let size := wrap32 st.st_size
    match c1 with
    | none => none
    | some a =>
      if size ≥ atoi a then
        match c2 with
        | none => none
        | some b => some (if size ≤ atoi b then 1 else 0)
      else some 0
  else
    match c1, c2 with
    | some a, some b =>
      let ct := wrap32 st.st_ctime
      let year := (E.sscanf_year a).getD u.year
      let tm1 := { u.tm1 with tm_year := wrap32 (year - 1900) }
      let tm1 := { tm1 with tm_mon := wrap32 (tm1.tm_mon - 1), tm_isdst := -1 }
      let ctime_t1 := E.mktime tm1
      let year := (E.sscanf_year b).getD year
      let tm1 := { tm1 with tm_year := wrap32 (year - 1900) }
      let tm1 := { tm1 with tm_mon := wrap32 (tm1.tm_mon - 1), tm_isdst := -1 }
      let ctime_t2 := E.mktime u.tm2
      some (if ct ≥ ctime_t1 ∧ ct ≤ ctime_t2 then 1 else 0)
    | _, _ => none

/-- The function `contains` of `mirror.c`. -/
def contains (args : List CStr) (fname : CStr) : Int :=
  match args with
  | [] => 0
  | a :: rest => if fname = a then 1 else contains rest fname

/-- The function `get_file_ext` of `mirror.c`. -/
def get_file_ext (fname : CStr) : Option CStr :=
  match strrchr '.' fname with
  | some (i, post) => if i ≠ 0 then some post else none
  | none => none

/-- The loop of `match` of `mirror.c`, which also prints each comparison. -/
def matchLoop (args : List CStr) (ext : CStr) : Int :=
  match args with
  | [] => 0
  | a :: rest => if ext = a then 1 else matchLoop rest ext

/-- The function `match` of `mirror.c`. -/
def match_ (args : List CStr) (fname : CStr) : Int :=
  match get_file_ext fname with
  | none => 0
  | some ext => matchLoop args ext

/-- The callback `findfile` of `mirror.c`. -/
def findfile (E : Env) (extr_arg : List CStr) (e : Entry) (g : Globals) : Res Int :=
  match e.type with
  | .FTW_F =>
    let fname := basename e.fpath
    match extr_arg[1]? with
    | none => .segv g
    | some a =>
      if fname = a then
        if ("OK:".toList ++ fname ++ ", ".toList ++ fmt_lld e.st.st_size ++ ", ".toList
            ++ E.ctime e.st.st_ctime).length < MAXLINE then
          .ok 1 { g with message := "OK:".toList ++ fname ++ ", ".toList
                    ++ fmt_lld e.st.st_size ++ ", ".toList ++ E.ctime e.st.st_ctime }
        else .overrun g
      else .ok 0 g
  | _ => .ok 0 g

/-- The callback `sdgetfiles` of `mirror.c`. -/
def sdgetfiles (E : Env) (extr_arg : List CStr) (e : Entry) (g : Globals) : Res Int :=
  match e.type with
  | .FTW_F =>
    match compare E (E.indet e) e.st (extr_arg[1]?) (extr_arg[2]?) (extr_arg.headD []) with
    | none => .segv g
    | some r =>
      if r ≠ 0 then
        if (g.message ++ " ".toList ++ e.fpath).length < MAXLINE then
          .ok 0 { g with message := g.message ++ " ".toList ++ e.fpath, status := OK }
        else .overrun g
      else .ok 0 g
  | _ => .ok 0 g

/-- The callback `getfiles` of `mirror.c`. -/
def getfiles (extr_arg : List CStr) (e : Entry) (g : Globals) : Res Int :=
  match e.type with
  | .FTW_F =>
    let fname := basename e.fpath
    if contains (extr_arg.drop 1) fname ≠ 0 then
      if (g.message ++ " ".toList ++ e.fpath).length < MAXLINE then
        .ok 0 { g with message := g.message ++ " ".toList ++ e.fpath, status := OK }
      else .overrun g
    else .ok 0 g
  | _ => .ok 0 g

/-- The callback `gettargz` of `mirror.c`. -/
def gettargz (extr_arg : List CStr) (e : Entry) (g : Globals) : Res Int :=
  match e.type with
  | .FTW_F =>
    if match_ (extr_arg.drop 1) e.fpath ≠ 0 then
      if (g.message ++ " ".toList ++ e.fpath).length < MAXLINE then
        .ok 0 { g with message := g.message ++ " ".toList ++ e.fpath, status := OK }
      else .overrun g
    else .ok 0 g
  | _ => .ok 0 g

/-- The function `eval` of `mirror.c`. -/
def eval (E : Env) (fs : Walk) (msg : CStr) (g : Globals) : Res Unit :=
  match parse msg with
  | (argc, argv) =>
    if (MAXARG : Int) < argc then .overrun g
    else if argc < 0 then .exit 1 g
    else
      let g := { g with status := ERR, message := "tar -czf temp.tar.gz".toList }
      let verb := argv.headD []
      if verb = "findfile".toList then
        match ftw (findfile E argv) fs g with
        | .ok r g1 =>
          if r ≠ 0 then .ok () { g1 with status := OK }
          else .ok () { g1 with status := ERR, message := "ERR:File not found".toList }
        | .exit c g1 => .exit c g1
        | .segv g1 => .segv g1
        | .overrun g1 => .overrun g1
      else if verb = "sgetfiles".toList ∨ verb = "dgetfiles".toList then
        match ftw (sdgetfiles E argv) fs g with
        | .ok _ g1 =>
          let g2 := if g1.status = OK then system g1 else g1
          .ok () { g2 with status := FILE }
        | .exit c g1 => .exit c g1
        | .segv g1 => .segv g1
        | .overrun g1 => .overrun g1
      else if verb = "getfiles".toList then
        match ftw (getfiles argv) fs g with
        | .ok _ g1 =>
          if g1.status = OK then .ok () { system g1 with status := FILE }
          else .ok () { g1 with status := ERR, message := "ERR:No file found".toList }
        | .exit c g1 => .exit c g1
        | .segv g1 => .segv g1
        | .overrun g1 => .overrun g1
      else if verb = "gettargz".toList then
        match ftw (gettargz argv) fs g with
        | .ok _ g1 =>
          if g1.status = OK then .ok () { system g1 with status := FILE }
          else .ok () { g1 with status := ERR, message := "ERR:No file found".toList }
        | .exit c g1 => .exit c g1
        | .segv g1 => .segv g1
        | .overrun g1 => .overrun g1
      else if verb = "quit".toList then .ok () { g with status := QUIT }
      else .ok () { g with status := ERR }

end Mirror

/-- What holds of the counter in every state of the listening process: the
child forked in the i-th iteration of the loop (counted from 0) has counter i,
and the counter of a process that goes on is one less than the number of
children. -/
structure Counted (s : Server) : Prop where
  child : ∀ (i : Nat) (sess : Session), s.sessions[i]? = some sess →
    sess.globals.socketfd.nclient = i
  count : s.pc = .dead ∨ s.g.socketfd.nclient + 1 = s.sessions.length

/-- The commands `system` was called with, in order. -/
def archiver_calls (trace : List Effect) : List CStr :=
  trace.filterMap (fun ef =>
    match ef with
    | .system cmd => some cmd
    | _ => none)

/-! ## Sample data -/

/-- A sample environment. -/
def sampleEnv : Env :=
  { ctime := fun t => fmt_lld t ++ ['\n'],
    mktime := fun tm => tm.tm_year,
    sscanf_year := fun _ => none,
    indet := fun _ => ⟨0, ⟨0, 0, 0, 0, 0, 0, 0⟩, ⟨0, 0, 0, 0, 0, 0, 0⟩⟩ }

/-- Sample globals of a session. -/
def sampleGlobals : Globals :=
  { socketfd := { nclient := 0, mirror_hostname := [], mirror_port := [], dirty := 1 },
    client_hostname := [], client_port := [], message := [], status := 0, trace := [] }

/-- A data directory with files of 50, 150 and 250 bytes. -/
def sampleWalk : List Entry :=
  [⟨"data".toList, ⟨4096, 5⟩, .FTW_D⟩,
   ⟨"data/a.txt".toList, ⟨50, 5⟩, .FTW_F⟩,
   ⟨"data/b.c".toList, ⟨150, 7⟩, .FTW_F⟩,
   ⟨"data/c.txt".toList, ⟨250, 9⟩, .FTW_F⟩]

/-- An environment in which every date string converts to the year 1993 and
`mktime` returns the year field, and in which `compare` finds a stack of zeros. -/
def stackEnvA : Env :=
  { ctime := fun t => fmt_lld t ++ ['\n'],
    mktime := fun tm => tm.tm_year,
    sscanf_year := fun _ => some 1993,
    indet := fun _ => ⟨0, ⟨0, 0, 0, 0, 0, 0, 0⟩, ⟨0, 0, 0, 0, 0, 0, 0⟩⟩ }

/-- The environment `stackEnvA` with other stack contents: the year field of
the `tm2` that `compare` finds holds 200. -/
def stackEnvB : Env :=
  { stackEnvA with indet := fun _ => ⟨0, ⟨0, 0, 0, 0, 0, 0, 0⟩, ⟨0, 0, 0, 0, 0, 200, 0⟩⟩ }

/-- A data directory with nine subdirectories, each holding a file a.txt of
10 bytes. -/
def nineWalk : List Entry :=
  [⟨"data".toList, ⟨4096, 5⟩, .FTW_D⟩,
   ⟨"data/d1".toList, ⟨4096, 5⟩, .FTW_D⟩, ⟨"data/d1/a.txt".toList, ⟨10, 5⟩, .FTW_F⟩,
   ⟨"data/d2".toList, ⟨4096, 5⟩, .FTW_D⟩, ⟨"data/d2/a.txt".toList, ⟨10, 5⟩, .FTW_F⟩,
   ⟨"data/d3".toList, ⟨4096, 5⟩, .FTW_D⟩, ⟨"data/d3/a.txt".toList, ⟨10, 5⟩, .FTW_F⟩,
   ⟨"data/d4".toList, ⟨4096, 5⟩, .FTW_D⟩, ⟨"data/d4/a.txt".toList, ⟨10, 5⟩, .FTW_F⟩,
   ⟨"data/d5".toList, ⟨4096, 5⟩, .FTW_D⟩, ⟨"data/d5/a.txt".toList, ⟨10, 5⟩, .FTW_F⟩,
   ⟨"data/d6".toList, ⟨4096, 5⟩, .FTW_D⟩, ⟨"data/d6/a.txt".toList, ⟨10, 5⟩, .FTW_F⟩,
   ⟨"data/d7".toList, ⟨4096, 5⟩, .FTW_D⟩, ⟨"data/d7/a.txt".toList, ⟨10, 5⟩, .FTW_F⟩,
   ⟨"data/d8".toList, ⟨4096, 5⟩, .FTW_D⟩, ⟨"data/d8/a.txt".toList, ⟨10, 5⟩, .FTW_F⟩,
   ⟨"data/d9".toList, ⟨4096, 5⟩, .FTW_D⟩, ⟨"data/d9/a.txt".toList, ⟨10, 5⟩, .FTW_F⟩]

/-! ## Lemmas on the string helpers and on `parse` -/

theorem strchr_token (tok rest : CStr) (h : ' ' ∉ tok) :
    strchr ' ' (tok ++ ' ' :: rest) = some (tok, rest) := by
  induction tok with
  | nil => simp [strchr]
  | cons c cs ih =>
    have hc : c ≠ ' ' := fun hc => h (by simp [hc])
    have hcs : ' ' ∉ cs := fun hcs => h (by simp [hcs])
    simp [strchr, hc, ih hcs]

theorem strchr_none (s : CStr) (h : ' ' ∉ s) : strchr ' ' s = none := by
  induction s with
  | nil => simp [strchr]
  | cons c cs ih =>
    have hc : c ≠ ' ' := fun hc => h (by simp [hc])
    have hcs : ' ' ∉ cs := fun hcs => h (by simp [hcs])
    simp [strchr, hc, ih hcs]

theorem skipSpaces_token (tok rest : CStr) (hne : tok ≠ []) (h : ' ' ∉ tok) :
    skipSpaces (tok ++ rest) = tok ++ rest := by
  cases tok with
  | nil => exact absurd rfl hne
  | cons c cs =>
    have hc : c ≠ ' ' := fun hc => h (by simp [hc])
    simp [skipSpaces, hc]

theorem skipSpaces_replicate (k : Nat) : skipSpaces (List.replicate k ' ') = [] := by
  induction k with
  | zero => simp [skipSpaces]
  | succ k ih => simp [List.replicate_succ, skipSpaces, ih]

theorem setLast_append (l : CStr) (c : Char) : setLast (l ++ [c]) = l ++ [' '] := by
  cases l with
  | nil => simp [setLast]
  | cons x xs =>
    simp only [setLast, List.cons_append]
    rw [← List.cons_append, List.dropLast_concat]
    rfl

/-- The buffer in which every token is followed by one space. -/
theorem skipSpaces_tokens (toks : List CStr) (htok : ∀ t ∈ toks, t ≠ [] ∧ ' ' ∉ t) :
    skipSpaces (toks.map (· ++ [' '])).flatten = (toks.map (· ++ [' '])).flatten := by
  cases toks with
  | nil => simp [skipSpaces]
  | cons t ts =>
    have ht := htok t (by simp)
    simp only [List.map_cons, List.flatten_cons, List.append_assoc]
    exact skipSpaces_token t _ ht.1 ht.2

theorem parseLoop_tokens (toks : List CStr) (htok : ∀ t ∈ toks, t ≠ [] ∧ ' ' ∉ t) :
    ∀ (fuel : Nat) (acc : List CStr), (toks.map (· ++ [' '])).flatten.length < fuel →
      parseLoop fuel (toks.map (· ++ [' '])).flatten acc = acc ++ toks := by
  induction toks with
  | nil =>
    intro fuel acc _
    cases fuel <;> simp [parseLoop, strchr]
  | cons t ts ih =>
    intro fuel acc hfuel
    have ht := htok t (by simp)
    have hts : ∀ u ∈ ts, u ≠ [] ∧ ' ' ∉ u := fun u hu => htok u (by simp [hu])
    cases fuel with
    | zero => exact absurd hfuel (Nat.not_lt_zero _)
    | succ f =>
      have hlen : (ts.map (· ++ [' '])).flatten.length < f := by
        simp only [List.map_cons, List.flatten_cons, List.length_append, List.length_cons,
          List.length_nil] at hfuel
        omega
      simp only [List.map_cons, List.flatten_cons, List.append_assoc, List.singleton_append,
        parseLoop, strchr_token t _ ht.2]
      rw [skipSpaces_tokens ts hts, ih hts f _ hlen]
      simp

theorem intercalate_space (toks : List CStr) (hne : toks ≠ []) :
    List.intercalate [' '] toks ++ [' '] = (toks.map (· ++ [' '])).flatten := by
  induction toks with
  | nil => exact absurd rfl hne
  | cons t ts ih =>
    cases ts with
    | nil => simp [List.intercalate]
    | cons u us =>
      have := ih (by simp)
      simp only [List.intercalate, List.intersperse, List.flatten_cons, List.map_cons,
        List.append_assoc] at this ⊢
      rw [this]

/-- On a line of tokens joined by single spaces and ended by one more
character, `parse` gives back the tokens. -/
theorem parse_tokens (toks : List CStr) (hne : toks ≠ [])
    (htok : ∀ t ∈ toks, t ≠ [] ∧ ' ' ∉ t) (c : Char) :
    parse (List.intercalate [' '] toks ++ [c]) = ((toks.length : Int), toks) := by
  have hlen : toks.length ≠ 0 := by
    cases toks with
    | nil => exact absurd rfl hne
    | cons _ _ => simp
  unfold parse
  simp only [setLast_append, intercalate_space toks hne, skipSpaces_tokens toks htok]
  rw [parseLoop_tokens toks htok _ [] (Nat.lt_succ_self _)]
  simp [hlen]

theorem parse_blank (k : Nat) : parse (List.replicate k ' ' ++ ['\n']) = (-1, []) := by
  unfold parse
  have h : List.replicate k ' ' ++ [' '] = List.replicate (k + 1) ' ' := by
    simp [List.replicate_succ']
  simp only [setLast_append, h, skipSpaces_replicate]
  simp [parseLoop, strchr]

/-! ## Admission -/

/-- C1: for every connection count n, `available` accepts (1) exactly when
n <= 4 or n >= 9 and n is odd, and redirects (0) exactly when 5 <= n <= 8 or
n >= 9 and n is even; `eval` answers HELLO with status OK and the text OK in
the first case and with status BUSY in the second. -/
theorem C1_admission_step_function (E : Env) (fs : List Entry) (g : Globals) :
    (available g.socketfd = 1 ↔
      (g.socketfd.nclient ≤ 4 ∨ (9 ≤ g.socketfd.nclient ∧ g.socketfd.nclient % 2 = 1))) ∧
    (available g.socketfd = 0 ↔
      ((5 ≤ g.socketfd.nclient ∧ g.socketfd.nclient ≤ 8) ∨
        (9 ≤ g.socketfd.nclient ∧ g.socketfd.nclient % 2 = 0))) ∧
    (available g.socketfd = 1 →
      eval E fs "HELLO\n".toList g = .ok () { g with message := "OK".toList, status := OK }) ∧
    (available g.socketfd = 0 →
      eval E fs "HELLO\n".toList g =
        .ok () { g with message := "tar -czf temp.tar.gz".toList, status := BUSY }) := by
  have hp : parse "HELLO\n".toList = (1, ["HELLO".toList]) := by decide
  have hmod : ∀ n : Int, 9 ≤ n → (Int.tmod n 2 = 0 ↔ n % 2 = 0) := by
    intro n hn
    rw [Int.tmod_eq_emod (by omega) (by omega)]
  refine ⟨?_, ?_, ?_, ?_⟩
  · unfold available
    by_cases h4 : g.socketfd.nclient ≤ 4
    · simp [h4]
    · by_cases h8 : g.socketfd.nclient ≤ 8
      · simp [h4, h8]; omega
      · have h9 : 9 ≤ g.socketfd.nclient := by omega
        simp only [h4, h8, if_false, hmod _ h9]
        by_cases he : g.socketfd.nclient % 2 = 0
        · simp [he]
        · simp [he]; omega
  · unfold available
    by_cases h4 : g.socketfd.nclient ≤ 4
    · simp [h4]; omega
    · by_cases h8 : g.socketfd.nclient ≤ 8
      · simp [h4, h8]; omega
      · have h9 : 9 ≤ g.socketfd.nclient := by omega
        simp only [h4, h8, if_false, hmod _ h9]
        by_cases he : g.socketfd.nclient % 2 = 0
        · simp [he]; omega
        · simp [he]
  · intro h
    unfold eval
    rw [hp]
    simp [h, MAXARG]
  · intro h
    unfold eval
    rw [hp]
    simp [h, MAXARG]

/-! ## The tokenizer -/

/-- C10: on a line with no token (any number of spaces, then the newline)
`parse` returns -1 and `eval` exits with code 1 with the globals, and so the
log of walks and archiver calls, left as they were. -/
theorem C10_blank_line_exits (E : Env) (fs : List Entry) (g : Globals) (k : Nat) :
    parse (List.replicate k ' ' ++ ['\n']) = (-1, []) ∧
    eval E fs (List.replicate k ' ' ++ ['\n']) g = .exit 1 g := by
  refine ⟨parse_blank k, ?_⟩
  unfold eval
  rw [parse_blank k]
  simp [MAXARG]

/-! ## `findfile` -/

theorem ftw_findfile_none (E : Env) (argv : List CStr) (name : CStr)
    (harg : argv[1]? = some name) (fails : Bool) (fs : List Entry) :
    ∀ g : Globals, (∀ x ∈ fs, ¬ (x.type = .FTW_F ∧ basename x.fpath = name)) →
      ftwLoop (findfile E argv) fails fs g =
        .ok (if fails then -1 else 0)
          { g with trace := g.trace ++ fs.map (fun x => Effect.visit x.fpath) } := by
  induction fs with
  | nil => intro g _; simp [ftwLoop]
  | cons e es ih =>
    intro g hno
    have he := hno e (by simp)
    have hes : ∀ x ∈ es, ¬ (x.type = .FTW_F ∧ basename x.fpath = name) :=
      fun x hx => hno x (by simp [hx])
    have hcb : findfile E argv e { g with trace := g.trace ++ [Effect.visit e.fpath] } =
        .ok 0 { g with trace := g.trace ++ [Effect.visit e.fpath] } := by
      cases ht : e.type <;> simp [findfile, ht, harg]
      intro hb
      exact (he ⟨ht, hb⟩).elim
    rw [ftwLoop, hcb]
    simp [ih _ hes]

theorem ftw_findfile_first (E : Env) (argv : List CStr) (name : CStr)
    (harg : argv[1]? = some name) (fails : Bool) (e : Entry) (post : List Entry)
    (hty : e.type = .FTW_F) (hname : basename e.fpath = name)
    (hfit : ("OK:".toList ++ basename e.fpath ++ ", ".toList ++ fmt_lld e.st.st_size
      ++ ", ".toList ++ E.ctime e.st.st_ctime).length < MAXLINE) (pre : List Entry) :
    ∀ g : Globals, (∀ x ∈ pre, ¬ (x.type = .FTW_F ∧ basename x.fpath = name)) →
      ftwLoop (findfile E argv) fails (pre ++ e :: post) g =
        .ok 1 { g with
          message := "OK:".toList ++ basename e.fpath ++ ", ".toList
            ++ fmt_lld e.st.st_size ++ ", ".toList ++ E.ctime e.st.st_ctime,
          trace := g.trace ++ (pre ++ [e]).map (fun x => Effect.visit x.fpath) } := by
  induction pre with
  | nil =>
    intro g _
    have hcb : findfile E argv e { g with trace := g.trace ++ [Effect.visit e.fpath] } =
        .ok 1 { g with
          message := "OK:".toList ++ basename e.fpath ++ ", ".toList
            ++ fmt_lld e.st.st_size ++ ", ".toList ++ E.ctime e.st.st_ctime,
          trace := g.trace ++ [Effect.visit e.fpath] } := by
      unfold findfile
      rw [hty]
      simp only [harg]
      rw [if_pos hname, if_pos hfit]
    rw [List.nil_append, ftwLoop, hcb]
    simp
  | cons p ps ih =>
    intro g hno
    have hp := hno p (by simp)
    have hps : ∀ x ∈ ps, ¬ (x.type = .FTW_F ∧ basename x.fpath = name) :=
      fun x hx => hno x (by simp [hx])
    have hcb : findfile E argv p { g with trace := g.trace ++ [Effect.visit p.fpath] } =
        .ok 0 { g with trace := g.trace ++ [Effect.visit p.fpath] } := by
      cases ht : p.type <;> simp [findfile, ht, harg]
      intro hb
      exact (hp ⟨ht, hb⟩).elim
    rw [List.cons_append, ftwLoop, hcb]
    simp [ih _ hps]

theorem parse_findfile (name : CStr) (hne : name ≠ []) (hsp : ' ' ∉ name) :
    parse ("findfile ".toList ++ name ++ ['\n']) = (2, ["findfile".toList, name]) := by
  have hline : "findfile ".toList ++ name ++ ['\n'] =
      List.intercalate [' '] ["findfile".toList, name] ++ ['\n'] := by
    simp [List.intercalate]
  rw [hline]
  have := parse_tokens ["findfile".toList, name] (by simp)
    (by
      intro t ht
      simp only [List.mem_cons, List.mem_singleton, List.not_mem_nil, or_false] at ht
      rcases ht with rfl | rfl
      · decide
      · exact ⟨hne, hsp⟩) '\n'
  simpa using this

/-- What `findfile <name>` does on any walk of the data directory. When a
regular file with that basename is met and the reply fits `message`, the reply
has status OK and the text "OK:" + basename + ", " + decimal size + ", " +
creation-time string of the first such file in walk order, and the walk stops
at that file. When none is met and the walk completes, the reply has status
ERR and the text "ERR:File not found". When none is met and the walk fails,
the -1 of `ftw` is taken for a match: status OK with the archiver command as
text. -/
theorem findfile_reply (E : Env) (w : Walk) (name : CStr) (g : Globals)
    (hne : name ≠ []) (hsp : ' ' ∉ name) :
    (∀ (pre : List Entry) (e : Entry) (post : List Entry), w.entries = pre ++ e :: post →
      e.type = .FTW_F → basename e.fpath = name →
      (∀ x ∈ pre, ¬ (x.type = .FTW_F ∧ basename x.fpath = name)) →
      ("OK:".toList ++ basename e.fpath ++ ", ".toList ++ fmt_lld e.st.st_size
        ++ ", ".toList ++ E.ctime e.st.st_ctime).length < MAXLINE →
      eval E w ("findfile ".toList ++ name ++ ['\n']) g =
        .ok () { g with
          status := OK,
          message := "OK:".toList ++ basename e.fpath ++ ", ".toList
            ++ fmt_lld e.st.st_size ++ ", ".toList ++ E.ctime e.st.st_ctime,
          trace := g.trace ++ (pre ++ [e]).map (fun x => Effect.visit x.fpath) }) ∧
    ((∀ x ∈ w.entries, ¬ (x.type = .FTW_F ∧ basename x.fpath = name)) → w.fails = false →
      eval E w ("findfile ".toList ++ name ++ ['\n']) g =
        .ok () { g with
          status := ERR,
          message := "ERR:File not found".toList,
          trace := g.trace ++ w.entries.map (fun x => Effect.visit x.fpath) }) ∧
    ((∀ x ∈ w.entries, ¬ (x.type = .FTW_F ∧ basename x.fpath = name)) → w.fails = true →
      eval E w ("findfile ".toList ++ name ++ ['\n']) g =
        .ok () { g with
          status := OK,
          message := "tar -czf temp.tar.gz".toList,
          trace := g.trace ++ w.entries.map (fun x => Effect.visit x.fpath) }) := by
  have hp := parse_findfile name hne hsp
  have harg : ["findfile".toList, name][1]? = some name := rfl
  refine ⟨?_, ?_, ?_⟩
  · intro pre e post hfs hty hname hpre hfit
    unfold eval ftw
    rw [hp, hfs]
    simp only []
    rw [ftw_findfile_first E _ name harg w.fails e post hty hname hfit pre _ hpre]
    simp [OK, MAXARG]
  · intro hno hf
    unfold eval ftw
    rw [hp, hf]
    simp only []
    rw [ftw_findfile_none E _ name harg false w.entries _ hno]
    simp [ERR, MAXARG]
  · intro hno hf
    unfold eval ftw
    rw [hp, hf]
    simp only []
    rw [ftw_findfile_none E _ name harg true w.entries _ hno]
    simp [OK, MAXARG]

set_option maxRecDepth 20000 in
/-- C4: when the walk cannot be made (here there is no data directory: no
entry, and `ftw` returns -1), `findfile a.txt` is answered with status OK and
the archiver command as text, although no file has that name. And for a file
whose name has 100 characters, with a creation-time string of the 25
characters `ctime` gives, `sprintf` writes 133 characters and the terminator
into the 128 bytes of `message`. -/
theorem C4_findfile_walk_error (E : Env) (g : Globals) (temp files : Opened) (sys : Bool) :
    eval E { entries := [], fails := true } "findfile a.txt\n".toList g =
      .ok () { g with status := OK, message := "tar -czf temp.tar.gz".toList } ∧
    process E { entries := [], fails := true }
        { recv := [.data "findfile a.txt\n".toList], temp := temp, files := files,
          system_ok := sys } g =
      .ok () { g with
        status := OK,
        message := "tar -czf temp.tar.gz".toList,
        trace := g.trace ++ [Effect.send "tar -czf temp.tar.gz\x00".toList] } ∧
    "tar -czf temp.tar.gz\x00".toList ≠ "ERR:File not found\x00".toList ∧
    eval { sampleEnv with ctime := fun _ => "Wed Jun 30 21:49:08 1993\n".toList }
        ([⟨"data".toList, ⟨4096, 0⟩, .FTW_D⟩,
          ⟨"data/".toList ++ List.replicate 100 'a', ⟨5, 0⟩, .FTW_F⟩] : List Entry)
        ("findfile ".toList ++ List.replicate 100 'a' ++ ['\n']) g =
      .overrun { g with
        status := ERR,
        message := "tar -czf temp.tar.gz".toList,
        trace := g.trace ++ [Effect.visit "data".toList]
          ++ [Effect.visit ("data/".toList ++ List.replicate 100 'a')] } ∧
    ("OK:".toList ++ List.replicate 100 'a' ++ ", ".toList ++ fmt_lld 5 ++ ", ".toList
      ++ "Wed Jun 30 21:49:08 1993\n".toList).length = 133 :=
  ⟨rfl, rfl, by decide, rfl, rfl⟩

/-- The lemma `findfile_reply` at `findfile b.c` and `findfile zz` on the
sample directory. -/
theorem findfile_reply_sample :
    eval sampleEnv sampleWalk ("findfile ".toList ++ "b.c".toList ++ ['\n']) sampleGlobals =
      .ok () { sampleGlobals with
        status := OK,
        message := "OK:b.c, 150, 7\n".toList,
        trace := [.visit "data".toList, .visit "data/a.txt".toList, .visit "data/b.c".toList] } ∧
    eval sampleEnv sampleWalk ("findfile ".toList ++ "zz".toList ++ ['\n']) sampleGlobals =
      .ok () { sampleGlobals with
        status := ERR,
        message := "ERR:File not found".toList,
        trace := [.visit "data".toList, .visit "data/a.txt".toList, .visit "data/b.c".toList,
          .visit "data/c.txt".toList] } :=
  ⟨(findfile_reply sampleEnv sampleWalk "b.c".toList sampleGlobals (by decide) (by decide)).1
      [⟨"data".toList, ⟨4096, 5⟩, .FTW_D⟩, ⟨"data/a.txt".toList, ⟨50, 5⟩, .FTW_F⟩]
      ⟨"data/b.c".toList, ⟨150, 7⟩, .FTW_F⟩ [⟨"data/c.txt".toList, ⟨250, 9⟩, .FTW_F⟩]
      rfl rfl (by decide) (by decide) (by decide),
   (findfile_reply sampleEnv sampleWalk "zz".toList sampleGlobals (by decide) (by decide)).2.1
      (by decide) rfl⟩

/-! ## What `process` receives -/

theorem cstr_terminated (l rest : List Char) (h : '\x00' ∉ l) :
    cstr (l ++ '\x00' :: rest) = l := by
  unfold cstr
  induction l with
  | nil => simp
  | cons c cs ih =>
    have hc : c ≠ '\x00' := fun hc => h (by simp [hc])
    have hcs : '\x00' ∉ cs := fun hm => h (List.mem_cons_of_mem _ hm)
    show List.takeWhile _ (c :: (cs ++ '\x00' :: rest)) = c :: cs
    rw [List.takeWhile_cons, ih hcs]
    simp [hc]

theorem cstr_plain (l : List Char) (h : '\x00' ∉ l) : cstr l = l := by
  unfold cstr
  rw [List.takeWhile_eq_self_iff]
  intro c hc
  have hne : c ≠ '\x00' := fun he => h (he ▸ hc)
  simpa using hne

theorem recvLine_single (l : List Char) :
    recvLine [.data (l ++ ['\n'])] [] = (l ++ ['\n'], ((l ++ ['\n']).length : Int)) := by
  simp [recvLine]

theorem recvLine_line (inp : Inputs) (line : List Char)
    (hrecv : inp.recv = [.data (line ++ ['\n'])]) :
    recvLine inp.recv [] = (line ++ ['\n'], ((line ++ ['\n']).length : Int)) := by
  rw [hrecv]
  exact recvLine_single line

theorem intercalate_cons (v : CStr) (args : List CStr) :
    List.intercalate [' '] (v :: args) = v ++ (args.map (fun a => ' ' :: a)).flatten := by
  induction args generalizing v with
  | nil => simp [List.intercalate]
  | cons a rest ih =>
    have := ih a
    simp only [List.intercalate, List.intersperse, List.flatten_cons, List.map_cons,
      List.append_assoc] at this ⊢
    rw [this]
    simp

/-- A character other than the space that occurs in none of the tokens does
not occur in the tokens joined by spaces. -/
theorem intercalate_plain (c : Char) (hc : c ≠ ' ') (toks : List CStr)
    (h : ∀ t ∈ toks, c ∉ t) : c ∉ List.intercalate [' '] toks := by
  cases toks with
  | nil => simp [List.intercalate]
  | cons v args =>
    rw [intercalate_cons]
    intro hm
    rcases List.mem_append.mp hm with hv | hf
    · exact h v (by simp) hv
    · rcases List.mem_flatten.mp hf with ⟨l, hl, hcl⟩
      rcases List.mem_map.mp hl with ⟨a, ha, rfl⟩
      rcases List.mem_cons.mp hcl with h1 | h1
      · exact hc h1
      · exact h a (List.mem_cons_of_mem _ ha) h1

/-! ## The branches of `process` -/

/-- With status OK or ERR the session handler makes one `send_text` call and returns. -/
theorem process_text (E : Env) (fs : Walk) (inp : Inputs) (g g1 : Globals)
    (buf : List Char) (nrecv : Int) (hrecv : recvLine inp.recv [] = (buf, nrecv))
    (hn : 0 ≤ nrecv) (he : eval E fs (cstr buf) g = .ok () g1)
    (hs : g1.status = OK ∨ g1.status = ERR) :
    process E fs inp g = .ok () (send_text g1.message g1) := by
  unfold process
  rw [hrecv]
  simp only [not_lt.mpr hn, if_false, he]
  rcases hs with h | h
  · rw [if_pos h]
  · by_cases h0 : g1.status = OK
    · rw [if_pos h0]
    · rw [if_neg h0, if_pos h]

/-- With status FILE the session handler calls `send_file` on what opening
`temp.tar.gz` finds, and unlinks the file when that call returns. -/
theorem process_file (E : Env) (fs : Walk) (inp : Inputs) (g g1 : Globals)
    (buf : List Char) (nrecv : Int) (hrecv : recvLine inp.recv [] = (buf, nrecv))
    (hn : 0 ≤ nrecv) (he : eval E fs (cstr buf) g = .ok () g1) (hs : g1.status = FILE) :
    process E fs inp g =
      match send_file inp.temp g1 with
      | .ok _ g2 => .ok () (emit (.unlink "temp.tar.gz".toList) g2)
      | .exit c g2 => .exit c g2
      | .segv g2 => .segv g2
      | .overrun g2 => .overrun g2 := by
  unfold process
  rw [hrecv]
  simp only [not_lt.mpr hn, if_false, he]
  have h1 : ¬ g1.status = OK := by rw [hs]; decide
  have h2 : ¬ g1.status = ERR := by rw [hs]; decide
  have h3 : ¬ g1.status = BUSY := by rw [hs]; decide
  rw [if_neg h1, if_neg h2, if_neg h3, if_pos hs]

/-- When `eval` has written past an array the session handler does not get to
its replies. -/
theorem process_overrun (E : Env) (fs : Walk) (inp : Inputs) (g g1 : Globals)
    (buf : List Char) (nrecv : Int) (hrecv : recvLine inp.recv [] = (buf, nrecv))
    (hn : 0 ≤ nrecv) (he : eval E fs (cstr buf) g = .overrun g1) :
    process E fs inp g = .overrun g1 := by
  unfold process
  rw [hrecv]
  simp only [not_lt.mpr hn, if_false, he]

/-! ## Walks that collect the selected paths -/

theorem contains_ne_zero_iff (args : List CStr) (fname : CStr) :
    contains args fname ≠ 0 ↔ fname ∈ args := by
  induction args with
  | nil => simp [contains]
  | cons a rest ih =>
    by_cases h : fname = a
    · simp [contains, h]
    · simp [contains, h, ih]

/-- A callback that appends the path of each selected entry and sets status OK
leaves, after the walk, the selected paths in walk order behind the message,
as long as the whole fits `message`. -/
theorem ftw_collect (cb : Entry → Globals → Res Int) (sel : Entry → Bool)
    (hcb : ∀ e g, cb e g =
      if sel e then
        if (g.message ++ " ".toList ++ e.fpath).length < MAXLINE then
          .ok 0 { g with message := g.message ++ " ".toList ++ e.fpath, status := OK }
        else .overrun g
      else .ok 0 g) (fails : Bool) (fs : List Entry) :
    ∀ g : Globals,
      (g.message ++ ((fs.filter sel).map (fun e => ' ' :: e.fpath)).flatten).length < MAXLINE →
      ftwLoop cb fails fs g =
        .ok (if fails then -1 else 0) { g with
          message := g.message ++ ((fs.filter sel).map (fun e => ' ' :: e.fpath)).flatten,
          status := if fs.filter sel = [] then g.status else OK,
          trace := g.trace ++ fs.map (fun x => Effect.visit x.fpath) } := by
  induction fs with
  | nil => intro g _; simp [ftwLoop]
  | cons e es ih =>
    intro g hfit
    rw [ftwLoop, hcb]
    cases hs : sel e
    · simp only [Bool.false_eq_true, if_false, ne_eq, not_true_eq_false]
      have hfit2 : (g.message ++
          ((es.filter sel).map (fun e => ' ' :: e.fpath)).flatten).length < MAXLINE := by
        simpa [List.filter_cons, hs] using hfit
      rw [ih { g with trace := g.trace ++ [Effect.visit e.fpath] } hfit2]
      simp [List.filter_cons, hs]
    · have hfit2 : (g.message ++ " ".toList ++ e.fpath ++
          ((es.filter sel).map (fun e => ' ' :: e.fpath)).flatten).length < MAXLINE := by
        simpa [List.filter_cons, hs] using hfit
      have h1 : (g.message ++ " ".toList ++ e.fpath).length < MAXLINE := by
        rw [List.length_append] at hfit2
        omega
      simp only [if_true, h1, ne_eq, not_true_eq_false, if_false]
      rw [ih { g with message := g.message ++ " ".toList ++ e.fpath, status := OK,
                      trace := g.trace ++ [Effect.visit e.fpath] } hfit2]
      simp [List.filter_cons, hs]

theorem getfiles_eq (argv : List CStr) (e : Entry) (g : Globals) :
    getfiles argv e g =
      if decide (e.type = .FTW_F ∧ basename e.fpath ∈ argv.drop 1) then
        if (g.message ++ " ".toList ++ e.fpath).length < MAXLINE then
          .ok 0 { g with message := g.message ++ " ".toList ++ e.fpath, status := OK }
        else .overrun g
      else .ok 0 g := by
  have hc := contains_ne_zero_iff (argv.drop 1) (basename e.fpath)
  unfold getfiles
  cases ht : e.type
  case FTW_F =>
    by_cases hm : basename e.fpath ∈ argv.drop 1
    · have hc1 : contains (argv.drop 1) (basename e.fpath) ≠ 0 := hc.mpr hm
      have hd : decide (FtwType.FTW_F = FtwType.FTW_F ∧ basename e.fpath ∈ argv.drop 1)
          = true := decide_eq_true ⟨rfl, hm⟩
      dsimp only
      rw [if_pos hc1, if_pos hd]
    · have hc1 : ¬ contains (argv.drop 1) (basename e.fpath) ≠ 0 := fun h => hm (hc.mp h)
      have hd : ¬ decide (FtwType.FTW_F = FtwType.FTW_F ∧ basename e.fpath ∈ argv.drop 1)
          = true := by
        intro h
        exact hm (of_decide_eq_true h).2
      dsimp only
      rw [if_neg hc1, if_neg hd]
  all_goals simp

/-! ## `getfiles` -/

theorem eval_getfiles (E : Env) (fs : Walk) (msg : CStr) (g : Globals) (argc : Int)
    (names : List CStr) (hp : parse msg = (argc, "getfiles".toList :: names)) (hargc : 0 ≤ argc)
    (hmax : argc ≤ MAXARG) :
    eval E fs msg g =
      match ftw (getfiles ("getfiles".toList :: names)) fs
          { g with status := ERR, message := "tar -czf temp.tar.gz".toList } with
      | .ok _ g1 =>
        if g1.status = OK then .ok () { system g1 with status := FILE }
        else .ok () { g1 with status := ERR, message := "ERR:No file found".toList }
      | .exit c g1 => .exit c g1
      | .segv g1 => .segv g1
      | .overrun g1 => .overrun g1 := by
  unfold eval
  rw [hp]
  simp [not_lt.mpr hargc, not_lt.mpr hmax]

/-- What `getfiles` with a list of at most seven names does on any walk, as
long as the archiver command with the selected paths fits `message`: it
selects exactly the regular files whose basename is one of the names; when at
least one file is selected the archiver is run once on the selected paths and,
the archive being there, the session handler sends a File frame (the SIZE
line, then the bytes of the archive); when none is selected it sends the text
"ERR:No file found". -/
theorem getfiles_reply (E : Env) (w : Walk) (names : List CStr) (g : Globals)
    (inp : Inputs) (n : Int)
    (hnames : ∀ t ∈ names, t ≠ [] ∧ ' ' ∉ t ∧ '\x00' ∉ t) (hmax : names.length + 1 ≤ MAXARG)
    (hrecv : inp.recv = [.data (List.intercalate [' '] ("getfiles".toList :: names) ++ ['\n'])])
    (hfit : ("tar -czf temp.tar.gz".toList ++
      ((w.entries.filter (fun e => decide (e.type = .FTW_F ∧ basename e.fpath ∈ names))).map
        (fun e => ' ' :: e.fpath)).flatten).length < MAXLINE) :
    (w.entries.filter (fun e => decide (e.type = .FTW_F ∧ basename e.fpath ∈ names)) ≠ [] →
      inp.temp = .file n →
      process E w inp g =
        .ok () { g with
          status := FILE,
          message := "tar -czf temp.tar.gz".toList ++
            ((w.entries.filter
              (fun e => decide (e.type = .FTW_F ∧ basename e.fpath ∈ names))).map
              (fun e => ' ' :: e.fpath)).flatten,
          trace := g.trace ++ w.entries.map (fun x => Effect.visit x.fpath) ++
            [Effect.system ("tar -czf temp.tar.gz".toList ++
              ((w.entries.filter
                (fun e => decide (e.type = .FTW_F ∧ basename e.fpath ∈ names))).map
                (fun e => ' ' :: e.fpath)).flatten),
             Effect.send ("SIZE:".toList ++ fmt_d n ++ ['\n']),
             Effect.sendfile n,
             Effect.unlink "temp.tar.gz".toList] }) ∧
    (w.entries.filter (fun e => decide (e.type = .FTW_F ∧ basename e.fpath ∈ names)) = [] →
      process E w inp g =
        .ok () { g with
          status := ERR,
          message := "ERR:No file found".toList,
          trace := g.trace ++ w.entries.map (fun x => Effect.visit x.fpath) ++
            [Effect.send "ERR:No file found\x00".toList] }) := by
  have hp := parse_tokens ("getfiles".toList :: names) (by simp)
    (by
      intro t ht
      rcases List.mem_cons.mp ht with rfl | h
      · decide
      · exact ⟨(hnames t h).1, (hnames t h).2.1⟩) '\n'
  have hcollect := ftw_collect (getfiles ("getfiles".toList :: names))
    (fun e => decide (e.type = .FTW_F ∧ basename e.fpath ∈ names))
    (fun e g => by simpa using getfiles_eq ("getfiles".toList :: names) e g) w.fails w.entries
    { g with status := ERR, message := "tar -czf temp.tar.gz".toList } hfit
  have hargc : (0 : Int) ≤ (("getfiles".toList :: names).length : Int) := Int.ofNat_nonneg _
  have hargc8 : (("getfiles".toList :: names).length : Int) ≤ MAXARG := by
    rw [List.length_cons]
    exact_mod_cast hmax
  have hne : ERR ≠ OK := by decide
  have hline0 : '\x00' ∉ List.intercalate [' '] ("getfiles".toList :: names) ++ ['\n'] := by
    intro hm
    rcases List.mem_append.mp hm with h | h
    · refine intercalate_plain '\x00' (by decide) _ ?_ h
      intro t ht
      rcases List.mem_cons.mp ht with rfl | h1
      · decide
      · exact (hnames t h1).2.2
    · exact absurd h (by decide)
  have hr := recvLine_line inp _ hrecv
  have hn : (0 : Int) ≤ ((List.intercalate [' '] ("getfiles".toList :: names)
      ++ ['\n']).length : Int) := Int.ofNat_nonneg _
  have he := eval_getfiles E w _ g _ names hp hargc hargc8
  unfold ftw at he
  rw [hcollect] at he
  dsimp only at he
  rw [← cstr_plain _ hline0] at he
  constructor
  · intro hsel htemp
    rw [if_neg hsel, if_pos rfl] at he
    rw [process_file E w inp g _ _ _ hr hn he rfl, htemp]
    simp [send_file, emit, system]
  · intro hsel
    rw [if_pos hsel, if_neg hne] at he
    rw [process_text E w inp g _ _ _ hr hn he (Or.inr rfl)]
    simp [send_text, emit, hsel]


/-- The lemma `getfiles_reply` at `getfiles a.txt b.txt` on the sample
directory, which holds a.txt and no b.txt, with an archive of 120 bytes. -/
theorem getfiles_reply_sample :
    process sampleEnv sampleWalk
        { recv := [.data (List.intercalate [' '] ["getfiles".toList, "a.txt".toList,
            "b.txt".toList] ++ ['\n'])],
          temp := .file 120, files := .bad 0, system_ok := true } sampleGlobals =
      .ok () { sampleGlobals with
        status := FILE,
        message := "tar -czf temp.tar.gz data/a.txt".toList,
        trace := [.visit "data".toList, .visit "data/a.txt".toList, .visit "data/b.c".toList,
          .visit "data/c.txt".toList, .system "tar -czf temp.tar.gz data/a.txt".toList,
          .send "SIZE:120\n".toList, .sendfile 120, .unlink "temp.tar.gz".toList] } :=
  (getfiles_reply sampleEnv sampleWalk ["a.txt".toList, "b.txt".toList] sampleGlobals
    { recv := [.data (List.intercalate [' '] ["getfiles".toList, "a.txt".toList,
        "b.txt".toList] ++ ['\n'])],
      temp := .file 120, files := .bad 0, system_ok := true } 120
    (by decide) (by decide) rfl (by decide)).1 (by decide) rfl

/-- C6: on a data directory with nine files a.txt, `getfiles a.txt` gets no
File frame sent. With seven of the paths the archiver command has 118
characters; the `strcat` calls for the eighth write past the 128 bytes of
`message` (all nine paths make 146 characters), before the archiver is called
and before anything is sent. -/
theorem C6_nine_matches_overrun (E : Env) (g : Globals) (temp files : Opened) (sys : Bool) :
    (∃ g1 : Globals,
      process E nineWalk
          { recv := [.data "getfiles a.txt\n".toList], temp := temp, files := files,
            system_ok := sys } g = .overrun g1 ∧
      g1.message = "tar -czf temp.tar.gz data/d1/a.txt data/d2/a.txt data/d3/a.txt ".toList
        ++ "data/d4/a.txt data/d5/a.txt data/d6/a.txt data/d7/a.txt".toList ∧
      g1.message.length = 118 ∧
      archiver_calls g1.trace = archiver_calls g.trace ∧
      sends g1.trace = sends g.trace) ∧
    List.length (nineWalk.filter
      (fun e => decide (e.type = .FTW_F ∧ basename e.fpath ∈ ["a.txt".toList]))) = 9 ∧
    ("tar -czf temp.tar.gz".toList ++
      ((nineWalk.filter (fun e => decide (e.type = .FTW_F ∧ basename e.fpath ∈
        ["a.txt".toList]))).map (fun e => ' ' :: e.fpath)).flatten).length = 146 := by
  have hp : parse "getfiles a.txt\n".toList = (2, ["getfiles".toList, "a.txt".toList]) := by
    decide
  have he : eval E nineWalk (cstr "getfiles a.txt\n".toList) g =
      .overrun { g with
        status := OK,
        message := "tar -czf temp.tar.gz data/d1/a.txt data/d2/a.txt data/d3/a.txt ".toList
          ++ "data/d4/a.txt data/d5/a.txt data/d6/a.txt data/d7/a.txt".toList,
        trace := g.trace ++ [Effect.visit "data".toList] ++ [Effect.visit "data/d1".toList]
          ++ [Effect.visit "data/d1/a.txt".toList] ++ [Effect.visit "data/d2".toList]
          ++ [Effect.visit "data/d2/a.txt".toList] ++ [Effect.visit "data/d3".toList]
          ++ [Effect.visit "data/d3/a.txt".toList] ++ [Effect.visit "data/d4".toList]
          ++ [Effect.visit "data/d4/a.txt".toList] ++ [Effect.visit "data/d5".toList]
          ++ [Effect.visit "data/d5/a.txt".toList] ++ [Effect.visit "data/d6".toList]
          ++ [Effect.visit "data/d6/a.txt".toList] ++ [Effect.visit "data/d7".toList]
          ++ [Effect.visit "data/d7/a.txt".toList] ++ [Effect.visit "data/d8".toList]
          ++ [Effect.visit "data/d8/a.txt".toList] } := by
    rw [show cstr "getfiles a.txt\n".toList = "getfiles a.txt\n".toList from by decide]
    unfold eval ftw
    rw [hp]
    simp [MAXARG, MAXLINE, nineWalk, ftwLoop, getfiles, contains, basename, strrchr, OK, ERR]
  refine ⟨⟨_, process_overrun E nineWalk _ g _ _ _ rfl (by decide) he, ?_, ?_, ?_, ?_⟩,
    by simp [nineWalk, basename, strrchr],
    by simp [nineWalk, basename, strrchr]⟩
  · rfl
  · rfl
  · simp [archiver_calls, List.filterMap_append]
  · simp [sends, List.filter_append]

/-! ## `sgetfiles`, `dgetfiles` and `gettargz` -/

theorem eval_sdgetfiles (E : Env) (fs : Walk) (msg : CStr) (g : Globals) (argc : Int)
    (argv : List CStr) (hp : parse msg = (argc, argv)) (hargc : 0 ≤ argc)
    (hmax : argc ≤ MAXARG)
    (hv : argv.headD [] = "sgetfiles".toList ∨ argv.headD [] = "dgetfiles".toList) :
    eval E fs msg g =
      match ftw (sdgetfiles E argv) fs
          { g with status := ERR, message := "tar -czf temp.tar.gz".toList } with
      | .ok _ g1 => .ok () { (if g1.status = OK then system g1 else g1) with status := FILE }
      | .exit c g1 => .exit c g1
      | .segv g1 => .segv g1
      | .overrun g1 => .overrun g1 := by
  unfold eval
  rw [hp]
  dsimp only
  rcases hv with h | h <;> rw [h] <;> simp [not_lt.mpr hargc, not_lt.mpr hmax]

/-- C5: with files of 50, 150 and 250 bytes, `sgetfiles 100 200` archives
exactly the 150-byte file; but a regular file of 4294967446 bytes, whose size
`compare` narrows to the `int` 150, is archived by `sgetfiles 100 200` as
well, although its size is not between 100 and 200. -/
theorem C5_sgetfiles_narrows_size (E : Env) (g : Globals) :
    eval E sampleWalk "sgetfiles 100 200\n".toList g =
      .ok () { g with
        status := FILE,
        message := "tar -czf temp.tar.gz data/b.c".toList,
        trace := g.trace ++ [Effect.visit "data".toList] ++ [Effect.visit "data/a.txt".toList]
          ++ [Effect.visit "data/b.c".toList] ++ [Effect.visit "data/c.txt".toList]
          ++ [Effect.system "tar -czf temp.tar.gz data/b.c".toList] } ∧
    eval E ([⟨"data".toList, ⟨4096, 0⟩, .FTW_D⟩,
          ⟨"data/big".toList, ⟨4294967446, 0⟩, .FTW_F⟩] : List Entry)
        "sgetfiles 100 200\n".toList g =
      .ok () { g with
        status := FILE,
        message := "tar -czf temp.tar.gz data/big".toList,
        trace := g.trace ++ [Effect.visit "data".toList] ++ [Effect.visit "data/big".toList]
          ++ [Effect.system "tar -czf temp.tar.gz data/big".toList] } ∧
    ¬ ((100 : Int) ≤ 4294967446 ∧ (4294967446 : Int) ≤ 200) :=
  ⟨rfl, rfl, by decide⟩

/-- C7: the file `data/.bashrc`, whose only dot leads its name, is archived by
`gettargz bashrc`: `match` is handed the whole path, so the test that the dot
is not the first character is made against the path and not the file name,
for which `get_file_ext` finds no extension. -/
theorem C7_gettargz_leading_dot (E : Env) (g : Globals) :
    eval E ([⟨"data".toList, ⟨4096, 0⟩, .FTW_D⟩,
          ⟨"data/.bashrc".toList, ⟨10, 0⟩, .FTW_F⟩] : List Entry)
        "gettargz bashrc\n".toList g =
      .ok () { g with
        status := FILE,
        message := "tar -czf temp.tar.gz data/.bashrc".toList,
        trace := g.trace ++ [Effect.visit "data".toList] ++ [Effect.visit "data/.bashrc".toList]
          ++ [Effect.system "tar -czf temp.tar.gz data/.bashrc".toList] } ∧
    get_file_ext (basename "data/.bashrc".toList) = none ∧
    get_file_ext "data/.bashrc".toList = some "bashrc".toList :=
  ⟨rfl, rfl, rfl⟩

/-- C8: the date branch of `compare` never reads the second date, so for any
file the answer is the same whatever the second date is. `dgetfiles` with the
two dates written with tabs, so that each is one token, ends in the same state
on every walk for the range Jun 30 1993 to Jun 30 1993 and for the range
Jun 30 1993 to Dec 31 2094. -/
theorem C8_dgetfiles_ignores_dates (E : Env) (fs : List Entry) (g : Globals) :
    (∀ (u : Indet) (st : Stat) (c1 c2 c2' : CStr),
      compare E u st (some c1) (some c2) "dgetfiles".toList =
        compare E u st (some c1) (some c2') "dgetfiles".toList) ∧
    eval E fs
        "dgetfiles Wed\tJun\t30\t21:49:08\t1993 Wed\tJun\t30\t21:49:08\t1993\n".toList g =
      eval E fs
        "dgetfiles Wed\tJun\t30\t21:49:08\t1993 Fri\tDec\t31\t23:59:59\t2094\n".toList g := by
  refine ⟨?_, ?_⟩
  · intro u st c1 c2 c2'
    rfl
  · have hp1 : parse
          "dgetfiles Wed\tJun\t30\t21:49:08\t1993 Wed\tJun\t30\t21:49:08\t1993\n".toList =
        (3, ["dgetfiles".toList, "Wed\tJun\t30\t21:49:08\t1993".toList,
          "Wed\tJun\t30\t21:49:08\t1993".toList]) := by decide
    have hp2 : parse
          "dgetfiles Wed\tJun\t30\t21:49:08\t1993 Fri\tDec\t31\t23:59:59\t2094\n".toList =
        (3, ["dgetfiles".toList, "Wed\tJun\t30\t21:49:08\t1993".toList,
          "Fri\tDec\t31\t23:59:59\t2094".toList]) := by decide
    have hcb : sdgetfiles E ["dgetfiles".toList, "Wed\tJun\t30\t21:49:08\t1993".toList,
          "Wed\tJun\t30\t21:49:08\t1993".toList] =
        sdgetfiles E ["dgetfiles".toList, "Wed\tJun\t30\t21:49:08\t1993".toList,
          "Fri\tDec\t31\t23:59:59\t2094".toList] := by
      funext e g
      rfl
    rw [eval_sdgetfiles E fs _ g _ _ hp1 (by decide) (by decide) (Or.inr rfl),
      eval_sdgetfiles E fs _ g _ _ hp2 (by decide) (by decide) (Or.inr rfl), hcb]

/-! ## The bootstrap gate -/

theorem inv_init : Inv Server.init where
  closed := by intro _; decide
  fresh := by intro _ _; decide
  pending := by intro _ ok h; exact absurd h (by simp [Server.init])
  once := by intro _; decide
  first := by intro sess h; exact absurd h (by simp [Server.init])

theorem sigusr1_handler_dirty (msg : CStr) (s sock : Socketfd)
    (h : sigusr1_handler msg s = some sock) : sock.dirty = 0 := by
  unfold sigusr1_handler at h
  split at h
  · exact absurd h (by simp)
  · split at h
    · exact absurd h (by simp)
    · simp only [Option.some.injEq] at h
      rw [← h]

theorem accepted_fd_cases (ok : Bool) (s : Socketfd) :
    accepted_fd ok s = s ∨ accepted_fd ok s = { s with pipefd1 := PipeEnd.conn } := by
  unfold accepted_fd
  split
  · exact Or.inr rfl
  · exact Or.inl rfl

theorem inv_step (s : Server) (ev : Event) (h : Inv s) : Inv (step s ev) := by
  cases ev with
  | connect ok host port =>
    unfold step
    by_cases hpc : s.pc = .accepting
    · simp only [hpc, if_true]
      rcases accepted_fd_cases ok s.g.socketfd with hfd | hfd <;> rw [hfd]
      all_goals
        refine ⟨h.closed, ?_, ?_, ?_, h.first⟩
        · intro _ hacc
          exact absurd hacc (by simp)
        · intro hd ok2 _
          exact ⟨(h.fresh hd hpc).2.1, (h.fresh hd hpc).2.2⟩
        · intro hd
          have hf := h.fresh hd hpc
          have ho := h.once hd
          refine ⟨?_, ho.2.1, ho.2.2⟩
          show (if ok = true then s.naccept + 1 else s.naccept) ≤ 1
          split <;> omega
    · simp only [hpc, if_false]
      exact h
  | fork ok =>
    unfold step
    cases hpc : s.pc with
    | accepted conn =>
      simp only []
      cases ok with
      | true =>
        simp only [if_true]
        refine ⟨h.closed, ?_, ?_, ?_, ?_⟩
        · intro _ hacc
          exact absurd hacc (by simp)
        · intro _ ok2 hacc
          exact absurd hacc (by simp)
        · intro hd
          have hp := h.pending hd conn hpc
          have ho := h.once hd
          refine ⟨ho.1, ?_, ?_⟩
          · simp [hp.1]
          · show s.g.socketfd.nclient + 1 ≤ 0
            omega
        · intro sess hsess hcond
          rcases List.mem_append.mp hsess with hold | hnew
          · exact h.first sess hold hcond
          · simp only [List.mem_singleton] at hnew
            subst hnew
            have hd : s.g.socketfd.dirty ≠ 0 := by
              rcases hcond with hr | hd
              · exact h.closed hr
              · exact hd
            have hp := h.pending hd conn hpc
            show s.g.socketfd.nclient + 1 ≤ 0
            omega
      | false =>
        simp only [Bool.false_eq_true, if_false]
        refine ⟨h.closed, ?_, ?_, ?_, h.first⟩
        · intro _ hacc
          exact absurd hacc (by simp)
        · intro _ ok2 hacc
          exact absurd hacc (by simp)
        · intro hd
          have hp := h.pending hd conn hpc
          have ho := h.once hd
          refine ⟨ho.1, ho.2.1, ?_⟩
          show s.g.socketfd.nclient + 1 ≤ 0
          omega
    | accepting => simpa [hpc] using h
    | forked => simpa [hpc] using h
    | waiting => simpa [hpc] using h
    | dead => simpa [hpc] using h
  | install =>
    unfold step
    by_cases hpc : s.pc = .forked
    · simp only [hpc, if_true]
      refine ⟨h.closed, ?_, ?_, h.once, h.first⟩
      · intro _ hacc
        exact absurd hacc (by simp)
      · intro _ ok2 hacc
        exact absurd hacc (by simp)
    · simp only [hpc, if_false]
      exact h
  | resume =>
    unfold step
    by_cases hc : s.pc = .waiting ∧ s.g.socketfd.dirty = 0
    · simp only [hc, and_self, if_true]
      refine ⟨h.closed, ?_, ?_, h.once, h.first⟩
      · intro hd _
        exact absurd hc.2 hd
      · intro _ ok2 hacc
        exact absurd hacc (by simp)
    · simp only [hc, if_false]
      exact h
  | sigusr1 msg =>
    unfold step
    by_cases hdead : s.pc = .dead
    · simp only [hdead, if_true]
      exact h
    · simp only [hdead, if_false]
      have hkill : ∀ b : Bool, Inv { s with pc := .dead, handler := b } := by
        intro b
        refine ⟨h.closed, ?_, ?_, h.once, h.first⟩
        · intro _ hacc
          exact absurd hacc (by simp)
        · intro _ ok2 hacc
          exact absurd hacc (by simp)
      by_cases hh : s.handler = true
      · simp only [hh, if_true]
        cases hs : sigusr1_handler msg s.g.socketfd with
        | none => exact hkill true
        | some sock =>
          have hz := sigusr1_handler_dirty msg _ sock hs
          simp only []
          refine ⟨?_, ?_, ?_, ?_, h.first⟩
          · intro hdel
            exact absurd hdel (by simp)
          · intro hd
            exact absurd hz hd
          · intro hd
            exact absurd hz hd
          · intro hd
            exact absurd hz hd
      · have hf : s.handler = false := by simpa using hh
        simp only [hf, Bool.false_eq_true, if_false]
        exact hkill false

theorem inv_foldl (evs : List Event) : ∀ s : Server, Inv s → Inv (evs.foldl step s) := by
  induction evs with
  | nil => intro s h; exact h
  | cons ev rest ih =>
    intro s h
    exact ih (step s ev) (inv_step s ev h)

theorem inv_run (evs : List Event) : Inv (run evs) := inv_foldl evs Server.init inv_init

/-- C2: in every state the listening process reaches, while the gate is
closed (`dirty` nonzero), and likewise while no registration message has been
processed, `accept` has returned at most one connection and at most one child
has been forked. -/
theorem C2_gate_blocks_second_accept (evs : List Event) :
    ((run evs).g.socketfd.dirty ≠ 0 →
      (run evs).naccept ≤ 1 ∧ (run evs).sessions.length ≤ 1) ∧
    ((run evs).delivered = [] →
      (run evs).naccept ≤ 1 ∧ (run evs).sessions.length ≤ 1) := by
  have h := inv_run evs
  have key : (run evs).g.socketfd.dirty ≠ 0 →
      (run evs).naccept ≤ 1 ∧ (run evs).sessions.length ≤ 1 :=
    fun hd => ⟨(h.once hd).1, (h.once hd).2.1⟩
  exact ⟨key, fun hdel => key (h.closed hdel)⟩

/-- The theorem C2 after a first connection that is followed by a second
attempt to connect and no registration. -/
theorem C2_gate_blocks_second_accept_witness :
    (run [.connect true "h".toList "1".toList, .fork true, .install, .resume,
        .connect true "k".toList "2".toList]).g.socketfd.dirty ≠ 0 ∧
    (run [.connect true "h".toList "1".toList, .fork true, .install, .resume,
        .connect true "k".toList "2".toList]).naccept ≤ 1 ∧
    (run [.connect true "h".toList "1".toList, .fork true, .install, .resume,
        .connect true "k".toList "2".toList]).sessions.length ≤ 1 :=
  ⟨by decide,
   (C2_gate_blocks_second_accept [.connect true "h".toList "1".toList, .fork true, .install,
      .resume, .connect true "k".toList "2".toList]).1 (by decide)⟩

/-- C3: in every state the listening process reaches, a child that was forked
before any registration was processed (equivalently, whose copy of the gate is
closed) answers HELLO with status OK and the text OK, whatever the rest of
its globals. -/
theorem C3_no_redirect_before_registration (evs : List Event) (sess : Session)
    (hsess : sess ∈ (run evs).sessions)
    (hreg : sess.regs = [] ∨ sess.globals.socketfd.dirty ≠ 0)
    (E : Env) (fs : List Entry) (g : Globals) (hg : g.socketfd = sess.globals.socketfd) :
    eval E fs "HELLO\n".toList g = .ok () { g with message := "OK".toList, status := OK } := by
  have hn := (inv_run evs).first sess hsess hreg
  have hp : parse "HELLO\n".toList = (1, ["HELLO".toList]) := by decide
  have hav : available g.socketfd = 1 := by
    unfold available
    rw [hg]
    simp only [show sess.globals.socketfd.nclient ≤ 4 by omega, if_true]
  unfold eval
  rw [hp]
  simp [hav, MAXARG]

/-- The theorem C3 at the first child of the listening process. -/
theorem C3_no_redirect_before_registration_witness :
    eval sampleEnv sampleWalk "HELLO\n".toList sampleGlobals =
      .ok () { sampleGlobals with message := "OK".toList, status := OK } :=
  C3_no_redirect_before_registration
    [.connect true "h".toList "1".toList, .fork true]
    { connected := true,
      globals := { Server.init.g with
        socketfd := { Server.init.g.socketfd with nclient := 0 },
        client_hostname := "h".toList, client_port := "1".toList },
      regs := [] }
    (by decide) (by decide) sampleEnv sampleWalk sampleGlobals (by decide)

/-! ## Decimal numerals: `atoi` reads back what printf writes -/

theorem digitVal_digitChar (d : Nat) (h : d < 10) : digitVal (digitChar d) = some d := by
  interval_cases d <;> rfl

theorem digitChar_plain (d : Nat) (h : d < 10) :
    digitChar d ≠ ' ' ∧ digitChar d ≠ '-' ∧ digitChar d ≠ '+' ∧ isspace (digitChar d) = false := by
  interval_cases d <;> decide

theorem decimalAux_spec (n : Nat) : ∀ (fuel : Nat) (acc : CStr), n < fuel →
    ∃ ds : CStr, ds ≠ [] ∧ (∀ c ∈ ds, ∃ d, d < 10 ∧ c = digitChar d) ∧
      decimalAux fuel n acc = ds ++ acc ∧
      ∀ (a : Nat) (rest : CStr),
        atoiDigits a (ds ++ rest) = atoiDigits (a * 10 ^ ds.length + n) rest := by
  induction n using Nat.strong_induction_on with
  | _ n ih =>
    intro fuel acc hfuel
    cases fuel with
    | zero => exact absurd hfuel (Nat.not_lt_zero _)
    | succ f =>
      by_cases hn : n < 10
      · refine ⟨[digitChar n], by simp, ?_, ?_, ?_⟩
        · intro c hc
          exact ⟨n, hn, by simpa using hc⟩
        · simp [decimalAux, hn]
        · intro a rest
          simp [atoiDigits, digitVal_digitChar n hn]
      · have hdiv : n / 10 < n := Nat.div_lt_self (by omega) (by decide)
        have hmod : n % 10 < 10 := Nat.mod_lt _ (by decide)
        obtain ⟨ds, hne, hdig, hrun, hval⟩ :=
          ih (n / 10) hdiv f (digitChar (n % 10) :: acc) (by omega)
        refine ⟨ds ++ [digitChar (n % 10)], by simp, ?_, ?_, ?_⟩
        · intro c hc
          rcases List.mem_append.mp hc with h | h
          · exact hdig c h
          · exact ⟨n % 10, hmod, by simpa using h⟩
        · simp [decimalAux, hn, hrun]
        · intro a rest
          rw [List.append_assoc, hval]
          simp only [List.singleton_append, atoiDigits, digitVal_digitChar _ hmod,
            List.length_append, List.length_singleton]
          congr 1
          rw [pow_succ]
          have := Nat.div_add_mod n 10
          nlinarith [this]

theorem decimal_spec (n : Nat) :
    decimal n ≠ [] ∧ (∀ c ∈ decimal n, ∃ d, d < 10 ∧ c = digitChar d) ∧
      ∀ (a : Nat) (rest : CStr),
        atoiDigits a (decimal n ++ rest) = atoiDigits (a * 10 ^ (decimal n).length + n) rest := by
  obtain ⟨ds, hne, hdig, hrun, hval⟩ := decimalAux_spec n (n + 1) [] (Nat.lt_succ_self n)
  have hd : decimal n = ds := by
    unfold decimal
    rw [hrun, List.append_nil]
  rw [hd]
  exact ⟨hne, hdig, hval⟩

theorem decimal_token (n : Nat) : decimal n ≠ [] ∧ ' ' ∉ decimal n := by
  obtain ⟨hne, hdig, _⟩ := decimal_spec n
  refine ⟨hne, ?_⟩
  intro hsp
  obtain ⟨d, hd, hc⟩ := hdig ' ' hsp
  exact (digitChar_plain d hd).1 hc.symm

theorem wrap32_small (x : Int) (h0 : 0 ≤ x) (h1 : x < 2 ^ 31) : wrap32 x = x := by
  unfold wrap32
  rw [Int.emod_eq_of_lt (by omega) (by omega)]
  omega

theorem atoi_decimal (n : Nat) (h : n < 2 ^ 31) : atoi (decimal n) = n := by
  obtain ⟨hne, hdig, hval⟩ := decimal_spec n
  have hv := hval 0 []
  simp only [List.append_nil, Nat.zero_mul, Nat.zero_add, atoiDigits] at hv
  cases hds : decimal n with
  | nil => exact absurd hds hne
  | cons c cs =>
    obtain ⟨d, hd, hc⟩ := hdig c (by rw [hds]; simp)
    have hplain := digitChar_plain d hd
    rw [← hc] at hplain
    rw [hds] at hv
    unfold atoi strtol
    simp only [List.dropWhile_cons, hplain.2.2.2, Bool.false_eq_true, if_false,
      hplain.2.1, hplain.2.2.1, hv]
    have hclamp : clamp64 (n : Int) = n := by
      unfold clamp64
      have : (n : Int) < 2 ^ 31 := by exact_mod_cast h
      rw [if_neg (by omega), if_neg (by omega)]
    rw [hclamp]
    exact wrap32_small _ (Int.ofNat_nonneg _) (by exact_mod_cast h)

/-! ## `sgetfiles` on sizes and bounds that fit an `int` -/

theorem sdgetfiles_size_eq (E : Env) (a b : CStr) (e : Entry) (g : Globals) :
    sdgetfiles E ["sgetfiles".toList, a, b] e g =
      if decide (e.type = .FTW_F ∧ atoi a ≤ wrap32 e.st.st_size ∧ wrap32 e.st.st_size ≤ atoi b)
      then
        if (g.message ++ " ".toList ++ e.fpath).length < MAXLINE then
          .ok 0 { g with message := g.message ++ " ".toList ++ e.fpath, status := OK }
        else .overrun g
      else .ok 0 g := by
  have hv : (["sgetfiles".toList, a, b] : List CStr).headD [] = "sgetfiles".toList := rfl
  cases ht : e.type <;> simp only [sdgetfiles, ht, compare, hv, if_true] <;> simp
  by_cases h1 : atoi a ≤ wrap32 e.st.st_size
  · by_cases h2 : wrap32 e.st.st_size ≤ atoi b <;> simp [h1, h2]
  · simp [h1]

/-- What `sgetfiles a b` does on any walk, as long as the archiver command
with the selected paths fits `message`: it selects the regular files whose
size, narrowed to `int`, lies between `atoi a` and `atoi b`, runs the archiver
on them when there is at least one, and ends with status FILE. -/
theorem sgetfiles_selects (E : Env) (w : Walk) (a b : CStr) (g : Globals)
    (ha : a ≠ [] ∧ ' ' ∉ a) (hb : b ≠ [] ∧ ' ' ∉ b)
    (hfit : ("tar -czf temp.tar.gz".toList ++
      ((w.entries.filter (fun e => decide (e.type = .FTW_F ∧ atoi a ≤ wrap32 e.st.st_size ∧
        wrap32 e.st.st_size ≤ atoi b))).map (fun e => ' ' :: e.fpath)).flatten).length
        < MAXLINE) :
    eval E w (List.intercalate [' '] ["sgetfiles".toList, a, b] ++ ['\n']) g =
      .ok () { g with
        status := FILE,
        message := "tar -czf temp.tar.gz".toList ++
          ((w.entries.filter (fun e => decide (e.type = .FTW_F ∧
            atoi a ≤ wrap32 e.st.st_size ∧
            wrap32 e.st.st_size ≤ atoi b))).map (fun e => ' ' :: e.fpath)).flatten,
        trace := g.trace ++ w.entries.map (fun x => Effect.visit x.fpath) ++
          (if w.entries.filter (fun e => decide (e.type = .FTW_F ∧
              atoi a ≤ wrap32 e.st.st_size ∧ wrap32 e.st.st_size ≤ atoi b)) = [] then []
           else [Effect.system ("tar -czf temp.tar.gz".toList ++
            ((w.entries.filter (fun e => decide (e.type = .FTW_F ∧
              atoi a ≤ wrap32 e.st.st_size ∧
              wrap32 e.st.st_size ≤ atoi b))).map (fun e => ' ' :: e.fpath)).flatten)]) } := by
  have hp := parse_tokens ["sgetfiles".toList, a, b] (by simp)
    (by
      intro t ht
      simp only [List.mem_cons, List.mem_singleton, List.not_mem_nil, or_false] at ht
      rcases ht with rfl | rfl | rfl
      · decide
      · exact ha
      · exact hb) '\n'
  have hcollect := ftw_collect (sdgetfiles E ["sgetfiles".toList, a, b])
    (fun e => decide (e.type = .FTW_F ∧ atoi a ≤ wrap32 e.st.st_size ∧
      wrap32 e.st.st_size ≤ atoi b))
    (fun e g => sdgetfiles_size_eq E a b e g) w.fails w.entries
    { g with status := ERR, message := "tar -czf temp.tar.gz".toList } hfit
  have hne : ERR ≠ OK := by decide
  rw [eval_sdgetfiles E w _ g _ _ hp (Int.ofNat_nonneg _) (by simp [MAXARG]) (Or.inl rfl)]
  unfold ftw
  rw [hcollect]
  dsimp only
  by_cases hsel : w.entries.filter (fun e => decide (e.type = .FTW_F ∧
      atoi a ≤ wrap32 e.st.st_size ∧ wrap32 e.st.st_size ≤ atoi b)) = []
  · rw [if_pos hsel, if_neg hne, if_pos hsel]
    simp [hsel]
  · rw [if_neg hsel, if_pos rfl, if_neg hsel]
    simp [system]

/-- When the bounds are decimal numerals below 2^31 and every size in the walk
is below 2^31, `sgetfiles lo hi` selects exactly the regular files with
lo <= size <= hi, as long as the archiver command with their paths fits
`message`. -/
theorem sgetfiles_in_range (E : Env) (w : Walk) (lo hi : Nat) (g : Globals)
    (hlo : lo < 2 ^ 31) (hhi : hi < 2 ^ 31)
    (hfs : ∀ e ∈ w.entries, 0 ≤ e.st.st_size ∧ e.st.st_size < 2 ^ 31)
    (hfit : ("tar -czf temp.tar.gz".toList ++
      ((w.entries.filter (fun e => decide (e.type = .FTW_F ∧ (lo : Int) ≤ e.st.st_size ∧
        e.st.st_size ≤ (hi : Int)))).map (fun e => ' ' :: e.fpath)).flatten).length
        < MAXLINE) :
    eval E w (List.intercalate [' '] ["sgetfiles".toList, decimal lo, decimal hi] ++ ['\n']) g =
      .ok () { g with
        status := FILE,
        message := "tar -czf temp.tar.gz".toList ++
          ((w.entries.filter (fun e => decide (e.type = .FTW_F ∧ (lo : Int) ≤ e.st.st_size ∧
            e.st.st_size ≤ (hi : Int)))).map (fun e => ' ' :: e.fpath)).flatten,
        trace := g.trace ++ w.entries.map (fun x => Effect.visit x.fpath) ++
          (if w.entries.filter (fun e => decide (e.type = .FTW_F ∧ (lo : Int) ≤ e.st.st_size ∧
              e.st.st_size ≤ (hi : Int))) = [] then []
           else [Effect.system ("tar -czf temp.tar.gz".toList ++
            ((w.entries.filter (fun e => decide (e.type = .FTW_F ∧ (lo : Int) ≤ e.st.st_size ∧
              e.st.st_size ≤ (hi : Int)))).map (fun e => ' ' :: e.fpath)).flatten)]) } := by
  have hfilter : w.entries.filter (fun e => decide (e.type = .FTW_F ∧
        atoi (decimal lo) ≤ wrap32 e.st.st_size ∧ wrap32 e.st.st_size ≤ atoi (decimal hi))) =
      w.entries.filter (fun e => decide (e.type = .FTW_F ∧ (lo : Int) ≤ e.st.st_size ∧
        e.st.st_size ≤ (hi : Int))) := by
    apply List.filter_congr
    intro e he
    rw [atoi_decimal lo hlo, atoi_decimal hi hhi, wrap32_small _ (hfs e he).1 (hfs e he).2]
  rw [sgetfiles_selects E w _ _ g (decimal_token lo) (decimal_token hi)
    (by rw [hfilter]; exact hfit), hfilter]

/-! ## Command lines the tokenizer should refuse -/

/-- C11: a command line of nine tokens is not refused: `parse` returns 9, not
the parse error, with all nine arguments, one more than the `MAXARG` slots of
`argv` hold. -/
theorem C11_nine_tokens_accepted :
    parse "getfiles a.txt b c d e f g h\n".toList =
      (9, ["getfiles".toList, "a.txt".toList, "b".toList, "c".toList, "d".toList, "e".toList,
        "f".toList, "g".toList, "h".toList]) ∧
    ¬ (parse "getfiles a.txt b c d e f g h\n".toList).1 < 0 ∧
    MAXARG < (parse "getfiles a.txt b c d e f g h\n".toList).2.length := by
  decide

/-- C12, as stated, fails: on the blank line the session handler does not
return after sending a text that begins with ERR:. -/
theorem C12_blank_line_no_err_reply :
    ¬ ∃ (g1 : Globals) (txt : List Char),
      process sampleEnv sampleWalk ⟨[.data "\n".toList], .bad 0, .bad 0, true⟩ sampleGlobals =
        .ok () g1 ∧ Effect.send ("ERR:".toList ++ txt) ∈ g1.trace := by
  have h : process sampleEnv sampleWalk ⟨[.data "\n".toList], .bad 0, .bad 0, true⟩
      sampleGlobals = .exit 1 sampleGlobals := by decide
  rintro ⟨g1, txt, h1, _⟩
  rw [h] at h1
  exact Res.noConfusion h1

/-- C12, amended: when the line received is malformed (`parse` returns a
negative value) the session handler sends nothing and the session process
exits with code 1, its globals and its log of outside calls unchanged. -/
theorem C12_parse_error_exits (E : Env) (fs : List Entry) (inp : Inputs) (g : Globals)
    (buf : List Char) (nrecv : Int) (hrecv : recvLine inp.recv [] = (buf, nrecv))
    (hn : 0 ≤ nrecv) (hparse : (parse (cstr buf)).1 < 0) :
    process E fs inp g = .exit 1 g := by
  unfold process
  rw [hrecv]
  simp only [not_lt.mpr hn, if_false]
  have hm : ¬ ((MAXARG : Int) < (parse (cstr buf)).1) := by
    have h8 : ((MAXARG : Nat) : Int) = 8 := rfl
    omega
  have he : eval E fs (cstr buf) g = .exit 1 g := by
    unfold eval
    simp only [hm, if_false, hparse, if_true]
  rw [he]

/-- The amended C12 at a line of two spaces. -/
theorem C12_parse_error_exits_witness :
    process sampleEnv sampleWalk ⟨[.data "  \n".toList], .bad 0, .bad 0, true⟩ sampleGlobals =
      .exit 1 sampleGlobals :=
  C12_parse_error_exits sampleEnv sampleWalk ⟨[.data "  \n".toList], .bad 0, .bad 0, true⟩
    sampleGlobals "  \n".toList 3 (by decide) (by decide) (by decide)

/-! ## What the session handler writes -/

/-- C13: for the unknown verb `bogus`, `eval` leaves status ERR with the
archiver command still in `message`, and the session handler sends that text,
which does not begin with ERR:. -/
theorem C13_unknown_verb_text (E : Env) (fs : List Entry) (g : Globals)
    (temp files : Opened) (sys : Bool) :
    eval E fs "bogus\n".toList g =
      .ok () { g with status := ERR, message := "tar -czf temp.tar.gz".toList } ∧
    process E fs ⟨[.data "bogus\n".toList], temp, files, sys⟩ g =
      .ok () { g with
        status := ERR,
        message := "tar -czf temp.tar.gz".toList,
        trace := g.trace ++ [Effect.send "tar -czf temp.tar.gz\x00".toList] } ∧
    "tar -czf temp.tar.gz\x00".toList.take 4 ≠ "ERR:".toList :=
  ⟨rfl, rfl, by decide⟩

/-- C14: `sgetfiles 300 400` on the sample directory matches nothing, so no
archive is made; when `temp.tar.gz` does not exist the session handler sends a
SIZE line whose count is whatever the stack held, no blob, closes the
connection and exits with code 1. And on `MIRROR` without a port the handler
dereferences a null pointer before anything is written. -/
theorem C14_no_frame_written (E : Env) (g : Globals) (u : Int) (files temp : Opened)
    (sys : Bool) (fs : List Entry) :
    process E sampleWalk ⟨[.data "sgetfiles 300 400\n".toList], .bad u, files, sys⟩ g =
      .exit 1 { g with
        status := FILE,
        message := "tar -czf temp.tar.gz".toList,
        trace := g.trace ++ [Effect.visit "data".toList] ++ [Effect.visit "data/a.txt".toList]
          ++ [Effect.visit "data/b.c".toList] ++ [Effect.visit "data/c.txt".toList]
          ++ [Effect.send ("SIZE:".toList ++ fmt_d u ++ ['\n'])] ++ [Effect.close_conn] } ∧
    process E fs ⟨[.data "MIRROR\n".toList], temp, files, sys⟩ g =
      .segv { g with status := ERR, message := "tar -czf temp.tar.gz".toList } :=
  ⟨rfl, rfl⟩

/-- C16: for a file of 2147483648 bytes `send_file` writes the line
"SIZE:-2147483648", not the decimal byte count, before the `sendfile` call. -/
theorem C16_size_line_wraps (g : Globals) :
    send_file (.file 2147483648) g =
      .ok () { g with
        trace := g.trace ++ [Effect.send "SIZE:-2147483648\n".toList]
          ++ [Effect.sendfile 2147483648] } ∧
    "SIZE:-2147483648\n".toList ≠ "SIZE:".toList ++ decimal 2147483648 ++ ['\n'] :=
  ⟨rfl, by decide⟩

/-! ## The receiver -/

set_option maxRecDepth 10000 in
/-- C18: a first chunk of more than five bytes that begins with none of
SIZE:, OK: and ERR: does not stop the receiver: it reads the next chunk, and
when that one is a SIZE frame it writes the payload to the archive and, with
`-u`, extracts it. -/
theorem C18_long_unknown_chunk_keeps_reading :
    Client.waitmsg 0 [.data "tar -czf temp.tar.gz\x00".toList, .data "SIZE:3\nabc".toList] =
      some { status := Client.FILE, archive := "abc".toList, extracted := true,
             unlinked := true, rest := [] } := by
  rfl

set_option maxRecDepth 10000 in
/-- C19: when the peer closes after "SIZE:10" and three payload bytes, the
receiver ends with status FILE and, with `-u`, runs the extraction on the
three-byte archive. -/
theorem C19_truncated_frame_extracted :
    Client.waitmsg 0 [.data "SIZE:10\nabc".toList, .closed] =
      some { status := Client.FILE, archive := "abc".toList, extracted := true,
             unlinked := true, rest := [] } := by
  rfl

/-! ## The status of `sgetfiles` and `dgetfiles` -/

/-- A callback that returns 0 and changes nothing on every entry of the walk
leaves only the visits in the log. -/
theorem ftw_none (cb : Entry → Globals → Res Int) (fails : Bool) (fs : List Entry)
    (hcb : ∀ e ∈ fs, ∀ g, cb e g = .ok 0 g) :
    ∀ g : Globals, ftwLoop cb fails fs g =
      .ok (if fails then -1 else 0)
        { g with trace := g.trace ++ fs.map (fun x => Effect.visit x.fpath) } := by
  induction fs with
  | nil => intro g; simp [ftwLoop]
  | cons e es ih =>
    intro g
    rw [ftwLoop, hcb e (by simp)]
    simp [ih (fun x hx g => hcb x (by simp [hx]) g)]

/-- For `sgetfiles` and `dgetfiles`, whatever the walk and the arguments,
`eval` never returns with a status other than FILE, so never with the status
ERR of a not-found reply. -/
theorem sdgetfiles_never_err (E : Env) (w : Walk) (verb : CStr)
    (args : List CStr) (g : Globals)
    (hv : verb = "sgetfiles".toList ∨ verb = "dgetfiles".toList)
    (hargs : ∀ t ∈ args, t ≠ [] ∧ ' ' ∉ t) :
    ∀ g1, eval E w (List.intercalate [' '] (verb :: args) ++ ['\n']) g = .ok () g1 →
      g1.status = FILE := by
  have hverb : verb ≠ [] ∧ ' ' ∉ verb := by
    rcases hv with h | h <;> rw [h] <;> decide
  have hp := parse_tokens (verb :: args) (by simp)
    (by
      intro t ht
      rcases List.mem_cons.mp ht with rfl | h
      · exact hverb
      · exact hargs t h) '\n'
  intro g1 h
  by_cases hmax : (((verb :: args).length : Nat) : Int) ≤ MAXARG
  · rw [eval_sdgetfiles E w _ g _ _ hp (Int.ofNat_nonneg _) hmax hv] at h
    cases hf : ftw (sdgetfiles E (verb :: args)) w
        { g with status := ERR, message := "tar -czf temp.tar.gz".toList } with
    | ok r g2 =>
      rw [hf] at h
      simp only [Res.ok.injEq, true_and] at h
      rw [← h]
    | exit c g2 =>
      rw [hf] at h
      exact Res.noConfusion h
    | segv g2 =>
      rw [hf] at h
      exact Res.noConfusion h
    | overrun g2 =>
      rw [hf] at h
      exact Res.noConfusion h
  · unfold eval at h
    rw [hp] at h
    simp only [not_le.mp hmax, if_true] at h
    exact Res.noConfusion h

/-- C15: for `sgetfiles` and `dgetfiles` with their two arguments, on every
walk on which `compare` answers 0 for every regular file, so that nothing is
matched, no File frame is sent: `eval` sets status FILE without having called
the archiver, and with no `temp.tar.gz` to open the session handler sends a
SIZE line whose count is whatever the stack held, no blob, closes the
connection and exits with code 1. -/
theorem C15_no_match_no_frame (E : Env) (w : Walk) (verb a b : CStr) (g : Globals)
    (inp : Inputs) (u : Int)
    (hv : verb = "sgetfiles".toList ∨ verb = "dgetfiles".toList)
    (ha : a ≠ [] ∧ ' ' ∉ a ∧ '\x00' ∉ a) (hb : b ≠ [] ∧ ' ' ∉ b ∧ '\x00' ∉ b)
    (hline : (List.intercalate [' '] [verb, a, b] ++ ['\n']).length < MAXLINE)
    (hrecv : inp.recv = [.data (List.intercalate [' '] [verb, a, b] ++ ['\n'])])
    (hnone : ∀ e ∈ w.entries, e.type = .FTW_F →
      compare E (E.indet e) e.st (some a) (some b) verb = some 0)
    (htemp : inp.temp = .bad u) :
    process E w inp g =
      .exit 1 { g with
        status := FILE,
        message := "tar -czf temp.tar.gz".toList,
        trace := g.trace ++ w.entries.map (fun x => Effect.visit x.fpath) ++
          [Effect.send ("SIZE:".toList ++ fmt_d u ++ ['\n']), Effect.close_conn] } := by
  have hverb : verb ≠ [] ∧ ' ' ∉ verb ∧ '\x00' ∉ verb := by
    rcases hv with h | h <;> rw [h] <;> decide
  have htok : ∀ t ∈ [verb, a, b], t ≠ [] ∧ ' ' ∉ t ∧ '\x00' ∉ t := by
    intro t ht
    simp only [List.mem_cons, List.mem_singleton, List.not_mem_nil, or_false] at ht
    rcases ht with rfl | rfl | rfl
    · exact hverb
    · exact ha
    · exact hb
  have hp := parse_tokens [verb, a, b] (by simp)
    (fun t ht => ⟨(htok t ht).1, (htok t ht).2.1⟩) '\n'
  have hcb : ∀ e ∈ w.entries, ∀ g : Globals, sdgetfiles E [verb, a, b] e g = .ok 0 g := by
    intro e he g
    unfold sdgetfiles
    cases ht : e.type
    case FTW_F =>
      have hc : compare E (E.indet e) e.st ([verb, a, b][1]?) ([verb, a, b][2]?)
          ([verb, a, b].headD []) = some 0 := hnone e he ht
      simp only [hc]
      rfl
    all_goals rfl
  have he := eval_sdgetfiles E w _ g _ _ hp (Int.ofNat_nonneg _) (by simp [MAXARG]) hv
  unfold ftw at he
  rw [ftw_none _ w.fails w.entries hcb] at he
  dsimp only at he
  rw [if_neg (show ¬ ERR = OK by decide)] at he
  have hline0 : '\x00' ∉ List.intercalate [' '] [verb, a, b] ++ ['\n'] := by
    intro hm
    rcases List.mem_append.mp hm with h | h
    · exact intercalate_plain '\x00' (by decide) _ (fun t ht => (htok t ht).2.2) h
    · exact absurd h (by decide)
  rw [← cstr_plain _ hline0] at he
  rw [process_file E w inp g _ _ _ (recvLine_line inp _ hrecv) (Int.ofNat_nonneg _) he rfl,
    htemp]
  simp [send_file, emit]

/-- The theorem C15 at `sgetfiles 500 600` on the sample directory, where no
file matches. -/
theorem C15_no_match_no_frame_witness :
    process sampleEnv sampleWalk
        { recv := [.data (List.intercalate [' '] ["sgetfiles".toList, "500".toList,
            "600".toList] ++ ['\n'])],
          temp := .bad 77, files := .bad 0, system_ok := true } sampleGlobals =
      .exit 1 { sampleGlobals with
        status := FILE,
        message := "tar -czf temp.tar.gz".toList,
        trace := sampleGlobals.trace ++
          (sampleWalk : Walk).entries.map (fun x => Effect.visit x.fpath) ++
          [Effect.send ("SIZE:".toList ++ fmt_d 77 ++ ['\n']), Effect.close_conn] } :=
  C15_no_match_no_frame sampleEnv sampleWalk "sgetfiles".toList "500".toList "600".toList
    sampleGlobals
    { recv := [.data (List.intercalate [' '] ["sgetfiles".toList, "500".toList,
        "600".toList] ++ ['\n'])],
      temp := .bad 77, files := .bad 0, system_ok := true } 77
    (Or.inl rfl) (by decide) (by decide) (by decide) rfl (by decide) rfl

/-! ## The bare OK -/

theorem ftwLoop_message_length (cb : Entry → Globals → Res Int)
    (hcb : ∀ e g r g1, cb e g = .ok r g1 → 3 ≤ g.message.length → 3 ≤ g1.message.length)
    (fails : Bool) (fs : List Entry) :
    ∀ (g : Globals) (r : Int) (g1 : Globals), ftwLoop cb fails fs g = .ok r g1 →
      3 ≤ g.message.length → 3 ≤ g1.message.length := by
  induction fs with
  | nil =>
    intro g r g1 h hlen
    simp only [ftwLoop, Res.ok.injEq] at h
    rw [← h.2]
    exact hlen
  | cons e es ih =>
    intro g r g1 h hlen
    rw [ftwLoop] at h
    cases hc : cb e { g with trace := g.trace ++ [Effect.visit e.fpath] } with
    | ok r2 g2 =>
      have h2 := hcb e _ r2 g2 hc hlen
      rw [hc] at h
      simp only at h
      by_cases hr : r2 ≠ 0
      · rw [if_pos hr] at h
        simp only [Res.ok.injEq] at h
        rw [← h.2]
        exact h2
      · rw [if_neg hr] at h
        exact ih g2 r g1 h h2
    | exit c g2 =>
      rw [hc] at h
      exact Res.noConfusion h
    | segv g2 =>
      rw [hc] at h
      exact Res.noConfusion h
    | overrun g2 =>
      rw [hc] at h
      exact Res.noConfusion h

theorem ftw_message_length (cb : Entry → Globals → Res Int)
    (hcb : ∀ e g r g1, cb e g = .ok r g1 → 3 ≤ g.message.length → 3 ≤ g1.message.length)
    (w : Walk) (g : Globals) (r : Int) (g1 : Globals) (h : ftw cb w g = .ok r g1)
    (hlen : 3 ≤ g.message.length) : 3 ≤ g1.message.length :=
  ftwLoop_message_length cb hcb w.fails w.entries g r g1 h hlen

theorem findfile_message_length (E : Env) (argv : List CStr) (e : Entry) (g : Globals)
    (r : Int) (g1 : Globals) (h : findfile E argv e g = .ok r g1)
    (hlen : 3 ≤ g.message.length) : 3 ≤ g1.message.length := by
  unfold findfile at h
  split at h
  · split at h
    · exact Res.noConfusion h
    · dsimp only at h
      split at h
      · split at h
        · simp only [Res.ok.injEq] at h
          rw [← h.2]
          simp only [List.length_append]
          have : ("OK:".toList).length = 3 := rfl
          omega
        · exact Res.noConfusion h
      · simp only [Res.ok.injEq] at h
        rw [← h.2]
        exact hlen
  · simp only [Res.ok.injEq] at h
    rw [← h.2]
    exact hlen

theorem sdgetfiles_message_length (E : Env) (argv : List CStr) (e : Entry) (g : Globals)
    (r : Int) (g1 : Globals) (h : sdgetfiles E argv e g = .ok r g1)
    (hlen : 3 ≤ g.message.length) : 3 ≤ g1.message.length := by
  unfold sdgetfiles at h
  split at h
  · split at h
    · exact Res.noConfusion h
    · split at h
      · split at h
        · simp only [Res.ok.injEq] at h
          rw [← h.2]
          simp only [List.length_append]
          omega
        · exact Res.noConfusion h
      · simp only [Res.ok.injEq] at h
        rw [← h.2]
        exact hlen
  · simp only [Res.ok.injEq] at h
    rw [← h.2]
    exact hlen

theorem getfiles_message_length (argv : List CStr) (e : Entry) (g : Globals)
    (r : Int) (g1 : Globals) (h : getfiles argv e g = .ok r g1)
    (hlen : 3 ≤ g.message.length) : 3 ≤ g1.message.length := by
  unfold getfiles at h
  split at h
  · dsimp only at h
    split at h
    · split at h
      · simp only [Res.ok.injEq] at h
        rw [← h.2]
        simp only [List.length_append]
        omega
      · exact Res.noConfusion h
    · simp only [Res.ok.injEq] at h
      rw [← h.2]
      exact hlen
  · simp only [Res.ok.injEq] at h
    rw [← h.2]
    exact hlen

theorem gettargz_message_length (argv : List CStr) (e : Entry) (g : Globals)
    (r : Int) (g1 : Globals) (h : gettargz argv e g = .ok r g1)
    (hlen : 3 ≤ g.message.length) : 3 ≤ g1.message.length := by
  unfold gettargz at h
  split at h
  · split at h
    · split at h
      · simp only [Res.ok.injEq] at h
        rw [← h.2]
        simp only [List.length_append]
        omega
      · exact Res.noConfusion h
    · simp only [Res.ok.injEq] at h
      rw [← h.2]
      exact hlen
  · simp only [Res.ok.injEq] at h
    rw [← h.2]
    exact hlen

theorem not_bare_of_length (m : CStr) (h : 3 ≤ m.length) : m ≠ "OK".toList := by
  intro hm
  rw [hm] at h
  exact absurd h (by decide)

/-- C20: whenever `eval` returns on a command line that parses, the text it
leaves in `message` is the two characters OK exactly when the verb is HELLO
and `available` accepts, whatever the connection count and the walk; and
`send_text` sends that text as the three bytes O, K, NUL. -/
theorem C20_bare_ok_only_for_hello_accept (E : Env) (fs : List Entry) (line : CStr)
    (g g1 : Globals) (hparse : 0 ≤ (parse line).1) (he : eval E fs line g = .ok () g1) :
    (g1.message = "OK".toList ↔
      ((parse line).2.headD [] = "HELLO".toList ∧ available g.socketfd ≠ 0)) ∧
    send_text "OK".toList g1 = emit (.send ['O', 'K', '\x00']) g1 := by
  refine ⟨?_, rfl⟩
  have htar : (3 : Nat) ≤ ("tar -czf temp.tar.gz".toList).length := by decide
  unfold eval at he
  rcases hp : parse line with ⟨argc, argv⟩
  rw [hp] at he hparse
  by_cases hmax : (MAXARG : Int) < argc
  · simp only [hmax, if_true] at he
    exact Res.noConfusion he
  simp only [hmax, not_lt.mpr hparse, if_false] at he
  simp only []
  by_cases h1 : argv.headD [] = "HELLO".toList
  · rw [if_pos h1] at he
    by_cases ha : available g.socketfd ≠ 0
    · rw [if_pos ha] at he
      simp only [Res.ok.injEq, true_and] at he
      rw [← he]
      exact ⟨fun _ => ⟨h1, ha⟩, fun _ => rfl⟩
    · rw [if_neg ha] at he
      simp only [Res.ok.injEq, true_and] at he
      rw [← he]
      simp only [h1, ha, and_false, iff_false]
      decide
  · rw [if_neg h1] at he
    simp only [h1, false_and, iff_false]
    apply not_bare_of_length
    by_cases h2 : argv.headD [] = "findfile".toList
    · rw [if_pos h2] at he
      cases hf : ftw (findfile E argv) fs
          { g with status := ERR, message := "tar -czf temp.tar.gz".toList } with
      | ok r g2 =>
        have hlen := ftw_message_length (findfile E argv)
          (fun e g r g1 h hl => findfile_message_length E argv e g r g1 h hl) fs _ r g2 hf htar
        rw [hf] at he
        simp only at he
        by_cases hr : r ≠ 0
        · rw [if_pos hr] at he
          simp only [Res.ok.injEq, true_and] at he
          rw [← he]
          exact hlen
        · rw [if_neg hr] at he
          simp only [Res.ok.injEq, true_and] at he
          rw [← he]
          show 3 ≤ ("ERR:File not found".toList).length
          decide
      | exit c g2 => rw [hf] at he; exact Res.noConfusion he
      | segv g2 => rw [hf] at he; exact Res.noConfusion he
      | overrun g2 => rw [hf] at he; exact Res.noConfusion he
    · rw [if_neg h2] at he
      by_cases h3 : argv.headD [] = "sgetfiles".toList ∨ argv.headD [] = "dgetfiles".toList
      · rw [if_pos h3] at he
        cases hf : ftw (sdgetfiles E argv) fs
            { g with status := ERR, message := "tar -czf temp.tar.gz".toList } with
        | ok r g2 =>
          have hlen := ftw_message_length (sdgetfiles E argv)
            (fun e g r g1 h hl => sdgetfiles_message_length E argv e g r g1 h hl)
            fs _ r g2 hf htar
          rw [hf] at he
          simp only [Res.ok.injEq, true_and] at he
          rw [← he]
          by_cases hs : g2.status = OK
          · simpa [hs, system] using hlen
          · simpa [hs] using hlen
        | exit c g2 => rw [hf] at he; exact Res.noConfusion he
        | segv g2 => rw [hf] at he; exact Res.noConfusion he
        | overrun g2 => rw [hf] at he; exact Res.noConfusion he
      · rw [if_neg h3] at he
        by_cases h4 : argv.headD [] = "getfiles".toList
        · rw [if_pos h4] at he
          cases hf : ftw (getfiles argv) fs
              { g with status := ERR, message := "tar -czf temp.tar.gz".toList } with
          | ok r g2 =>
            have hlen := ftw_message_length (getfiles argv)
              (fun e g r g1 h hl => getfiles_message_length argv e g r g1 h hl)
              fs _ r g2 hf htar
            rw [hf] at he
            simp only at he
            by_cases hs : g2.status = OK
            · rw [if_pos hs] at he
              simp only [Res.ok.injEq, true_and] at he
              rw [← he]
              simpa [system] using hlen
            · rw [if_neg hs] at he
              simp only [Res.ok.injEq, true_and] at he
              rw [← he]
              show 3 ≤ ("ERR:No file found".toList).length
              decide
          | exit c g2 => rw [hf] at he; exact Res.noConfusion he
          | segv g2 => rw [hf] at he; exact Res.noConfusion he
          | overrun g2 => rw [hf] at he; exact Res.noConfusion he
        · rw [if_neg h4] at he
          by_cases h5 : argv.headD [] = "gettargz".toList
          · rw [if_pos h5] at he
            cases hf : ftw (gettargz argv) fs
                { g with status := ERR, message := "tar -czf temp.tar.gz".toList } with
            | ok r g2 =>
              have hlen := ftw_message_length (gettargz argv)
                (fun e g r g1 h hl => gettargz_message_length argv e g r g1 h hl)
                fs _ r g2 hf htar
              rw [hf] at he
              simp only at he
              by_cases hs : g2.status = OK
              · rw [if_pos hs] at he
                simp only [Res.ok.injEq, true_and] at he
                rw [← he]
                simpa [system] using hlen
              · rw [if_neg hs] at he
                simp only [Res.ok.injEq, true_and] at he
                rw [← he]
                show 3 ≤ ("ERR:No file found".toList).length
                decide
            | exit c g2 => rw [hf] at he; exact Res.noConfusion he
            | segv g2 => rw [hf] at he; exact Res.noConfusion he
            | overrun g2 => rw [hf] at he; exact Res.noConfusion he
          · rw [if_neg h5] at he
            by_cases h6 : argv.headD [] = "quit".toList
            · rw [if_pos h6] at he
              simp only [Res.ok.injEq, true_and] at he
              rw [← he]
              exact htar
            · rw [if_neg h6] at he
              by_cases h7 : argv.headD [] = "MIRROR".toList
              · rw [if_pos h7] at he
                cases hm : argv[1]? with
                | none => rw [hm] at he; exact Res.noConfusion he
                | some port =>
                  rw [hm] at he
                  simp only [Res.ok.injEq, true_and] at he
                  rw [← he]
                  exact htar
              · rw [if_neg h7] at he
                simp only [Res.ok.injEq, true_and] at he
                rw [← he]
                exact htar

/-- The theorem C20 at HELLO in the first session. -/
theorem C20_bare_ok_only_for_hello_accept_witness :
    (({ sampleGlobals with message := "OK".toList, status := OK } : Globals).message
        = "OK".toList ↔
      ((parse "HELLO\n".toList).2.headD [] = "HELLO".toList ∧
        available sampleGlobals.socketfd ≠ 0)) ∧
    send_text "OK".toList { sampleGlobals with message := "OK".toList, status := OK } =
      emit (.send ['O', 'K', '\x00']) { sampleGlobals with message := "OK".toList, status := OK } :=
  C20_bare_ok_only_for_hello_accept sampleEnv sampleWalk "HELLO\n".toList sampleGlobals
    { sampleGlobals with message := "OK".toList, status := OK } (by decide) (by decide)

/-! ## The SIZE frame: sender and receiver on counts that fit an `int` -/

theorem fmt_d_small (n : Nat) (h : n < 2 ^ 31) : fmt_d (n : Int) = decimal n := by
  unfold fmt_d
  rw [wrap32_small _ (Int.ofNat_nonneg _) (by exact_mod_cast h)]
  unfold fmt_lld
  rw [if_neg (by omega), Int.natAbs_ofNat]

/-- For a file of fewer than 2^31 bytes `send_file` writes the SIZE line with
the decimal byte count and then calls `sendfile` with that count. -/
theorem send_file_small (n : Nat) (h : n < 2 ^ 31) (g : Globals) :
    send_file (.file n) g =
      .ok () (emit (.sendfile n) (emit (.send ("SIZE:".toList ++ decimal n ++ ['\n'])) g)) := by
  unfold send_file
  simp only [fmt_d_small n h]

theorem digitChar_not_end (d : Nat) (h : d < 10) :
    digitChar d ≠ '\n' ∧ digitChar d ≠ '\x00' := by
  interval_cases d <;> decide

theorem scanNewline_plain (pre : List Char) (hpre : ∀ c ∈ pre, c ≠ '\n' ∧ c ≠ '\x00')
    (rest : List Char) :
    ∀ i : Nat, Client.scanNewline (pre ++ '\n' :: rest) i = some (some (i + pre.length)) := by
  induction pre with
  | nil => intro i; simp [Client.scanNewline]
  | cons c cs ih =>
    intro i
    have hc := hpre c (by simp)
    have hcs : ∀ x ∈ cs, x ≠ '\n' ∧ x ≠ '\x00' := fun x hx => hpre x (by simp [hx])
    show Client.scanNewline (c :: (cs ++ '\n' :: rest)) i = _
    rw [Client.scanNewline, if_neg hc.1, if_neg hc.2, ih hcs (i + 1), List.length_cons]
    simp only [Option.some.injEq]
    omega

theorem flatten_length_pos (c : List Char) (cs : List (List Char)) (hc : c ≠ []) :
    0 < (c :: cs).flatten.length := by
  cases c with
  | nil => exact absurd rfl hc
  | cons x xs => simp

/-- Once the SIZE line has been read, the loop of `waitmsg` writes the chunks
that make up the bytes still due and stops at the end of the last one, as long
as each chunk, stored at `fp`, ends within `buf`. -/
theorem waitLoop_chunks (cs : List (List Char)) (more : List Recv) :
    ∀ w : Client.Wait, (∀ c ∈ cs, c ≠ [] ∧ w.fp + c.length ≤ Client.MAXFILESIZE) →
      cs ≠ [] → w.first = false →
      w.status = Client.FILE → w.fsize = (cs.flatten.length : Int) →
      cs.flatten.length < 2 ^ 31 →
      ∃ n : Int, 0 ≤ n ∧
        Client.waitLoop (cs.map Recv.data ++ more) w =
          some { w with archive := w.archive ++ cs.flatten, fsize := 0, nrecv := n,
                        rest := more } := by
  induction cs with
  | nil => intro w _ hne; exact absurd rfl hne
  | cons c cs ih =>
    intro w hcs _ hfirst hstatus hfsize hlen
    obtain ⟨status, fsize, first, nrecv, fp, archive, rest⟩ := w
    simp only at hfirst hstatus hfsize hcs
    subst hfirst hstatus hfsize
    have hc : c ≠ [] := (hcs c (by simp)).1
    have hclen : c.length ≠ 0 := fun h => hc (List.length_eq_zero.mp h)
    have hcfit : ¬ Client.MAXFILESIZE < fp + c.length := by
      have := (hcs c (by simp)).2
      omega
    have hcs2 : ∀ x ∈ cs, x ≠ [] ∧ fp + x.length ≤ Client.MAXFILESIZE :=
      fun x hx => hcs x (by simp [hx])
    have hsplit : (c :: cs).flatten.length = c.length + cs.flatten.length := by simp
    have hstep : wrap32 (((c :: cs).flatten.length : Int) - (c.length : Int)) =
        (cs.flatten.length : Int) := by
      rw [hsplit]
      rw [wrap32_small _ (by push_cast; omega) (by push_cast; omega)]
      push_cast
      omega
    rw [List.map_cons, List.cons_append, Client.waitLoop, if_neg hclen, if_neg hcfit]
    simp only [Bool.false_eq_true, if_false, Client.afterFirst, if_true, true_and, hstep]
    cases cs with
    | nil =>
      refine ⟨(c.length : Int), Int.ofNat_nonneg _, ?_⟩
      simp
    | cons d ds =>
      have hpos := flatten_length_pos d ds (hcs2 d (by simp)).1
      have hnz : ((d :: ds).flatten.length : Int) ≠ 0 := by
        intro h
        have : (d :: ds).flatten.length = 0 := by exact_mod_cast h
        omega
      obtain ⟨n, hn, hrun⟩ := ih
        { status := Client.FILE, fsize := ((d :: ds).flatten.length : Int), first := false,
          nrecv := (c.length : Int), fp := fp, archive := archive ++ c, rest := rest }
        hcs2 (by simp) rfl rfl rfl (by omega)
      refine ⟨n, hn, ?_⟩
      simp only [hnz, decide_False, Bool.false_eq_true, if_false]
      rw [hrun]
      simp [List.append_assoc]

theorem size_line_plain (n : Nat) :
    ∀ c ∈ "SIZE:".toList ++ decimal n, c ≠ '\n' ∧ c ≠ '\x00' := by
  intro c hc
  rcases List.mem_append.mp hc with h | h
  · have : ∀ x ∈ "SIZE:".toList, x ≠ '\n' ∧ x ≠ '\x00' := by decide
    exact this c h
  · obtain ⟨d, hd, hcd⟩ := (decimal_spec n).2.1 c h
    rw [hcd]
    exact digitChar_not_end d hd

/-- The loop of `waitmsg` on a SIZE frame whose line comes whole in the first
chunk: it ends, having written the announced bytes and read nothing more, as
long as the first chunk fits `buf` and each later chunk, stored behind the
SIZE line, ends within `buf`. -/
theorem waitLoop_frame (c0 : List Char) (cs : List (List Char)) (more : List Recv)
    (hL : (c0 ++ cs.flatten).length < 2 ^ 31)
    (hc0 : 5 + (decimal (c0 ++ cs.flatten).length).length + 1 + c0.length
      ≤ Client.MAXFILESIZE)
    (hcs : ∀ c ∈ cs, c ≠ [] ∧
      5 + (decimal (c0 ++ cs.flatten).length).length + 1 + c.length ≤ Client.MAXFILESIZE) :
    ∃ n : Int, 0 ≤ n ∧
      Client.waitLoop
        (.data ("SIZE:".toList ++ decimal (c0 ++ cs.flatten).length ++ '\n' :: c0)
          :: (cs.map Recv.data ++ more))
        { status := Client.ERR, fsize := 0, first := true, nrecv := 0, fp := 0, archive := [],
          rest := [] } =
      some { status := Client.FILE, fsize := 0, first := false, nrecv := n,
             fp := 5 + (decimal (c0 ++ cs.flatten).length).length + 1,
             archive := c0 ++ cs.flatten, rest := more } := by
  generalize hLdef : (c0 ++ cs.flatten).length = L at hL hc0 hcs ⊢
  have hplain := size_line_plain L
  have hscan := scanNewline_plain ("SIZE:".toList ++ decimal L) hplain c0 0
  have hprelen : ("SIZE:".toList ++ decimal L).length = 5 + (decimal L).length := by
    rw [List.length_append]
    rfl
  rw [Nat.zero_add, hprelen] at hscan
  have hdne := (decimal_spec L).1
  have hdpos : 0 < (decimal L).length := List.length_pos.mpr hdne
  have hlen : ("SIZE:".toList ++ decimal L ++ '\n' :: c0).length
      = 5 + (decimal L).length + 1 + c0.length := by
    simp [List.length_append]
    omega
  have htake3 : ("SIZE:".toList ++ decimal L ++ '\n' :: c0).take 3 ≠ "OK:".toList := by
    simp
  have htake4 : ("SIZE:".toList ++ decimal L ++ '\n' :: c0).take 4 ≠ "ERR:".toList := by
    simp
  have htake5 : ("SIZE:".toList ++ decimal L ++ '\n' :: c0).take 5 = "SIZE:".toList := by
    simp
  have hdigits : (("SIZE:".toList ++ decimal L ++ '\n' :: c0).take (5 + (decimal L).length)).drop 5
      = decimal L := by
    rw [← hprelen, List.take_left']
    · simp
    · rfl
  have hpayload : ("SIZE:".toList ++ decimal L ++ '\n' :: c0).drop (5 + (decimal L).length + 1)
      = c0 := by
    rw [← hprelen]
    have : "SIZE:".toList ++ decimal L ++ '\n' :: c0 =
        ("SIZE:".toList ++ decimal L ++ ['\n']) ++ c0 := by simp
    rw [this, List.drop_left']
    simp
  have hfs : wrap32 (atoi (decimal L) -
      ((5 + (decimal L).length + 1 + c0.length : Nat) - ((5 + (decimal L).length : Nat) + 1 : Int)))
      = (cs.flatten.length : Int) := by
    rw [atoi_decimal L hL]
    have hsum : L = c0.length + cs.flatten.length := by
      rw [← hLdef, List.length_append]
    rw [wrap32_small _ (by push_cast; omega) (by push_cast; omega)]
    push_cast
    omega
  have hn0 : ("SIZE:".toList ++ decimal L ++ '\n' :: c0).length ≠ 0 := by omega
  have hfit0 : ¬ Client.MAXFILESIZE < 0 + ("SIZE:".toList ++ decimal L ++ '\n' :: c0).length := by
    omega
  rw [Client.waitLoop, if_neg hn0, if_neg hfit0]
  simp only [if_true, htake3, htake4, and_false, if_false, htake5, hscan, hlen,
    show 5 + (decimal L).length + 1 + c0.length > 5 by omega, Client.afterFirst, hdigits,
    hpayload, true_and, List.nil_append]
  rw [show ((5 + (decimal L).length + 1 + c0.length : Nat) : Int) - ((5 + (decimal L).length : Nat) + 1 : Int)
      = ((5 + (decimal L).length + 1 + c0.length : Nat) - ((5 + (decimal L).length : Nat) + 1 : Int)) from rfl]
  cases cs with
  | nil =>
    refine ⟨(c0.length : Int), Int.ofNat_nonneg _, ?_⟩
    simp only [hfs]
    simp
  | cons d ds =>
    have hpos := flatten_length_pos d ds (hcs d (by simp)).1
    have hnz : ((d :: ds).flatten.length : Int) ≠ 0 := by
      intro h
      have : (d :: ds).flatten.length = 0 := by exact_mod_cast h
      omega
    obtain ⟨n, hn, hrun⟩ := waitLoop_chunks (d :: ds) more
      { status := Client.FILE, fsize := ((d :: ds).flatten.length : Int), first := false,
        nrecv := (c0.length : Int), fp := 5 + (decimal L).length + 1, archive := c0,
        rest := [] }
      hcs (by simp) rfl rfl rfl (by
        have : L = c0.length + (d :: ds).flatten.length := by
          rw [← hLdef, List.length_append]
        omega)
    refine ⟨n, hn, ?_⟩
    simp only [hfs, hnz, decide_False, Bool.false_eq_true, if_false]
    have hnr : ((5 + (decimal L).length + 1 + c0.length : Nat) : Int)
        - ((5 + (decimal L).length : Nat) + 1 : Int) = (c0.length : Int) := by
      push_cast
      omega
    rw [hnr, hrun]

theorem waitmsg_header_only (zip : Int) (rest : List Recv) :
    Client.waitmsg zip (.data "SIZE:4294967296\n".toList :: rest) =
      if zip = 0 then
        some { status := Client.FILE, archive := [], extracted := true, unlinked := true,
               rest := rest }
      else
        some { status := Client.FILE, archive := [], extracted := false, unlinked := false,
               rest := rest } := by
  rfl

/-- A chunk that `recv` has stored at `fp` and that reaches past the end of
`buf` leaves the outcome of the loop open. -/
theorem waitLoop_overrun (bytes : List Char) (rest : List Recv) (w : Client.Wait)
    (hne : bytes ≠ []) (h : Client.MAXFILESIZE < w.fp + bytes.length) :
    Client.waitLoop (.data bytes :: rest) w = none := by
  have hlen : bytes.length ≠ 0 := fun h0 => hne (List.length_eq_zero.mp h0)
  rw [Client.waitLoop, if_neg hlen, if_pos h]

set_option maxRecDepth 10000 in
/-- After a first read that holds the line "SIZE:5000" alone, the loop of
`waitmsg` goes on with `fp` 10 bytes into `buf`. -/
theorem waitLoop_header_5000 (rest : List Recv) :
    Client.waitLoop (.data "SIZE:5000\n".toList :: rest)
        { status := Client.ERR, fsize := 0, first := true, nrecv := 0, fp := 0, archive := [],
          rest := [] } =
      Client.waitLoop rest
        { status := Client.FILE, fsize := 5000, first := false, nrecv := 0, fp := 10,
          archive := [], rest := [] } := by
  rw [Client.waitLoop]
  rfl

/-- C17: (1) for a payload of 4294967296 bytes `atoi` turns the announced
count into the `int` 0, so when the first read holds the SIZE line alone the
receiver stops at once, with nothing written to the archive and the payload
left unread. (2) For a payload of 5000 bytes whose SIZE line comes alone in
the first read, the second `recv` is handed `buf + 10` and asked for 4096
bytes; when it returns 4096 bytes they reach 10 bytes past the end of `buf`. -/
theorem C17_count_wraps_and_buf_overrun (zip : Int) (rest : List Recv) :
    Client.waitmsg 1
        [.data "SIZE:4294967296\n".toList, .data (List.replicate 4294967296 'x')] =
      some { status := Client.FILE, archive := [], extracted := false, unlinked := false,
             rest := [.data (List.replicate 4294967296 'x')] } ∧
    (List.replicate 4294967296 'x').length = 4294967296 ∧
    Client.waitmsg zip
        (.data "SIZE:5000\n".toList :: .data (List.replicate 4096 'x') :: rest) = none ∧
    (List.replicate 4096 'x').length ≤ Client.MAXFILESIZE ∧
    Client.MAXFILESIZE < "SIZE:5000\n".toList.length + (List.replicate 4096 'x').length := by
  refine ⟨waitmsg_header_only 1 [.data (List.replicate 4294967296 'x')],
    List.length_replicate _ _, ?_, ?_, ?_⟩
  · have hfirst := waitLoop_header_5000 (.data (List.replicate 4096 'x') :: rest)
    have hne : List.replicate 4096 'x' ≠ [] := by
      intro h
      have hlen := congrArg List.length h
      rw [List.length_replicate] at hlen
      exact absurd hlen (by decide)
    have hover : Client.MAXFILESIZE <
        ({ status := Client.FILE, fsize := 5000, first := false, nrecv := 0, fp := 10,
           archive := [], rest := [] } : Client.Wait).fp + (List.replicate 4096 'x').length := by
      rw [List.length_replicate]
      decide
    unfold Client.waitmsg
    rw [hfirst, waitLoop_overrun _ _ _ hne hover]
  · rw [List.length_replicate]
    decide
  · rw [List.length_replicate]
    decide

/-- For every payload of fewer than 2^31 bytes and every way the frame
"SIZE:L" + newline + payload comes in successive non-empty reads of which the
first holds the whole SIZE line, as long as the first read fits `buf` and each
later read is no longer than what is left of `buf` behind the SIZE line,
`waitmsg` ends with status FILE, has written to the archive exactly the
payload bytes in order, and leaves every later result of `recv` unread. -/
theorem waitmsg_counts_payload (zip : Int) (c0 : List Char) (cs : List (List Char))
    (more : List Recv) (hL : (c0 ++ cs.flatten).length < 2 ^ 31)
    (hc0 : 5 + (decimal (c0 ++ cs.flatten).length).length + 1 + c0.length
      ≤ Client.MAXFILESIZE)
    (hcs : ∀ c ∈ cs, c ≠ [] ∧
      5 + (decimal (c0 ++ cs.flatten).length).length + 1 + c.length ≤ Client.MAXFILESIZE) :
    Client.waitmsg zip
        (.data ("SIZE:".toList ++ decimal (c0 ++ cs.flatten).length ++ '\n' :: c0)
          :: (cs.map Recv.data ++ more)) =
      some { status := Client.FILE, archive := c0 ++ cs.flatten,
             extracted := decide (zip = 0), unlinked := decide (zip = 0), rest := more } := by
  obtain ⟨n, hn, hrun⟩ := waitLoop_frame c0 cs more hL hc0 hcs
  unfold Client.waitmsg
  rw [hrun]
  have h1 : Client.FILE ≠ Client.ERR := by decide
  have h2 : Client.FILE ≠ Client.OK := by decide
  simp only [not_lt.mpr hn, if_false, h1, h2, if_true]
  by_cases hz : zip = 0
  · simp [hz]
  · simp [hz]

/-- The lemma `waitmsg_counts_payload` on the payload abcde read as ab, c, de,
with more to come. -/
theorem waitmsg_counts_payload_sample :
    Client.waitmsg 0
        (.data ("SIZE:".toList ++ decimal ("ab".toList ++
            ["c".toList, "de".toList].flatten).length ++ '\n' :: "ab".toList)
          :: (["c".toList, "de".toList].map Recv.data ++ [.data "xx".toList])) =
      some { status := Client.FILE,
             archive := "ab".toList ++ ["c".toList, "de".toList].flatten,
             extracted := decide ((0 : Int) = 0), unlinked := decide ((0 : Int) = 0),
             rest := [.data "xx".toList] } :=
  waitmsg_counts_payload 0 "ab".toList ["c".toList, "de".toList] [.data "xx".toList]
    (by decide) (by decide) (by decide)

/-! ## The redirect reply -/

/-- C23: whatever the outcomes of the `connect` calls, `connect_retry` returns
the descriptor of the first of at most 8 attempts that succeeds, having slept
1, 2, 4, ... units after the failed attempts before it; when all 8 attempts
fail it returns -1 after the seven sleeps 1, 2, 4, 8, 16, 32, 64, which add up
to 127, with no sleep after the eighth failure. -/
theorem C23_connect_retry_backoff (conn : Nat → Bool) (fd : Nat → Int) :
    (∀ j, j < 8 → (∀ i, i < j → conn i = false) → conn j = true →
      Client.connect_retry (fun k => if conn k then .connected (fd k) else .refused) =
        { result := fd j, sleeps := (List.range j).map (fun i => 2 ^ i), attempts := j + 1 }) ∧
    ((∀ i, i < 8 → conn i = false) →
      Client.connect_retry (fun k => if conn k then .connected (fd k) else .refused) =
        { result := -1, sleeps := [1, 2, 4, 8, 16, 32, 64], attempts := 8 }) ∧
    ([1, 2, 4, 8, 16, 32, 64] : List Nat).sum = 127 := by
  refine ⟨?_, ?_, by decide⟩
  · intro j hj hfail hsucc
    have h0 := hfail 0
    have h1 := hfail 1
    have h2 := hfail 2
    have h3 := hfail 3
    have h4 := hfail 4
    have h5 := hfail 5
    have h6 := hfail 6
    interval_cases j <;>
      simp_all [Client.connect_retry, Client.connect_loop, Client.MAXSLEEP, List.range_succ]
  · intro hfail
    have h0 := hfail 0 (by decide)
    have h1 := hfail 1 (by decide)
    have h2 := hfail 2 (by decide)
    have h3 := hfail 3 (by decide)
    have h4 := hfail 4 (by decide)
    have h5 := hfail 5 (by decide)
    have h6 := hfail 6 (by decide)
    have h7 := hfail 7 (by decide)
    simp [Client.connect_retry, Client.connect_loop, Client.MAXSLEEP, h0, h1, h2, h3, h4, h5,
      h6, h7]

/-- The theorem C23 when the fourth attempt is the first to succeed, and when
none does. -/
theorem C23_connect_retry_backoff_witness :
    Client.connect_retry
        (fun k => if (fun i => decide (i = 3)) k then .connected ((fun _ => 5) k) else .refused) =
      { result := 5, sleeps := (List.range 3).map (fun i => 2 ^ i), attempts := 3 + 1 } ∧
    Client.connect_retry
        (fun k => if (fun _ => false) k then .connected ((fun _ => 5) k) else .refused) =
      { result := -1, sleeps := [1, 2, 4, 8, 16, 32, 64], attempts := 8 } :=
  ⟨(C23_connect_retry_backoff (fun i => decide (i = 3)) (fun _ => 5)).1 3 (by decide)
      (by intro i hi; simp; omega) (by simp),
   (C23_connect_retry_backoff (fun _ => false) (fun _ => 5)).2.1 (by intro i _; rfl)⟩

/-! ## The gate and the counter of the listening process -/

theorem sigusr1_handler_nclient (msg : CStr) (s sock : Socketfd)
    (h : sigusr1_handler msg s = some sock) : sock.nclient = s.nclient := by
  unfold sigusr1_handler at h
  split at h
  · exact absurd h (by simp)
  · split at h
    · exact absurd h (by simp)
    · simp only [Option.some.injEq] at h
      rw [← h]

/-- No step of the listening process closes an open gate. -/
theorem step_keeps_open (s : Server) (ev : Event) (h : s.g.socketfd.dirty = 0) :
    (step s ev).g.socketfd.dirty = 0 := by
  cases ev with
  | connect ok host port =>
    unfold step
    by_cases hpc : s.pc = .accepting
    · simp only [hpc, if_true]
      rcases accepted_fd_cases ok s.g.socketfd with hfd | hfd <;> rw [hfd] <;> exact h
    · simp only [hpc, if_false]
      exact h
  | fork ok =>
    unfold step
    cases hpc : s.pc <;> simp only [] <;> try exact h
    cases ok
    · simp only [Bool.false_eq_true, if_false]
      exact h
    · simp only [if_true]
      exact h
  | install =>
    unfold step
    by_cases hpc : s.pc = .forked
    · simp only [hpc, if_true]
      exact h
    · simp only [hpc, if_false]
      exact h
  | resume =>
    unfold step
    simp only []
    split
    · exact h
    · exact h
  | sigusr1 msg =>
    unfold step
    simp only []
    split
    · exact h
    · split
      · cases hh : sigusr1_handler msg s.g.socketfd with
        | none => exact h
        | some sock => exact sigusr1_handler_dirty msg s.g.socketfd sock hh
      · exact h

theorem foldl_keeps_open (evs : List Event) :
    ∀ s : Server, s.g.socketfd.dirty = 0 → (evs.foldl step s).g.socketfd.dirty = 0 := by
  induction evs with
  | nil => intro s h; exact h
  | cons ev rest ih =>
    intro s h
    exact ih (step s ev) (step_keeps_open s ev h)

/-- Once a registration has been processed the gate is open. -/
theorem step_delivered_open (s : Server) (ev : Event)
    (h : s.delivered ≠ [] → s.g.socketfd.dirty = 0) :
    (step s ev).delivered ≠ [] → (step s ev).g.socketfd.dirty = 0 := by
  by_cases hd : s.g.socketfd.dirty = 0
  · intro _
    exact step_keeps_open s ev hd
  · have hnil : s.delivered = [] := by
      by_contra hne
      exact hd (h hne)
    cases ev with
    | connect ok host port =>
      unfold step
      by_cases hpc : s.pc = .accepting
      · simp only [hpc, if_true]
        intro hne
        exact absurd hnil hne
      · simp only [hpc, if_false]
        exact h
    | fork ok =>
      unfold step
      cases hpc : s.pc <;> simp only [] <;> try exact h
      cases ok
      · simp only [Bool.false_eq_true, if_false]
        intro hne
        exact absurd hnil hne
      · simp only [if_true]
        intro hne
        exact absurd hnil hne
    | install =>
      unfold step
      by_cases hpc : s.pc = .forked
      · simp only [hpc, if_true]
        exact h
      · simp only [hpc, if_false]
        exact h
    | resume =>
      unfold step
      simp only []
      split
      · exact h
      · exact h
    | sigusr1 msg =>
      unfold step
      simp only []
      split
      · exact h
      · split
        · cases hh : sigusr1_handler msg s.g.socketfd with
          | none => exact h
          | some sock =>
            intro _
            exact sigusr1_handler_dirty msg s.g.socketfd sock hh
        · exact h

theorem foldl_delivered_open (evs : List Event) :
    ∀ s : Server, (s.delivered ≠ [] → s.g.socketfd.dirty = 0) →
      (evs.foldl step s).delivered ≠ [] → (evs.foldl step s).g.socketfd.dirty = 0 := by
  induction evs with
  | nil => intro s h; exact h
  | cons ev rest ih =>
    intro s h
    exact ih (step s ev) (step_delivered_open s ev h)

/-- C24: the gate of the listening process is closed initially; no step of the
process closes an open gate; so in every state reached after a registration
has been processed the gate is open, it is still open after any further
events, and the wait on the gate after a fork is left at once. -/
theorem C24_gate_one_way :
    Server.init.g.socketfd.dirty ≠ 0 ∧
    (∀ (s : Server) (ev : Event), s.g.socketfd.dirty = 0 → (step s ev).g.socketfd.dirty = 0) ∧
    (∀ evs : List Event, (run evs).delivered ≠ [] → (run evs).g.socketfd.dirty = 0) ∧
    (∀ evs more : List Event, (run evs).delivered ≠ [] →
      (run (evs ++ more)).g.socketfd.dirty = 0) ∧
    (∀ s : Server, s.g.socketfd.dirty = 0 → s.pc = .waiting →
      (step s .resume).pc = .accepting) := by
  have hrun : ∀ evs : List Event, (run evs).delivered ≠ [] → (run evs).g.socketfd.dirty = 0 :=
    fun evs => foldl_delivered_open evs Server.init (fun hne => absurd rfl hne)
  refine ⟨by decide, step_keeps_open, hrun, ?_, ?_⟩
  · intro evs more hne
    unfold run
    rw [List.foldl_append]
    exact foldl_keeps_open more _ (hrun evs hne)
  · intro s hd hpc
    unfold step
    simp only [hpc, hd, and_self, if_true]

/-- The theorem C24 after the bootstrap connection and its registration,
followed by two more connections. -/
theorem C24_gate_one_way_witness :
    (run [.connect true "h".toList "1".toList, .fork true, .install,
        .sigusr1 "h 9000".toList]).delivered ≠ [] ∧
    (run ([.connect true "h".toList "1".toList, .fork true, .install,
        .sigusr1 "h 9000".toList] ++
      [.resume, .connect true "k".toList "2".toList, .fork true, .install, .resume,
        .connect true "l".toList "3".toList])).g.socketfd.dirty = 0 :=
  ⟨by decide,
   C24_gate_one_way.2.2.2.1
     [.connect true "h".toList "1".toList, .fork true, .install, .sigusr1 "h 9000".toList]
     [.resume, .connect true "k".toList "2".toList, .fork true, .install, .resume,
       .connect true "l".toList "3".toList] (by decide)⟩

theorem counted_step (s : Server) (ev : Event) (h : Counted s) : Counted (step s ev) := by
  cases ev with
  | connect ok host port =>
    unfold step
    by_cases hpc : s.pc = .accepting
    · simp only [hpc, if_true]
      refine ⟨h.child, ?_⟩
      rcases h.count with hd | hc
      · rw [hpc] at hd
        exact absurd hd (by simp)
      · rcases accepted_fd_cases ok s.g.socketfd with hfd | hfd <;> rw [hfd] <;>
          exact Or.inr hc
    · simp only [hpc, if_false]
      exact h
  | fork ok =>
    unfold step
    cases hpc : s.pc with
    | accepted conn =>
      simp only []
      have hc : s.g.socketfd.nclient + 1 = s.sessions.length := by
        rcases h.count with hd | hc
        · rw [hpc] at hd
          exact absurd hd (by simp)
        · exact hc
      cases ok with
      | true =>
        simp only [if_true]
        refine ⟨?_, Or.inr ?_⟩
        · intro i sess hi
          by_cases hlt : i < s.sessions.length
          · rw [List.getElem?_append_left hlt] at hi
            exact h.child i sess hi
          · rw [List.getElem?_append_right (by omega)] at hi
            have hi0 : i - s.sessions.length = 0 := by
              by_contra hne
              have : 1 ≤ i - s.sessions.length := by omega
              rw [List.getElem?_eq_none (by simpa using this)] at hi
              exact absurd hi (by simp)
            rw [hi0] at hi
            simp only [List.getElem?_cons_zero, Option.some.injEq] at hi
            rw [← hi]
            show s.g.socketfd.nclient + 1 = (i : Int)
            omega
        · show s.g.socketfd.nclient + 1 + 1 = ((s.sessions ++ [_]).length : Int)
          rw [List.length_append, List.length_singleton]
          push_cast
          omega
      | false =>
        simp only [Bool.false_eq_true, if_false]
        exact ⟨h.child, Or.inl rfl⟩
    | accepting => exact h
    | forked => exact h
    | waiting => exact h
    | dead => exact h
  | install =>
    unfold step
    by_cases hpc : s.pc = .forked
    · simp only [hpc, if_true]
      refine ⟨h.child, ?_⟩
      rcases h.count with hd | hc
      · rw [hpc] at hd
        exact absurd hd (by simp)
      · exact Or.inr hc
    · simp only [hpc, if_false]
      exact h
  | resume =>
    unfold step
    simp only []
    split
    · refine ⟨h.child, ?_⟩
      rename_i hw
      rcases h.count with hd | hc
      · rw [hw.1] at hd
        exact absurd hd (by simp)
      · exact Or.inr hc
    · exact h
  | sigusr1 msg =>
    unfold step
    simp only []
    split
    · exact h
    · rename_i hnd
      split
      · cases hh : sigusr1_handler msg s.g.socketfd with
        | none => exact ⟨h.child, Or.inl rfl⟩
        | some sock =>
          refine ⟨h.child, ?_⟩
          rcases h.count with hd | hc
          · exact absurd hd hnd
          · right
            show sock.nclient + 1 = _
            rw [sigusr1_handler_nclient msg s.g.socketfd sock hh]
            exact hc
      · exact ⟨h.child, Or.inl rfl⟩

theorem counted_foldl (evs : List Event) :
    ∀ s : Server, Counted s → Counted (evs.foldl step s) := by
  induction evs with
  | nil => intro s h; exact h
  | cons ev rest ih =>
    intro s h
    exact ih (step s ev) (counted_step s ev h)

/-- The child forked in the i-th iteration of the accept loop, counted from 0,
evaluates its admission decision at the counter value i. -/
theorem session_counter (evs : List Event) (i : Nat) (sess : Session)
    (h : (run evs).sessions[i]? = some sess) : sess.globals.socketfd.nclient = i :=
  (counted_foldl evs Server.init
    ⟨fun i sess hi => absurd hi (by simp [Server.init]), Or.inr (by decide)⟩).child i sess h

/-- C26: the counter starts at -1 and the child of the i-th iteration has
counter i; but an iteration whose `accept` failed counts too. When the second
`accept` fails, the session of the second accepted connection has its
admission decision evaluated at n = 2, not at n = 1. -/
theorem C26_failed_accept_counts :
    Server.init.g.socketfd.nclient = -1 ∧
    (run [.connect true "h".toList "1".toList, .fork true, .install,
        .sigusr1 "h 9000".toList, .resume,
        .connect false [] [], .fork true, .install, .resume,
        .connect true "k".toList "2".toList, .fork true]).sessions.map
      (fun sess => (sess.connected, sess.globals.socketfd.nclient)) =
      [(true, 0), (false, 1), (true, 2)] ∧
    ((run [.connect true "h".toList "1".toList, .fork true, .install,
        .sigusr1 "h 9000".toList, .resume,
        .connect false [] [], .fork true, .install, .resume,
        .connect true "k".toList "2".toList, .fork true]).sessions.filter
      (fun sess => sess.connected)).map (fun sess => sess.globals.socketfd.nclient) = [0, 2] := by
  decide

/-! ## Registration of the mirror -/

/-- The primary's `eval` on `MIRROR p`: the announced port replaces the peer's
source port in `client_port`. -/
theorem eval_mirror (E : Env) (fs : Walk) (g : Globals) (p : CStr)
    (hp : p ≠ [] ∧ ' ' ∉ p) :
    eval E fs ("MIRROR ".toList ++ p ++ ['\n']) g =
      .ok () { g with status := MIRROR, message := "tar -czf temp.tar.gz".toList,
                      client_port := p } := by
  have hparse : parse ("MIRROR ".toList ++ p ++ ['\n']) = (2, ["MIRROR".toList, p]) := by
    have h := parse_tokens ["MIRROR".toList, p] (by simp)
      (by
        intro t ht
        simp only [List.mem_cons, List.mem_singleton, List.not_mem_nil, or_false] at ht
        rcases ht with rfl | rfl
        · exact ⟨by decide, by decide⟩
        · exact hp) '\n'
    simpa [List.intercalate] using h
  unfold eval
  rw [hparse]
  rfl

/-- What the session handler does on `MIRROR p` once the archive of the data
directory has been made and opened: it sends the archive; then, when the host
name recorded for the peer, a space, `p` and the terminator fit `msg2parent`,
it writes them to `pipefd[1]`, signals the listening process and exits; when
they do not fit, `sprintf` has written past `msg2parent`. -/
theorem process_mirror (E : Env) (w : Walk) (g : Globals) (p : CStr) (inp : Inputs) (n : Int)
    (hp : p ≠ [] ∧ ' ' ∉ p) (hp0 : '\x00' ∉ p)
    (hrecv : inp.recv = [.data ("MIRROR ".toList ++ p ++ ['\n'])])
    (hfiles : inp.files = .file n) (hsys : inp.system_ok = true) :
    process E w inp g =
      if (g.client_hostname ++ " ".toList ++ p).length < MAXLINE then
        .exit 0 (close_fds (emit .kill_usr1
          (write_pipefd (g.client_hostname ++ " ".toList ++ p ++ ['\x00'])
            { g with
              status := MIRROR, message := "tar -czf temp.tar.gz".toList, client_port := p,
              trace := g.trace ++
                [Effect.system ("tar -czf files.tar.gz ".toList ++ PATH ++ "/".toList),
                 Effect.send ("SIZE:".toList ++ fmt_d n ++ ['\n']),
                 Effect.sendfile n,
                 Effect.unlink "files.tar.gz".toList] })))
      else
        .overrun { g with
          status := MIRROR, message := "tar -czf temp.tar.gz".toList, client_port := p,
          trace := g.trace ++
            [Effect.system ("tar -czf files.tar.gz ".toList ++ PATH ++ "/".toList),
             Effect.send ("SIZE:".toList ++ fmt_d n ++ ['\n']),
             Effect.sendfile n,
             Effect.unlink "files.tar.gz".toList] } := by
  have hline0 : '\x00' ∉ "MIRROR ".toList ++ p ++ ['\n'] := by
    intro hm
    rcases List.mem_append.mp hm with h | h
    · rcases List.mem_append.mp h with h | h
      · exact absurd h (by decide)
      · exact hp0 h
    · exact absurd h (by decide)
  have hr := recvLine_line inp ("MIRROR ".toList ++ p) hrecv
  have he := eval_mirror E w g p hp
  rw [← cstr_plain _ hline0] at he
  have hn : ¬ (((("MIRROR ".toList ++ p ++ ['\n']).length : Nat) : Int) < 0) := by
    have := Int.ofNat_nonneg ("MIRROR ".toList ++ p ++ ['\n']).length
    omega
  unfold process
  simp only [hr, hn, if_false, he, hfiles, hsys]
  simp [emit, send_file, MIRROR, OK, ERR, BUSY, FILE]

theorem accepted_fd_pipe (ok : Bool) (x : Socketfd) :
    (accepted_fd ok x).pipefd1 = PipeEnd.pipe ↔ x.pipefd1 = PipeEnd.pipe := by
  unfold accepted_fd
  split
  · rename_i hx
    simp [hx.2]
  · exact Iff.rfl

theorem sigusr1_handler_pipefd1 (msg : CStr) (s sock : Socketfd)
    (h : sigusr1_handler msg s = some sock) : sock.pipefd1 = s.pipefd1 := by
  unfold sigusr1_handler at h
  split at h
  · exact absurd h (by simp)
  · split at h
    · exact absurd h (by simp)
    · simp only [Option.some.injEq] at h
      rw [← h]

/-- What holds of the descriptor `pipefd[1]` in every state of the listening
process: it names the pipe as long as no child has been forked and not after;
and of the children exactly the one forked first starts with it naming the
pipe. -/
theorem pipe_step (s : Server) (ev : Event)
    (h : ((s.sessions = [] ∧ s.g.socketfd.pipefd1 = PipeEnd.pipe) ∨
        (s.sessions ≠ [] ∧ s.g.socketfd.pipefd1 ≠ PipeEnd.pipe)) ∧
      ∀ (i : Nat) (sess : Session), s.sessions[i]? = some sess →
        (sess.globals.socketfd.pipefd1 = PipeEnd.pipe ↔ i = 0)) :
    (((step s ev).sessions = [] ∧ (step s ev).g.socketfd.pipefd1 = PipeEnd.pipe) ∨
        ((step s ev).sessions ≠ [] ∧ (step s ev).g.socketfd.pipefd1 ≠ PipeEnd.pipe)) ∧
      ∀ (i : Nat) (sess : Session), (step s ev).sessions[i]? = some sess →
        (sess.globals.socketfd.pipefd1 = PipeEnd.pipe ↔ i = 0) := by
  obtain ⟨hab, hc⟩ := h
  cases ev with
  | connect ok host port =>
    unfold step
    by_cases hpc : s.pc = .accepting
    · simp only [hpc, if_true]
      refine ⟨?_, hc⟩
      rcases hab with ⟨h1, h2⟩ | ⟨h1, h2⟩
      · exact Or.inl ⟨h1, (accepted_fd_pipe ok _).mpr h2⟩
      · exact Or.inr ⟨h1, fun hx => h2 ((accepted_fd_pipe ok _).mp hx)⟩
    · simp only [hpc, if_false]
      exact ⟨hab, hc⟩
  | fork ok =>
    unfold step
    cases hpc : s.pc with
    | accepted conn =>
      simp only []
      cases ok with
      | true =>
        simp only [if_true]
        refine ⟨Or.inr ⟨by simp, by simp⟩, ?_⟩
        intro i sess hi
        by_cases hlt : i < s.sessions.length
        · rw [List.getElem?_append_left hlt] at hi
          exact hc i sess hi
        · rw [List.getElem?_append_right (by omega)] at hi
          have hi0 : i - s.sessions.length = 0 := by
            by_contra hne
            have : 1 ≤ i - s.sessions.length := by omega
            rw [List.getElem?_eq_none (by simpa using this)] at hi
            exact absurd hi (by simp)
          rw [hi0] at hi
          simp only [List.getElem?_cons_zero, Option.some.injEq] at hi
          rw [← hi]
          show s.g.socketfd.pipefd1 = PipeEnd.pipe ↔ i = 0
          rcases hab with ⟨h1, h2⟩ | ⟨h1, h2⟩
          · have hlen : s.sessions.length = 0 := by rw [h1]; rfl
            exact ⟨fun _ => by omega, fun _ => h2⟩
          · have hpos : 0 < s.sessions.length := List.length_pos.mpr h1
            exact ⟨fun hx => absurd hx h2, fun h0 => by omega⟩
      | false =>
        simp only [Bool.false_eq_true, if_false]
        exact ⟨hab, hc⟩
    | accepting => exact ⟨hab, hc⟩
    | forked => exact ⟨hab, hc⟩
    | waiting => exact ⟨hab, hc⟩
    | dead => exact ⟨hab, hc⟩
  | install =>
    unfold step
    by_cases hpc : s.pc = .forked
    · simp only [hpc, if_true]
      exact ⟨hab, hc⟩
    · simp only [hpc, if_false]
      exact ⟨hab, hc⟩
  | resume =>
    unfold step
    simp only []
    split
    · exact ⟨hab, hc⟩
    · exact ⟨hab, hc⟩
  | sigusr1 msg =>
    unfold step
    simp only []
    split
    · exact ⟨hab, hc⟩
    · split
      · cases hh : sigusr1_handler msg s.g.socketfd with
        | none => exact ⟨hab, hc⟩
        | some sock =>
          have hpf := sigusr1_handler_pipefd1 msg s.g.socketfd sock hh
          refine ⟨?_, hc⟩
          rcases hab with ⟨h1, h2⟩ | ⟨h1, h2⟩
          · exact Or.inl ⟨h1, hpf.trans h2⟩
          · exact Or.inr ⟨h1, fun hx => h2 (hpf.symm.trans hx)⟩
      · exact ⟨hab, hc⟩

theorem pipe_foldl (evs : List Event) :
    ∀ s : Server,
      (((s.sessions = [] ∧ s.g.socketfd.pipefd1 = PipeEnd.pipe) ∨
          (s.sessions ≠ [] ∧ s.g.socketfd.pipefd1 ≠ PipeEnd.pipe)) ∧
        ∀ (i : Nat) (sess : Session), s.sessions[i]? = some sess →
          (sess.globals.socketfd.pipefd1 = PipeEnd.pipe ↔ i = 0)) →
      ∀ (i : Nat) (sess : Session), (evs.foldl step s).sessions[i]? = some sess →
        (sess.globals.socketfd.pipefd1 = PipeEnd.pipe ↔ i = 0) := by
  induction evs with
  | nil => intro s h; exact h.2
  | cons ev rest ih =>
    intro s h
    exact ih (step s ev) (pipe_step s ev h)

/-- In every run of the listening process, of the children it has forked
exactly the first starts with `pipefd[1]` naming the write end of the pipe. -/
theorem first_child_holds_pipe (evs : List Event) (i : Nat) (sess : Session)
    (h : (run evs).sessions[i]? = some sess) :
    sess.globals.socketfd.pipefd1 = PipeEnd.pipe ↔ i = 0 :=
  pipe_foldl evs Server.init
    ⟨Or.inl ⟨rfl, rfl⟩, fun i sess hi => absurd hi (by simp [Server.init])⟩ i sess h

/-- What `MIRROR p` from a peer at host h leads to in the session of the first
child, where `pipefd[1]` names the pipe, when h, a space, p and the terminator
fit the 128 bytes of `msg2parent` (h without a space, p one token): whatever
source port was recorded for the peer, the session handler sends the archive
and then writes h + " " + p as a C string to the pipe and signals the
listening process; `sigusr1_handler` on that message stores exactly
(host = h, port = p) in the mirror record and opens the gate, also as a step
of the listening process. -/
theorem mirror_registration (E : Env) (w : Walk) (g : Globals) (p : CStr)
    (inp : Inputs) (n : Int)
    (hh : ' ' ∉ g.client_hostname) (hh0 : '\x00' ∉ g.client_hostname)
    (hp : p ≠ [] ∧ ' ' ∉ p) (hp0 : '\x00' ∉ p)
    (hfit : (g.client_hostname ++ " ".toList ++ p).length < MAXLINE)
    (hpipe : g.socketfd.pipefd1 = PipeEnd.pipe)
    (hrecv : inp.recv = [.data ("MIRROR ".toList ++ p ++ ['\n'])])
    (hfiles : inp.files = .file n) (hsys : inp.system_ok = true) :
    process E w inp g =
      .exit 0 { g with
        status := MIRROR, message := "tar -czf temp.tar.gz".toList, client_port := p,
        trace := g.trace ++
          [Effect.system ("tar -czf files.tar.gz ".toList ++ PATH ++ "/".toList),
           Effect.send ("SIZE:".toList ++ fmt_d n ++ ['\n']),
           Effect.sendfile n,
           Effect.unlink "files.tar.gz".toList,
           Effect.pipe_write (g.client_hostname ++ " ".toList ++ p ++ ['\x00']),
           Effect.kill_usr1, Effect.close_pipe, Effect.close_conn] } ∧
    (∀ sock : Socketfd,
      sigusr1_handler (cstr (g.client_hostname ++ " ".toList ++ p ++ ['\x00'])) sock =
        some { sock with mirror_hostname := g.client_hostname, mirror_port := p, dirty := 0 }) ∧
    (∀ s : Server, s.pc ≠ .dead → s.handler = true →
      (step s (.sigusr1 (cstr (g.client_hostname ++ " ".toList ++ p ++ ['\x00'])))).g.socketfd =
        { s.g.socketfd with mirror_hostname := g.client_hostname, mirror_port := p,
                            dirty := 0 }) := by
  have hmsg : cstr (g.client_hostname ++ " ".toList ++ p ++ ['\x00']) =
      g.client_hostname ++ ' ' :: p := by
    have h0 : '\x00' ∉ g.client_hostname ++ ' ' :: p := by
      intro hm
      rcases List.mem_append.mp hm with h | h
      · exact hh0 h
      · rcases List.mem_cons.mp h with h | h
        · exact absurd h (by decide)
        · exact hp0 h
    have := cstr_terminated (g.client_hostname ++ ' ' :: p) [] h0
    rw [← this]
    congr 1
    simp
  have hlen : ¬ MAXLINE ≤ (g.client_hostname ++ ' ' :: p).length := by
    have : (g.client_hostname ++ " ".toList ++ p).length =
        (g.client_hostname ++ ' ' :: p).length := by simp
    omega
  have hhandler : ∀ sock : Socketfd,
      sigusr1_handler (cstr (g.client_hostname ++ " ".toList ++ p ++ ['\x00'])) sock =
        some { sock with mirror_hostname := g.client_hostname, mirror_port := p,
                         dirty := 0 } := by
    intro sock
    rw [hmsg]
    unfold sigusr1_handler
    rw [if_neg hlen, strchr_token g.client_hostname p hh]
  refine ⟨?_, hhandler, ?_⟩
  · rw [process_mirror E w g p inp n hp hp0 hrecv hfiles hsys, if_pos hfit]
    simp [write_pipefd, close_fds, hpipe, emit]
  · intro s hpc hhd
    unfold step
    simp only [hpc, if_false, hhd, if_true, hhandler]

/-- The lemma `mirror_registration` for the peer host "mirror1" with source
port 51000 that announces the port 9001. -/
theorem mirror_registration_sample :
    process sampleEnv sampleWalk
        { recv := [.data ("MIRROR ".toList ++ "9001".toList ++ ['\n'])], temp := .bad 0,
          files := .file 120, system_ok := true }
        { sampleGlobals with client_hostname := "mirror1".toList,
                             client_port := "51000".toList } =
      .exit 0 { sampleGlobals with
        client_hostname := "mirror1".toList,
        status := MIRROR, message := "tar -czf temp.tar.gz".toList,
        client_port := "9001".toList,
        trace :=
          [Effect.system ("tar -czf files.tar.gz ".toList ++ PATH ++ "/".toList),
           Effect.send ("SIZE:".toList ++ fmt_d 120 ++ ['\n']),
           Effect.sendfile 120,
           Effect.unlink "files.tar.gz".toList,
           Effect.pipe_write ("mirror1".toList ++ " ".toList ++ "9001".toList ++ ['\x00']),
           Effect.kill_usr1, Effect.close_pipe, Effect.close_conn] } ∧
    sigusr1_handler (cstr ("mirror1".toList ++ " ".toList ++ "9001".toList ++ ['\x00']))
        sampleGlobals.socketfd =
      some { sampleGlobals.socketfd with mirror_hostname := "mirror1".toList,
                                         mirror_port := "9001".toList, dirty := 0 } :=
  have h := mirror_registration sampleEnv sampleWalk
    { sampleGlobals with client_hostname := "mirror1".toList, client_port := "51000".toList }
    "9001".toList
    { recv := [.data ("MIRROR ".toList ++ "9001".toList ++ ['\n'])], temp := .bad 0,
      files := .file 120, system_ok := true } 120
    (by decide) (by decide) ⟨by decide, by decide⟩ (by decide) (by decide) rfl rfl rfl rfl
  ⟨h.1, h.2.1 sampleGlobals.socketfd⟩

/-- C27: (1) for a peer whose host name has 125 characters that announces the
port 9001, the session handler of the first child sends the archive, and then
`sprintf` writes the 130 characters of host, space and port and the terminator
into the 128 bytes of `msg2parent`: nothing is written to the pipe and no
signal is sent; and `sigusr1_handler`, which reads at most 128 bytes, does not
find the end of such a message within `msg`. (2) In the session of a later
connection `pipefd[1]` no longer names the pipe but the connection itself (the
second child of the run shown): on `MIRROR 9001` from the host mirror1 the
bytes "mirror1 9001" and the terminator go to the peer, nothing is written to
the pipe, and the listening process is signalled all the same. -/
theorem C27_registration_not_delivered (E : Env) (w : Walk) (temp : Opened)
    (sock : Socketfd) :
    process E w
        { recv := [.data ("MIRROR ".toList ++ "9001".toList ++ ['\n'])], temp := temp,
          files := .file 120, system_ok := true }
        { sampleGlobals with client_hostname := List.replicate 125 'h',
                             client_port := "51000".toList } =
      .overrun { sampleGlobals with
        client_hostname := List.replicate 125 'h',
        status := MIRROR, message := "tar -czf temp.tar.gz".toList,
        client_port := "9001".toList,
        trace := [] ++
          [Effect.system ("tar -czf files.tar.gz ".toList ++ PATH ++ "/".toList),
           Effect.send ("SIZE:".toList ++ fmt_d 120 ++ ['\n']),
           Effect.sendfile 120,
           Effect.unlink "files.tar.gz".toList] } ∧
    (List.replicate 125 'h' ++ " ".toList ++ "9001".toList ++ ['\x00']).length = 131 ∧
    sigusr1_handler (List.replicate 125 'h' ++ " ".toList ++ "9001".toList) sock = none ∧
    (run [.connect true "mirror1".toList "51000".toList, .fork true, .install,
        .sigusr1 "mirror1 9001".toList, .resume,
        .connect true "mirror1".toList "51002".toList, .fork true]).sessions.map
      (fun sess => sess.globals.socketfd.pipefd1) = [PipeEnd.pipe, PipeEnd.conn] ∧
    process E w
        { recv := [.data ("MIRROR ".toList ++ "9001".toList ++ ['\n'])], temp := temp,
          files := .file 120, system_ok := true }
        { sampleGlobals with
          socketfd := { sampleGlobals.socketfd with pipefd1 := PipeEnd.conn },
          client_hostname := "mirror1".toList, client_port := "51002".toList } =
      .exit 0 { sampleGlobals with
        socketfd := { sampleGlobals.socketfd with pipefd1 := PipeEnd.conn },
        client_hostname := "mirror1".toList,
        status := MIRROR, message := "tar -czf temp.tar.gz".toList,
        client_port := "9001".toList,
        trace := [] ++
          [Effect.system ("tar -czf files.tar.gz ".toList ++ PATH ++ "/".toList),
           Effect.send ("SIZE:".toList ++ fmt_d 120 ++ ['\n']),
           Effect.sendfile 120,
           Effect.unlink "files.tar.gz".toList] ++
          [Effect.send ("mirror1".toList ++ " ".toList ++ "9001".toList ++ ['\x00'])] ++
          [Effect.kill_usr1] ++ [Effect.close_conn] } := by
  have hlong : ¬ (List.replicate 125 'h' ++ " ".toList ++ "9001".toList).length < MAXLINE := by
    rw [List.length_append, List.length_append, List.length_replicate]
    decide
  refine ⟨?_, ?_, ?_, by decide, ?_⟩
  · rw [process_mirror E w _ "9001".toList _ 120 (by decide) (by decide) rfl rfl rfl]
    exact if_neg hlong
  · rw [List.length_append, List.length_append, List.length_append, List.length_replicate]
    rfl
  · unfold sigusr1_handler
    rw [if_pos (not_lt.mp hlong)]
  · rw [process_mirror E w _ "9001".toList _ 120 (by decide) (by decide) rfl rfl rfl]
    rfl

/-! ## The message of the client -/

/-- The loop of `packmsg` appends every argument behind a space, except a `-u`
in the last place, which sets `zip` to 0 instead. -/
theorem packLoop_spec (args : List CStr) (hne : args ≠ []) (msg : CStr) (zip : Int) :
    Client.packLoop args msg zip =
      if args.getLast? = some "-u".toList then
        (msg ++ (args.dropLast.map (fun a => ' ' :: a)).flatten, 0)
      else (msg ++ (args.map (fun a => ' ' :: a)).flatten, zip) := by
  induction args generalizing msg with
  | nil => exact absurd rfl hne
  | cons a rest ih =>
    cases rest with
    | nil =>
      rw [Client.packLoop]
      by_cases ha : a = "-u".toList
      · rw [if_pos ha, if_pos (by simp [ha])]
        simp
      · rw [if_neg ha, if_neg (by simpa using ha)]
        simp
    | cons b rest2 =>
      rw [Client.packLoop, ih (by simp)]
      have hl : (a :: b :: rest2).getLast? = (b :: rest2).getLast? := by simp [List.getLast?]
      rw [hl]
      by_cases hu : (b :: rest2).getLast? = some "-u".toList
      · rw [if_pos hu, if_pos hu]
        simp
      · rw [if_neg hu, if_neg hu]
        simp

/-- C22, as stated, fails: `packmsg` accepts `sgetfiles 5 -u`, sends the `-u`
to the server as the third token and leaves `zip` at 1. -/
theorem C22_three_token_u_is_sent :
    Client.packmsg ["sgetfiles".toList, "5".toList, "-u".toList] =
      (some "sgetfiles 5 -u\n".toList, 1) := by
  decide

/-- C22, amended: for every command `packmsg` accepts, (a) for sgetfiles and
dgetfiles either the command has three tokens, which are sent joined by single
spaces and newline-terminated with `zip` = 1, or it has four tokens, the fourth
is -u, the first three are sent and `zip` = 0; (b) for getfiles and gettargz,
when the last argument is -u the message is the verb and the arguments before
it joined by single spaces and newline-terminated and `zip` = 0, and otherwise
the message is the verb and all arguments and `zip` = 1. -/
theorem C22_packmsg_trailing_u (argv : List CStr) (msg : CStr) (zip : Int)
    (hacc : Client.packmsg argv = (some msg, zip)) :
    ((argv.headD [] = "sgetfiles".toList ∨ argv.headD [] = "dgetfiles".toList) →
      (argv.length = 3 ∧ msg = List.intercalate [' '] argv ++ ['\n'] ∧ zip = 1) ∨
      (argv.length = 4 ∧ argv.getLast? = some "-u".toList ∧
        msg = List.intercalate [' '] argv.dropLast ++ ['\n'] ∧ zip = 0)) ∧
    ((argv.headD [] = "getfiles".toList ∨ argv.headD [] = "gettargz".toList) →
      (2 ≤ argv.length ∧ argv.getLast? = some "-u".toList ∧
        msg = List.intercalate [' '] argv.dropLast ++ ['\n'] ∧ zip = 0) ∨
      (2 ≤ argv.length ∧ argv.getLast? ≠ some "-u".toList ∧
        msg = List.intercalate [' '] argv ++ ['\n'] ∧ zip = 1)) := by
  constructor
  · intro hv
    have hnf : ¬ argv.headD [] = "findfile".toList := by
      rcases hv with h | h <;> rw [h] <;> decide
    unfold Client.packmsg at hacc
    dsimp only at hacc
    rw [if_neg hnf, if_pos hv] at hacc
    split at hacc
    · left
      simp only [Prod.mk.injEq, Option.some.injEq] at hacc
      refine ⟨rfl, ?_, hacc.2.symm⟩
      rw [← hacc.1]
      simp [List.intercalate]
    · split at hacc
      · rename_i hu
        right
        simp only [Prod.mk.injEq, Option.some.injEq] at hacc
        refine ⟨rfl, ?_, ?_, hacc.2.symm⟩
        · simp [hu]
        · rw [← hacc.1]
          simp [List.intercalate]
      · simp at hacc
    · simp at hacc
  · intro hv
    have hnf : ¬ argv.headD [] = "findfile".toList := by
      rcases hv with h | h <;> rw [h] <;> decide
    have hns : ¬ (argv.headD [] = "sgetfiles".toList ∨ argv.headD [] = "dgetfiles".toList) := by
      rcases hv with h | h <;> rw [h] <;> decide
    unfold Client.packmsg at hacc
    dsimp only at hacc
    rw [if_neg hnf, if_neg hns, if_pos hv] at hacc
    by_cases hlen : argv.length < 2 ∨ argv.length > 8
    · rw [if_pos hlen] at hacc
      simp at hacc
    · rw [if_neg hlen] at hacc
      by_cases h8 : argv.length = 8 ∧ argv[7]? ≠ some "-u".toList
      · rw [if_pos h8] at hacc
        simp at hacc
      · rw [if_neg h8] at hacc
        cases argv with
        | nil => exact absurd (Or.inl (by decide)) hlen
        | cons v args =>
          have hargs : args ≠ [] := by
            intro he
            rw [he] at hlen
            exact hlen (Or.inl (by simp))
          have h2 : 2 ≤ (v :: args).length := by
            cases args with
            | nil => exact absurd rfl hargs
            | cons _ _ => simp
          have hlast : (v :: args).getLast? = args.getLast? := by
            cases args with
            | nil => exact absurd rfl hargs
            | cons _ _ => simp [List.getLast?]
          have hdrop : (v :: args).dropLast = v :: args.dropLast := by
            cases args with
            | nil => exact absurd rfl hargs
            | cons _ _ => simp
          rw [show (v :: args).headD [] = v from rfl, show (v :: args).drop 1 = args from rfl,
            packLoop_spec args hargs] at hacc
          by_cases hu : args.getLast? = some "-u".toList
          · rw [if_pos hu] at hacc
            simp only [Prod.mk.injEq, Option.some.injEq] at hacc
            left
            refine ⟨h2, by rw [hlast, hu], ?_, hacc.2.symm⟩
            rw [hdrop, intercalate_cons, ← hacc.1]
            rfl
          · rw [if_neg hu] at hacc
            simp only [Prod.mk.injEq, Option.some.injEq] at hacc
            right
            refine ⟨h2, by rw [hlast]; exact hu, ?_, ?_⟩
            · rw [intercalate_cons, ← hacc.1]
              rfl
            · rw [← hacc.2]
              have hn8 : ¬ (v :: args).length = 8 := by
                intro hl
                apply hu
                rw [← hlast, List.getLast?_eq_getElem?, hl]
                by_contra hne
                exact h8 ⟨hl, hne⟩
              rw [if_neg hn8]

/-- The theorem C22 at `getfiles a.txt -u`. -/
theorem C22_packmsg_trailing_u_witness :
    Client.packmsg ["getfiles".toList, "a.txt".toList, "-u".toList] =
      (some "getfiles a.txt\n".toList, 0) ∧
    ((2 ≤ ["getfiles".toList, "a.txt".toList, "-u".toList].length ∧
        ["getfiles".toList, "a.txt".toList, "-u".toList].getLast? = some "-u".toList ∧
        "getfiles a.txt\n".toList =
          List.intercalate [' '] ["getfiles".toList, "a.txt".toList, "-u".toList].dropLast
            ++ ['\n'] ∧
        (0 : Int) = 0) ∨
      (2 ≤ ["getfiles".toList, "a.txt".toList, "-u".toList].length ∧
        ["getfiles".toList, "a.txt".toList, "-u".toList].getLast? ≠ some "-u".toList ∧
        "getfiles a.txt\n".toList =
          List.intercalate [' '] ["getfiles".toList, "a.txt".toList, "-u".toList] ++ ['\n'] ∧
        (0 : Int) = 1)) :=
  ⟨by decide,
   (C22_packmsg_trailing_u ["getfiles".toList, "a.txt".toList, "-u".toList]
      "getfiles a.txt\n".toList 0 (by decide)).2 (Or.inl (by decide))⟩

/-! ## The mirror's `eval` against the primary's -/

theorem mirror_compare_eq : Mirror.compare = compare := by
  funext E u st c1 c2 type
  unfold Mirror.compare compare
  split
  · rfl
  · cases c1 <;> cases c2 <;> rfl

theorem mirror_contains_eq : Mirror.contains = contains := by
  funext args fname
  induction args with
  | nil => rfl
  | cons a rest ih =>
    unfold Mirror.contains contains
    rw [ih]

theorem mirror_matchLoop_eq : Mirror.matchLoop = matchLoop := by
  funext args ext
  induction args with
  | nil => rfl
  | cons a rest ih =>
    unfold Mirror.matchLoop matchLoop
    rw [ih]

theorem mirror_match_eq : Mirror.match_ = match_ := by
  funext args fname
  unfold Mirror.match_ match_
  rw [mirror_matchLoop_eq]
  rfl

theorem mirror_findfile_eq : Mirror.findfile = findfile := rfl

theorem mirror_sdgetfiles_eq : Mirror.sdgetfiles = sdgetfiles := by
  funext E extr_arg e g
  unfold Mirror.sdgetfiles sdgetfiles
  rw [mirror_compare_eq]

theorem mirror_getfiles_eq : Mirror.getfiles = getfiles := by
  funext extr_arg e g
  unfold Mirror.getfiles getfiles
  rw [mirror_contains_eq]

theorem mirror_gettargz_eq : Mirror.gettargz = gettargz := by
  funext extr_arg e g
  unfold Mirror.gettargz gettargz
  rw [mirror_match_eq]

/-- On every command line whose verb is none of HELLO, MIRROR and dgetfiles,
for every walk and every state of the globals, the `eval` of the mirror gives
the same result as the `eval` of the primary (the same status, message and log
of calls, the archiver command among them), whatever their stacks hold, when
`ctime` gives both the same strings. -/
theorem mirror_eval_agrees (Ep Em : Env) (hct : Ep.ctime = Em.ctime) (w : Walk) (line : CStr)
    (g : Globals) (h1 : (parse line).2.headD [] ≠ "HELLO".toList)
    (h2 : (parse line).2.headD [] ≠ "MIRROR".toList)
    (h3 : (parse line).2.headD [] ≠ "dgetfiles".toList) :
    Mirror.eval Em w line g = eval Ep w line g := by
  unfold Mirror.eval eval
  cases hp : parse line with
  | mk argc argv =>
    rw [hp] at h1 h2 h3
    simp only [] at h1 h2 h3 ⊢
    have hff : Mirror.findfile Em argv = findfile Ep argv := by
      funext e g
      unfold Mirror.findfile findfile
      rw [hct]
    have hsd : argv.headD [] = "sgetfiles".toList →
        Mirror.sdgetfiles Em argv = sdgetfiles Ep argv := by
      intro hv
      funext e g
      unfold Mirror.sdgetfiles sdgetfiles Mirror.compare compare
      rw [hv]
      simp only [if_true]
    rw [hff, mirror_getfiles_eq, mirror_gettargz_eq, if_neg h1]
    by_cases hmax : (MAXARG : Int) < argc
    · rw [if_pos hmax, if_pos hmax]
    · rw [if_neg hmax, if_neg hmax]
      by_cases hlt : argc < 0
      · rw [if_pos hlt, if_pos hlt]
      · rw [if_neg hlt, if_neg hlt]
        by_cases hs : argv.headD [] = "sgetfiles".toList
        · rw [hsd hs]
          simp only [if_neg h2]
        · have hsd2 : ¬ (argv.headD [] = "sgetfiles".toList ∨
              argv.headD [] = "dgetfiles".toList) := by
            rintro (h | h)
            · exact hs h
            · exact h3 h
          simp only [if_neg hsd2, if_neg h2]

/-- When the mirror and the primary find the same stack contents (one
environment for both), their `eval`s agree on dgetfiles too. -/
theorem mirror_eval_same_stack (E : Env) (w : Walk) (line : CStr) (g : Globals)
    (h1 : (parse line).2.headD [] ≠ "HELLO".toList)
    (h2 : (parse line).2.headD [] ≠ "MIRROR".toList) :
    Mirror.eval E w line g = eval E w line g := by
  unfold Mirror.eval eval
  rw [mirror_findfile_eq, mirror_sdgetfiles_eq, mirror_getfiles_eq, mirror_gettargz_eq]
  cases hp : parse line with
  | mk argc argv =>
    rw [hp] at h1 h2
    simp only [] at h1 h2 ⊢
    rw [if_neg h1]
    by_cases hmax : (MAXARG : Int) < argc
    · rw [if_pos hmax, if_pos hmax]
    · rw [if_neg hmax, if_neg hmax]
      by_cases hlt : argc < 0
      · rw [if_pos hlt, if_pos hlt]
      · rw [if_neg hlt, if_neg hlt]
        simp only [if_neg h2]

/-- On a line of at most `MAXARG` tokens with the verb HELLO or MIRROR the
mirror's `eval` leaves status ERR and the message as it was initialised, as
for an unknown verb. -/
theorem mirror_eval_hello (E : Env) (w : Walk) (line : CStr) (g : Globals)
    (hargc : 0 ≤ (parse line).1) (hmax : (parse line).1 ≤ MAXARG)
    (hv : (parse line).2.headD [] = "HELLO".toList ∨
      (parse line).2.headD [] = "MIRROR".toList) :
    Mirror.eval E w line g =
      .ok () { g with status := ERR, message := "tar -czf temp.tar.gz".toList } := by
  unfold Mirror.eval
  cases hp : parse line with
  | mk argc argv =>
    rw [hp] at hargc hmax hv
    simp only [] at hargc hmax hv ⊢
    rw [if_neg (not_lt.mpr hmax), if_neg (not_lt.mpr hargc)]
    rcases hv with h | h <;> rw [h] <;> rfl

/-- The lemmas on the mirror's `eval` at `sgetfiles 100 200` on the sample
directory, with different stacks, and at `HELLO`. -/
theorem mirror_eval_sample :
    Mirror.eval stackEnvB sampleWalk "sgetfiles 100 200\n".toList sampleGlobals =
      eval stackEnvA sampleWalk "sgetfiles 100 200\n".toList sampleGlobals ∧
    Mirror.eval sampleEnv sampleWalk "HELLO\n".toList sampleGlobals =
      .ok () { sampleGlobals with status := ERR, message := "tar -czf temp.tar.gz".toList } :=
  ⟨mirror_eval_agrees stackEnvA stackEnvB rfl sampleWalk "sgetfiles 100 200\n".toList
      sampleGlobals (by decide) (by decide) (by decide),
   mirror_eval_hello sampleEnv sampleWalk "HELLO\n".toList sampleGlobals
      (by decide) (by decide) (Or.inl (by decide))⟩

/-- C28: for dgetfiles the two programs need not agree. `compare` takes its
upper bound from a `struct tm` it never writes, so the answer depends on what
the stack holds, and the mirror and the primary each have their own stack:
with the same `ctime`, `mktime` and `sscanf`, on the same directory (one file
created at time 100) and the same command line, the primary, finding zeros,
selects nothing and runs no archiver, while the mirror, finding 200 in the
year field, archives the file. -/
theorem C28_dgetfiles_depends_on_stack :
    stackEnvA.ctime = stackEnvB.ctime ∧ stackEnvA.mktime = stackEnvB.mktime ∧
    stackEnvA.sscanf_year = stackEnvB.sscanf_year ∧
    eval stackEnvA
        ([⟨"data".toList, ⟨4096, 100⟩, .FTW_D⟩, ⟨"data/f".toList, ⟨10, 100⟩, .FTW_F⟩] :
          List Entry)
        "dgetfiles Wed\tJun\t30\t21:49:08\t1993 Fri\tDec\t31\t23:59:59\t2094\n".toList
        sampleGlobals =
      .ok () { sampleGlobals with
        status := FILE,
        message := "tar -czf temp.tar.gz".toList,
        trace := [Effect.visit "data".toList, Effect.visit "data/f".toList] } ∧
    Mirror.eval stackEnvB
        ([⟨"data".toList, ⟨4096, 100⟩, .FTW_D⟩, ⟨"data/f".toList, ⟨10, 100⟩, .FTW_F⟩] :
          List Entry)
        "dgetfiles Wed\tJun\t30\t21:49:08\t1993 Fri\tDec\t31\t23:59:59\t2094\n".toList
        sampleGlobals =
      .ok () { sampleGlobals with
        status := FILE,
        message := "tar -czf temp.tar.gz data/f".toList,
        trace := [Effect.visit "data".toList, Effect.visit "data/f".toList,
          Effect.system "tar -czf temp.tar.gz data/f".toList] } :=
  ⟨rfl, rfl, rfl, rfl, rfl⟩

/-! ## A File frame without an archiver call -/

/-- C25: `sgetfiles 300 400` on the sample directory matches nothing, so
`system` is not called, and still the status is FILE; when a `temp.tar.gz` of
10 bytes lies in the working directory the session handler sends it as a File
frame: a File frame with no call of the archiver. -/
theorem C25_file_frame_without_archiver (E : Env) (g : Globals) (files : Opened) (sys : Bool) :
    process E sampleWalk
        { recv := [.data "sgetfiles 300 400\n".toList], temp := .file 10, files := files,
          system_ok := sys } g =
      .ok () { g with
        status := FILE,
        message := "tar -czf temp.tar.gz".toList,
        trace := g.trace ++ [Effect.visit "data".toList] ++ [Effect.visit "data/a.txt".toList]
          ++ [Effect.visit "data/b.c".toList] ++ [Effect.visit "data/c.txt".toList]
          ++ [Effect.send "SIZE:10\n".toList] ++ [Effect.sendfile 10]
          ++ [Effect.unlink "temp.tar.gz".toList] } ∧
    archiver_calls [Effect.visit "data".toList, Effect.visit "data/a.txt".toList,
      Effect.visit "data/b.c".toList, Effect.visit "data/c.txt".toList,
      Effect.send "SIZE:10\n".toList, Effect.sendfile 10,
      Effect.unlink "temp.tar.gz".toList] = [] ∧
    sends [Effect.visit "data".toList, Effect.visit "data/a.txt".toList,
      Effect.visit "data/b.c".toList, Effect.visit "data/c.txt".toList,
      Effect.send "SIZE:10\n".toList, Effect.sendfile 10,
      Effect.unlink "temp.tar.gz".toList] =
      [Effect.send "SIZE:10\n".toList, Effect.sendfile 10] :=
  ⟨rfl, rfl, rfl⟩

end FTP
